import Mathlib

/-! # Sparse optical-flow video players (lucas-kanade.cpp, foreground.cpp)

A shallow embedding of the two interactive players of the repository:
`LucasKanadeVideoPlayer` (src/lucas-kanade/lucas-kanade.cpp) and
`FkltVideoPlayer` (src/foreground-klt/foreground.cpp).

The imaging library is not part of the repository.  Its primitives are the
fields of the record `Cv`; every function of the players is written against an
arbitrary `Cv`.  Images (`cv::Mat`) and points (`cv::Point2f`) are abstract
types, the video source and the background model are abstract states.
Reads of `status[i]` and `points[i]` are fallible (`Option`): an index out of
range has no defined result in the source.

The video source adapter `CvVideoCapture` (frame rate, FourCC string), the
constructors and the main loop `operator()` of the players follow the players;
a frame rate (`double`) is an exact rational, and the quotient
`1000 / fps` of the constructors is the quotient of the two `double`s: the
exact quotient rounded to the nearest `double` (IEEE 754 binary64), then
converted to `int`.  The function `main` of the two programs is a function of
the arguments and of the key waits.

Four smaller pieces of the repository follow, each with its own model of the
matrices it works on: the class `BackgroundRemover` (images by their pixels),
the function `openVideo` of remove-background.cpp (streams by their
characters), the scans of scan-image.cpp (8-bit matrices by their headers
and the buffers of their bytes) and the function `centerOrigin` of dft.cpp
(matrices by their elements).
-/

set_option autoImplicit false

namespace OpenCvDemos

/-- The player runs at speed or steps frame by frame (`enum State`). -/
inductive State where
  | RUN
  | STEP
  deriving DecidableEq, Repr

/-- The pending hot-key or mouse request (`enum Mode`). -/
inductive Mode where
  | NONE
  | POINT
  | CLEAR
  | TRACK
  deriving DecidableEq, Repr

/-- The primitives of the imaging library used by the two players.
`V` is the state of a video source, `B` the state of a background model,
`Mat` an image, `Pt` a 2-D point. -/
structure Cv (V B Mat Pt : Type) where
  /-- The read `video >> frame`: the new source state and the frame read. -/
  read : V → V × Mat
  /-- The property `CAP_PROP_POS_FRAMES`, converted to `int`. -/
  getPosition : V → Int
  /-- Setting `CAP_PROP_POS_FRAMES`. -/
  setPosition : V → Int → V
  /-- The test `frame.data`: true when the image is not empty. -/
  hasData : Mat → Bool
  /-- The conversion `cvtColor(src, dst, COLOR_BGR2GRAY)`. -/
  cvtColor : Mat → Mat
  /-- The assignment `image = cv::Scalar::all(0)`. -/
  setToZero : Mat → Mat
  /-- The filled green disk of radius 3 drawn by `cv::circle`. -/
  circle : Mat → Pt → Mat
  /-- The detector `goodFeaturesToTrack` with the fixed parameters of the source. -/
  goodFeaturesToTrack : Mat → List Pt
  /-- The refinement `cornerSubPix` of one corner in place, for a square window
  of the given side. -/
  cornerSubPix : Mat → Nat → Pt → Pt
  /-- The pyramid of `buildOpticalFlowPyramid` (31x31 window, 3 levels). -/
  buildOpticalFlowPyramid : Mat → List Mat
  /-- The tracker `calcOpticalFlowPyrLK` on two pyramids: prior pyramid, next
  pyramid, prior points, the content of the in/out vector of next points;
  returns the next points and the status vector. -/
  calcOpticalFlowPyrLK : List Mat → List Mat → List Pt → List Pt → List Pt × List Nat
  /-- The tracker `calcOpticalFlowPyrLK` on two gray images. -/
  calcOpticalFlowImages : Mat → Mat → List Pt → List Pt → List Pt × List Nat
  /-- The call `itsBackgroundRemover(frame)`: the new model and the masked frame. -/
  removeBackground : B → Mat → B × Mat
  /-- The constructor `cv::Point2f(x, y)` on two `int`s. -/
  point2f : Int → Int → Pt
  /-- The test `video.isOpened()`. -/
  isOpened : V → Bool
  /-- The property `CAP_PROP_FPS`, a `double` taken as an exact rational. -/
  propFps : V → ℚ
  /-- The property `CAP_PROP_FRAME_COUNT`, converted to `int`. -/
  getFrameCount : V → Int
  /-- The source `cv::VideoCapture(fileName)`. -/
  openFile : String → V
  /-- The source `cv::VideoCapture(n)` on the camera `n`. -/
  openCamera : Int → V
  /-- The empty image `cv::Mat()`. -/
  emptyMat : Mat
  /-- The background model made by `makeBs()`. -/
  makeBs : B

/-- The tracker returns one candidate and one status per prior point. -/
def TrackerPerPoint {V B Mat Pt : Type} (cv : Cv V B Mat Pt) : Prop :=
  (∀ (a b : List Mat) (prior next : List Pt),
      (cv.calcOpticalFlowPyrLK a b prior next).1.length = prior.length ∧
      (cv.calcOpticalFlowPyrLK a b prior next).2.length = prior.length) ∧
  (∀ (a b : Mat) (prior next : List Pt),
      (cv.calcOpticalFlowImages a b prior next).1.length = prior.length ∧
      (cv.calcOpticalFlowImages a b prior next).2.length = prior.length)

/-! ## The Lucas-Kanade player -/

namespace LucasKanade

/-- The fields of `class LucasKanadeVideoPlayer`, with the window as two more
fields: `trackbar` (the "Position" trackbar, when there is one) and `shown`
(the images passed to `cv::imshow`, oldest first). -/
structure LucasKanadeVideoPlayer (V Mat Pt : Type) where
  video : V
  msDelay : Int
  frameCount : Int
  image : Mat
  itsFrame : Mat
  priorGray : Mat
  nextGray : Mat
  priorPoints : List Pt
  nextPoints : List Pt
  priorPyramid : List Mat
  nextPyramid : List Mat
  position : Int
  state : State
  night : Bool
  mode : Mode
  newPoint : Pt
  trackbar : Option Int
  shown : List Mat

variable {V B Mat Pt : Type}

/-- The function `drawGreenCircle`. -/
def drawGreenCircle (cv : Cv V B Mat Pt) (image : Mat) (center : Pt) : Mat :=
  cv.circle image center

/-- The function `getGoodTrackingPoints`: detect, then refine when there is a point. -/
def getGoodTrackingPoints (cv : Cv V B Mat Pt) (gray : Mat) : List Pt :=
  let result := cv.goodFeaturesToTrack gray
  if result.length > 0 then result.map (cv.cornerSubPix gray 10) else result

/-- The function `makePyramid`. -/
def makePyramid (cv : Cv V B Mat Pt) (gray : Mat) : List Mat :=
  cv.buildOpticalFlowPyramid gray

/-- The function `calculateFlow`: the next points written by the tracker and
the status vector it returns. -/
def calculateFlow (cv : Cv V B Mat Pt) (priorPyramid : List Mat) (priorPoints : List Pt)
    (nextPyramid : List Mat) (nextPoints : List Pt) : List Pt × List Nat :=
  cv.calcOpticalFlowPyrLK priorPyramid nextPyramid priorPoints nextPoints

/-- The loop of `drawPoints`: `n` iterations remain, `i` is the loop index. -/
def drawPointsLoop (cv : Cv V B Mat Pt) (status : List Nat) (points : List Pt) :
    Nat → Nat → Mat → List Pt → Option (Mat × List Pt)
  | 0, _, image, result => some (image, result)
  | n + 1, i, image, result =>
    match status[i]? with
    | none => none
    | some st =>
      if st ≠ 0 then
        match points[i]? with
        | none => none
        | some point =>
          drawPointsLoop cv status points n (i + 1) (drawGreenCircle cv image point)
            (result ++ [point])
      else drawPointsLoop cv status points n (i + 1) image result

/-- The function `drawPoints`: the image drawn on and the points drawn. -/
def drawPoints (cv : Cv V B Mat Pt) (image : Mat) (status : List Nat) (points : List Pt) :
    Option (Mat × List Pt) :=
  drawPointsLoop cv status points points.length 0 image []

/-- The function `addTrackingPoint`: the extended vector and the adjusted point. -/
def addTrackingPoint (cv : Cv V B Mat Pt) (points : List Pt) (gray : Mat) (newPoint : Pt) :
    List Pt × Pt :=
  let result := cv.cornerSubPix gray 31 newPoint
  (points ++ [result], result)

/-- The first statement of `handleModes`: blank the image at night. -/
def nightImage (cv : Cv V B Mat Pt) (s : LucasKanadeVideoPlayer V Mat Pt) :
    LucasKanadeVideoPlayer V Mat Pt :=
  if s.night then { s with image := cv.setToZero s.image } else s

/-- The chain `if (mode == CLEAR) .. else if (mode == TRACK) .. else if
(!priorPoints.empty()) ..` of `handleModes`. -/
def dispatchModes (cv : Cv V B Mat Pt) (s : LucasKanadeVideoPlayer V Mat Pt) :
    Option (LucasKanadeVideoPlayer V Mat Pt) :=
  if s.mode = Mode.CLEAR then
    some { s with priorPoints := [], nextPoints := [] }
  else if s.mode = Mode.TRACK then
    some { s with nextPoints := getGoodTrackingPoints cv s.nextGray }
  else if ¬ s.priorPoints.isEmpty then
    let nextPyramid := makePyramid cv s.nextGray
    let flow := calculateFlow cv s.priorPyramid s.priorPoints nextPyramid s.nextPoints
    match drawPoints cv s.image flow.2 flow.1 with
    | none => none
    | some drawn =>
      some { s with nextPyramid := nextPyramid, image := drawn.1, nextPoints := drawn.2 }
  else some s

/-- The statement `if (mode == POINT) ..` of `handleModes`. -/
def applyPoint (cv : Cv V B Mat Pt) (s : LucasKanadeVideoPlayer V Mat Pt) :
    LucasKanadeVideoPlayer V Mat Pt :=
  if s.mode = Mode.POINT then
    let added := addTrackingPoint cv s.nextPoints s.nextGray s.newPoint
    { s with nextPoints := added.1, image := drawGreenCircle cv s.image added.2 }
  else s

/-- The method `handleModes`. -/
def handleModes (cv : Cv V B Mat Pt) (s : LucasKanadeVideoPlayer V Mat Pt) :
    Option (LucasKanadeVideoPlayer V Mat Pt) :=
  (dispatchModes cv (nightImage cv s)).map fun s2 =>
    { applyPoint cv s2 with mode := Mode.NONE }

/-- The method `reset`. -/
def reset (cv : Cv V B Mat Pt) (s : LucasKanadeVideoPlayer V Mat Pt) :
    LucasKanadeVideoPlayer V Mat Pt :=
  let p := cv.getPosition s.video
  let grabbed := cv.read s.video
  let video := cv.setPosition grabbed.1 p
  let priorGray := cv.cvtColor grabbed.2
  let pyramid := makePyramid cv priorGray
  { s with video := video, itsFrame := grabbed.2, priorGray := priorGray,
           nextGray := priorGray, priorPyramid := pyramid, nextPyramid := pyramid }

/-- The statements of `showFrame` from the grab to the call of `handleModes`,
for a frame with data: position and trackbar, gray conversion, copy to image. -/
def prepareFrame (cv : Cv V B Mat Pt) (s : LucasKanadeVideoPlayer V Mat Pt) (video : V)
    (frame : Mat) : LucasKanadeVideoPlayer V Mat Pt :=
  let s1 := { s with video := video, itsFrame := frame }
  let s2 :=
    if s1.frameCount ≠ 0 then
      let position := cv.getPosition s1.video
      { s1 with position := position, trackbar := s1.trackbar.map fun _ => position }
    else s1
  { s2 with nextGray := cv.cvtColor s2.itsFrame, image := s2.itsFrame }

/-- The three `std::swap`s and the `cv::imshow` that end a displayed frame. -/
def swapAndShow (s : LucasKanadeVideoPlayer V Mat Pt) : LucasKanadeVideoPlayer V Mat Pt :=
  { s with priorPoints := s.nextPoints, nextPoints := s.priorPoints,
           priorGray := s.nextGray, nextGray := s.priorGray,
           priorPyramid := s.nextPyramid, nextPyramid := s.priorPyramid,
           shown := s.shown ++ [s.image] }

/-- The player when `handleModes` is entered on a displayed frame. -/
def atHandleModes (cv : Cv V B Mat Pt) (s : LucasKanadeVideoPlayer V Mat Pt) :
    LucasKanadeVideoPlayer V Mat Pt :=
  prepareFrame cv s (cv.read s.video).1 (cv.read s.video).2

/-- The player just before the swaps of a displayed frame: `handleModes` has run. -/
def beforeSwap (cv : Cv V B Mat Pt) (s : LucasKanadeVideoPlayer V Mat Pt) :
    Option (LucasKanadeVideoPlayer V Mat Pt) :=
  handleModes cv (atHandleModes cv s)

/-- The method `showFrame`. -/
def showFrame (cv : Cv V B Mat Pt) (s : LucasKanadeVideoPlayer V Mat Pt) :
    Option (LucasKanadeVideoPlayer V Mat Pt) :=
  let grabbed := cv.read s.video
  if cv.hasData grabbed.2 then
    (handleModes cv (prepareFrame cv s grabbed.1 grabbed.2)).map swapAndShow
  else
    some { s with video := grabbed.1, itsFrame := grabbed.2, state := State.STEP }

/-- The callback `onMouseClick`; `EVENT_LBUTTONDOWN` is 1. -/
def onMouseClick (cv : Cv V B Mat Pt) (event x y : Int) (s : LucasKanadeVideoPlayer V Mat Pt) :
    LucasKanadeVideoPlayer V Mat Pt :=
  if event = 1 then { s with newPoint := cv.point2f x y, mode := Mode.POINT } else s

/-- The statements of `onTrackBar` before its call of `showFrame`: seek, STEP, `reset`. -/
def seekAndReset (cv : Cv V B Mat Pt) (position : Int) (s : LucasKanadeVideoPlayer V Mat Pt) :
    LucasKanadeVideoPlayer V Mat Pt :=
  reset cv { s with video := cv.setPosition s.video position, state := State.STEP }

/-- The callback `onTrackBar`. -/
def onTrackBar (cv : Cv V B Mat Pt) (position : Int) (s : LucasKanadeVideoPlayer V Mat Pt) :
    Option (LucasKanadeVideoPlayer V Mat Pt) :=
  showFrame cv (seekAndReset cv position s)

/-- The `switch (c)` of `operator()`, where `c` is the key code converted to
`char` (its low 8 bits); `none` is the `return true` of the key q. -/
def onKey (key : Int) (s : LucasKanadeVideoPlayer V Mat Pt) :
    Option (LucasKanadeVideoPlayer V Mat Pt) :=
  let c := key % 256
  if c = 113 ∨ c = 81 then none
  else if c = 110 ∨ c = 78 then some { s with night := !s.night }
  else if c = 116 ∨ c = 84 then some { s with mode := Mode.TRACK }
  else if c = 99 ∨ c = 67 then some { s with mode := Mode.CLEAR }
  else if c = 114 ∨ c = 82 then some { s with state := State.RUN }
  else if c = 115 ∨ c = 83 then some { s with state := State.STEP }
  else some s

end LucasKanade

/-- What can happen to a player between two statements of its main loop: it
shows the next frame, a key other than q is handled, the mouse callback runs,
or the user moves the trackbar (the library stores the new value in `position`
and runs the trackbar callback). -/
inductive Action where
  | frame
  | key (code : Int)
  | mouse (event x y : Int)
  | drag (position : Int)
  deriving DecidableEq, Repr

namespace LucasKanade

variable {V B Mat Pt : Type}

/-- One action on the player; `none` when a read of the source is out of range. -/
def act (cv : Cv V B Mat Pt) (a : Action) (s : LucasKanadeVideoPlayer V Mat Pt) :
    Option (LucasKanadeVideoPlayer V Mat Pt) :=
  match a with
  | Action.frame => showFrame cv s
  | Action.key code => some ((onKey code s).getD s)
  | Action.mouse event x y => some (onMouseClick cv event x y s)
  | Action.drag p =>
    match s.trackbar with
    | none => some s
    | some _ => onTrackBar cv p { s with position := p, trackbar := some p }

/-- A sequence of actions, first to last. -/
def run (cv : Cv V B Mat Pt) : List Action → LucasKanadeVideoPlayer V Mat Pt →
    Option (LucasKanadeVideoPlayer V Mat Pt)
  | [], s => some s
  | a :: rest, s => (act cv a s).bind (run cv rest)

/-- The player on which `showFrame` runs when the action shows a frame: the
player itself in the main loop, the player after the seek and `reset` when the
trackbar is moved. -/
def frameInput (cv : Cv V B Mat Pt) : Action → LucasKanadeVideoPlayer V Mat Pt →
    Option (LucasKanadeVideoPlayer V Mat Pt)
  | Action.frame, s => some s
  | Action.drag p, s =>
    match s.trackbar with
    | none => none
    | some _ => some (seekAndReset cv p { s with position := p, trackbar := some p })
  | Action.key _, _ => none
  | Action.mouse _ _ _, _ => none

/-- The mode dispatched by `handleModes` on the frame the action displays, if
it displays one. -/
def dispatchedBy (cv : Cv V B Mat Pt) (a : Action) (s : LucasKanadeVideoPlayer V Mat Pt) : Option Mode :=
  match frameInput cv a s with
  | none => none
  | some s0 =>
    if cv.hasData (cv.read s0.video).2 then some ((atHandleModes cv s0).mode) else none

/-- No frame displayed along the actions dispatches TRACK or POINT. -/
def Quiet (cv : Cv V B Mat Pt) : List Action → LucasKanadeVideoPlayer V Mat Pt → Prop
  | [], _ => True
  | a :: rest, s =>
    dispatchedBy cv a s ≠ some Mode.TRACK ∧ dispatchedBy cv a s ≠ some Mode.POINT ∧
      match act cv a s with
      | none => True
      | some s1 => Quiet cv rest s1

end LucasKanade

/-! ## The foreground (background removal + KLT) player -/

namespace Foreground

/-- The fields of `class FkltVideoPlayer` (the unused `itsBodyHaar` apart),
with the window as two more fields: `trackbar` (the "Position" trackbar, when
there is one) and `shown` (the images passed to `cv::imshow`, oldest first). -/
structure FkltVideoPlayer (V B Mat Pt : Type) where
  video : V
  msDelay : Int
  frameCount : Int
  image : Mat
  itsFrame : Mat
  priorGray : Mat
  nextGray : Mat
  priorPoints : List Pt
  nextPoints : List Pt
  position : Int
  state : State
  night : Bool
  mode : Mode
  newPoint : Pt
  itsBackgroundRemover : B
  trackbar : Option Int
  shown : List Mat

variable {V B Mat Pt : Type}

/-- The function `drawGreenCircle`. -/
def drawGreenCircle (cv : Cv V B Mat Pt) (image : Mat) (center : Pt) : Mat :=
  cv.circle image center

/-- The function `getGoodTrackingPoints`: the detector alone. -/
def getGoodTrackingPoints (cv : Cv V B Mat Pt) (gray : Mat) : List Pt :=
  cv.goodFeaturesToTrack gray

/-- The loop of `drawPoints`: `n` iterations remain, `i` is the loop index,
`good` counts the points drawn. -/
def drawPointsLoop (cv : Cv V B Mat Pt) (status : List Nat) (points : List Pt) :
    Nat → Nat → Nat → Mat → List Pt → Option (Nat × Mat × List Pt)
  | 0, _, good, image, result => some (good, image, result)
  | n + 1, i, good, image, result =>
    match status[i]? with
    | none => none
    | some st =>
      if st ≠ 0 then
        match points[i]? with
        | none => none
        | some point =>
          drawPointsLoop cv status points n (i + 1) (good + 1) (drawGreenCircle cv image point)
            (result ++ [point])
      else drawPointsLoop cv status points n (i + 1) good image result

/-- The function `drawPoints`: the image drawn on and the points drawn (the
count `good` goes to the log only). -/
def drawPoints (cv : Cv V B Mat Pt) (image : Mat) (status : List Nat) (points : List Pt) :
    Option (Mat × List Pt) :=
  (drawPointsLoop cv status points points.length 0 0 image []).map fun r => r.2

/-- The method `drawFlowPoints`. -/
def drawFlowPoints (cv : Cv V B Mat Pt) (s : FkltVideoPlayer V B Mat Pt) :
    Option (FkltVideoPlayer V B Mat Pt) :=
  if ¬ s.priorPoints.isEmpty then
    let flow := cv.calcOpticalFlowImages s.priorGray s.nextGray s.priorPoints s.nextPoints
    match drawPoints cv s.image flow.2 flow.1 with
    | none => none
    | some drawn => some { s with image := drawn.1, nextPoints := drawn.2 }
  else some s

/-- The function `addTrackingPoint`: the extended vector and the adjusted point. -/
def addTrackingPoint (cv : Cv V B Mat Pt) (points : List Pt) (gray : Mat) (newPoint : Pt) :
    List Pt × Pt :=
  let result := cv.cornerSubPix gray 31 newPoint
  (points ++ [result], result)

/-- The first statement of `handleModes`: blank the image at night. -/
def nightImage (cv : Cv V B Mat Pt) (s : FkltVideoPlayer V B Mat Pt) :
    FkltVideoPlayer V B Mat Pt :=
  if s.night then { s with image := cv.setToZero s.image } else s

/-- The statement `if (0 == position % 16) mode = TRACK;` of `handleModes`
(`%` of C++ truncates). -/
def forceTrack (s : FkltVideoPlayer V B Mat Pt) : FkltVideoPlayer V B Mat Pt :=
  if 0 = Int.tmod s.position 16 then { s with mode := Mode.TRACK } else s

/-- The mode on which the chain of `handleModes` dispatches: the pending mode
after the statement `if (0 == position % 16) mode = TRACK;`. -/
def dispatchedMode (s : FkltVideoPlayer V B Mat Pt) : Mode :=
  (forceTrack s).mode

/-- The chain `if (mode == CLEAR) .. else if (mode == TRACK) .. else if
(mode == POINT) ..` of `handleModes`. -/
def dispatchModes (cv : Cv V B Mat Pt) (s : FkltVideoPlayer V B Mat Pt) :
    FkltVideoPlayer V B Mat Pt :=
  if s.mode = Mode.CLEAR then
    { s with priorPoints := [], nextPoints := [] }
  else if s.mode = Mode.TRACK then
    { s with priorPoints := getGoodTrackingPoints cv s.priorGray }
  else if s.mode = Mode.POINT then
    let added := addTrackingPoint cv s.nextPoints s.nextGray s.newPoint
    { s with nextPoints := added.1, image := drawGreenCircle cv s.image added.2 }
  else s

/-- The method `handleModes`. -/
def handleModes (cv : Cv V B Mat Pt) (s : FkltVideoPlayer V B Mat Pt) :
    FkltVideoPlayer V B Mat Pt :=
  { dispatchModes cv (forceTrack (nightImage cv s)) with mode := Mode.NONE }

/-- The method `reset`. -/
def reset (cv : Cv V B Mat Pt) (s : FkltVideoPlayer V B Mat Pt) : FkltVideoPlayer V B Mat Pt :=
  let p := cv.getPosition s.video
  let grabbed := cv.read s.video
  let video := cv.setPosition grabbed.1 p
  let removed := cv.removeBackground s.itsBackgroundRemover grabbed.2
  let nextGray := cv.cvtColor removed.2
  { s with video := video, itsFrame := grabbed.2, itsBackgroundRemover := removed.1,
           nextGray := nextGray, priorGray := nextGray }

/-- The statements of `showFrame` from the grab to the call of `handleModes`,
for a frame with data: position and trackbar, copy to image, background
removal and gray conversion. -/
def prepareFrame (cv : Cv V B Mat Pt) (s : FkltVideoPlayer V B Mat Pt) (video : V)
    (frame : Mat) : FkltVideoPlayer V B Mat Pt :=
  let s1 := { s with video := video, itsFrame := frame }
  let s2 :=
    if s1.frameCount ≠ 0 then
      let position := cv.getPosition s1.video
      { s1 with position := position, trackbar := s1.trackbar.map fun _ => position }
    else s1
  let removed := cv.removeBackground s2.itsBackgroundRemover s2.itsFrame
  { s2 with image := s2.itsFrame, itsBackgroundRemover := removed.1,
            nextGray := cv.cvtColor removed.2 }

/-- The two `std::swap`s and the `cv::imshow` that end a displayed frame. -/
def swapAndShow (s : FkltVideoPlayer V B Mat Pt) : FkltVideoPlayer V B Mat Pt :=
  { s with priorPoints := s.nextPoints, nextPoints := s.priorPoints,
           priorGray := s.nextGray, nextGray := s.priorGray,
           shown := s.shown ++ [s.image] }

/-- The player when `handleModes` is entered on a displayed frame. -/
def atHandleModes (cv : Cv V B Mat Pt) (s : FkltVideoPlayer V B Mat Pt) :
    FkltVideoPlayer V B Mat Pt :=
  prepareFrame cv s (cv.read s.video).1 (cv.read s.video).2

/-- The player just before the swaps of a displayed frame: `handleModes` and
`drawFlowPoints` have run. -/
def beforeSwap (cv : Cv V B Mat Pt) (s : FkltVideoPlayer V B Mat Pt) :
    Option (FkltVideoPlayer V B Mat Pt) :=
  drawFlowPoints cv (handleModes cv (atHandleModes cv s))

/-- The method `showFrame`. -/
def showFrame (cv : Cv V B Mat Pt) (s : FkltVideoPlayer V B Mat Pt) :
    Option (FkltVideoPlayer V B Mat Pt) :=
  let grabbed := cv.read s.video
  if cv.hasData grabbed.2 then
    (drawFlowPoints cv (handleModes cv (prepareFrame cv s grabbed.1 grabbed.2))).map swapAndShow
  else
    some { s with video := grabbed.1, itsFrame := grabbed.2, state := State.STEP }

/-- The callback `onMouseClick`; `EVENT_LBUTTONDOWN` is 1. -/
def onMouseClick (cv : Cv V B Mat Pt) (event x y : Int) (s : FkltVideoPlayer V B Mat Pt) :
    FkltVideoPlayer V B Mat Pt :=
  if event = 1 then { s with newPoint := cv.point2f x y, mode := Mode.POINT } else s

/-- The statements of `onTrackBar` before its call of `showFrame`: seek, STEP, `reset`. -/
def seekAndReset (cv : Cv V B Mat Pt) (position : Int) (s : FkltVideoPlayer V B Mat Pt) :
    FkltVideoPlayer V B Mat Pt :=
  reset cv { s with video := cv.setPosition s.video position, state := State.STEP }

/-- The callback `onTrackBar`. -/
def onTrackBar (cv : Cv V B Mat Pt) (position : Int) (s : FkltVideoPlayer V B Mat Pt) :
    Option (FkltVideoPlayer V B Mat Pt) :=
  showFrame cv (seekAndReset cv position s)

/-- The `switch (c)` of `operator()`, where `c` is the key code converted to
`char` (its low 8 bits); `none` is the `return true` of the key q. -/
def onKey (key : Int) (s : FkltVideoPlayer V B Mat Pt) : Option (FkltVideoPlayer V B Mat Pt) :=
  let c := key % 256
  if c = 113 ∨ c = 81 then none
  else if c = 110 ∨ c = 78 then some { s with night := !s.night }
  else if c = 116 ∨ c = 84 then some { s with mode := Mode.TRACK }
  else if c = 99 ∨ c = 67 then some { s with mode := Mode.CLEAR }
  else if c = 114 ∨ c = 82 then some { s with state := State.RUN }
  else if c = 115 ∨ c = 83 then some { s with state := State.STEP }
  else some s

/-- One action on the player; `none` when a read of the source is out of range. -/
def act (cv : Cv V B Mat Pt) (a : Action) (s : FkltVideoPlayer V B Mat Pt) :
    Option (FkltVideoPlayer V B Mat Pt) :=
  match a with
  | Action.frame => showFrame cv s
  | Action.key code => some ((onKey code s).getD s)
  | Action.mouse event x y => some (onMouseClick cv event x y s)
  | Action.drag p =>
    match s.trackbar with
    | none => some s
    | some _ => onTrackBar cv p { s with position := p, trackbar := some p }

/-- A sequence of actions, first to last. -/
def run (cv : Cv V B Mat Pt) : List Action → FkltVideoPlayer V B Mat Pt →
    Option (FkltVideoPlayer V B Mat Pt)
  | [], s => some s
  | a :: rest, s => (act cv a s).bind (run cv rest)

/-- The player on which `showFrame` runs when the action shows a frame: the
player itself in the main loop, the player after the seek and `reset` when the
trackbar is moved. -/
def frameInput (cv : Cv V B Mat Pt) : Action → FkltVideoPlayer V B Mat Pt →
    Option (FkltVideoPlayer V B Mat Pt)
  | Action.frame, s => some s
  | Action.drag p, s =>
    match s.trackbar with
    | none => none
    | some _ => some (seekAndReset cv p { s with position := p, trackbar := some p })
  | Action.key _, _ => none
  | Action.mouse _ _ _, _ => none

/-- The mode dispatched by `handleModes` on the frame the action displays, if
it displays one. -/
def dispatchedBy (cv : Cv V B Mat Pt) (a : Action) (s : FkltVideoPlayer V B Mat Pt) : Option Mode :=
  match frameInput cv a s with
  | none => none
  | some s0 =>
    if cv.hasData (cv.read s0.video).2 then some (dispatchedMode (atHandleModes cv s0)) else none

/-- No frame displayed along the actions dispatches TRACK or POINT. -/
def Quiet (cv : Cv V B Mat Pt) : List Action → FkltVideoPlayer V B Mat Pt → Prop
  | [], _ => True
  | a :: rest, s =>
    dispatchedBy cv a s ≠ some Mode.TRACK ∧ dispatchedBy cv a s ≠ some Mode.POINT ∧
      match act cv a s with
      | none => True
      | some s1 => Quiet cv rest s1

end Foreground

/-- The points whose status is not zero, in their order. -/
def survivors {Pt : Type} (status : List Nat) (points : List Pt) : List Pt :=
  ((points.zip status).filter (fun q => q.2 ≠ 0)).map Prod.fst

/-! ## A small instance of the library

Frames, gray images and display images are numbers (0 is the empty image), a
video is its list of frames with the index of the next frame to read, a point
is a pair of integers.  The tracker moves every point one step to the right
and loses all of them when the next gray image is 102.  The source reports
no frame rate (0) and, as its frame count, the length of its list. -/

namespace Sample

/-- The sample library. -/
def cv : Cv (List Nat × Nat) Nat Nat (Int × Int) where
  read := fun v => ((v.1, v.2 + 1), v.1.getD v.2 0)
  getPosition := fun v => (v.2 : Int)
  setPosition := fun v p => (v.1, p.toNat)
  hasData := fun m => decide (m ≠ 0)
  cvtColor := fun m => m + 100
  setToZero := fun _ => 500
  circle := fun m _ => m + 1000
  goodFeaturesToTrack := fun g => [((g : Int), 0), ((g : Int), 1)]
  cornerSubPix := fun _ _ p => (p.1, p.2 + 1)
  buildOpticalFlowPyramid := fun g => [g, g / 2, g / 4]
  calcOpticalFlowPyrLK := fun _ b prior _ =>
    (prior.map fun p => (p.1 + 1, p.2), prior.map fun _ => if b.head? = some 102 then 0 else 1)
  calcOpticalFlowImages := fun _ b prior _ =>
    (prior.map fun p => (p.1 + 1, p.2), prior.map fun _ => if b = 102 then 0 else 1)
  removeBackground := fun bg m => (bg + 1, m)
  point2f := fun x y => (x, y)
  isOpened := fun _ => true
  propFps := fun _ => 0
  getFrameCount := fun v => (v.1.length : Int)
  openFile := fun _ => ([1, 2, 3, 4], 0)
  openCamera := fun _ => ([1, 2, 3, 4], 0)
  emptyMat := 0
  makeBs := 1

/-- A Lucas-Kanade player on a file of four frames, as `reset` leaves it when
the constructor returns: no point, no request pending. -/
def lkFresh : LucasKanade.LucasKanadeVideoPlayer (List Nat × Nat) Nat (Int × Int) where
  video := ([1, 2, 3, 4], 0)
  msDelay := 33
  frameCount := 4
  image := 0
  itsFrame := 1
  priorGray := 101
  nextGray := 101
  priorPoints := []
  nextPoints := []
  priorPyramid := [101, 50, 25]
  nextPyramid := [101, 50, 25]
  position := 0
  state := State.STEP
  night := false
  mode := Mode.NONE
  newPoint := (0, 0)
  trackbar := some 0
  shown := []

/-- A foreground player on a file of four frames, as `reset` leaves it when
the constructor returns: no point, no request pending. -/
def fgFresh : Foreground.FkltVideoPlayer (List Nat × Nat) Nat Nat (Int × Int) where
  video := ([1, 2, 3, 4], 0)
  msDelay := 33
  frameCount := 4
  image := 0
  itsFrame := 1
  priorGray := 101
  nextGray := 101
  priorPoints := []
  nextPoints := []
  position := 0
  state := State.RUN
  night := false
  mode := Mode.NONE
  newPoint := (0, 0)
  itsBackgroundRemover := 1
  trackbar := some 0
  shown := []

/-- The Lucas-Kanade player `lkFresh` with two points being tracked. -/
def lkTracking : LucasKanade.LucasKanadeVideoPlayer (List Nat × Nat) Nat (Int × Int) :=
  { lkFresh with priorPoints := [(5, 5), (7, 7)] }

/-- The foreground player `fgFresh` with two points being tracked, after its
first frame (position 1). -/
def fgTracking : Foreground.FkltVideoPlayer (List Nat × Nat) Nat Nat (Int × Int) :=
  { fgFresh with priorPoints := [(5, 5), (7, 7)], video := ([1, 2, 3, 4], 1), position := 1 }

/-- The Lucas-Kanade player `lkTracking` at the end of its file. -/
def lkAtEnd : LucasKanade.LucasKanadeVideoPlayer (List Nat × Nat) Nat (Int × Int) :=
  { lkTracking with video := ([1, 2, 3, 4], 4), position := 4 }

/-- The foreground player `fgTracking` at the end of its file. -/
def fgAtEnd : Foreground.FkltVideoPlayer (List Nat × Nat) Nat Nat (Int × Int) :=
  { fgTracking with video := ([1, 2, 3, 4], 4), position := 4 }

/-- The Lucas-Kanade player `lkTracking` after the key c. -/
def lkClear : LucasKanade.LucasKanadeVideoPlayer (List Nat × Nat) Nat (Int × Int) :=
  { lkTracking with mode := Mode.CLEAR }

/-- The foreground player `fgTracking` after the key c. -/
def fgClear : Foreground.FkltVideoPlayer (List Nat × Nat) Nat Nat (Int × Int) :=
  { fgTracking with mode := Mode.CLEAR }

/-- The Lucas-Kanade player `lkTracking` after the key t. -/
def lkTrack : LucasKanade.LucasKanadeVideoPlayer (List Nat × Nat) Nat (Int × Int) :=
  { lkTracking with mode := Mode.TRACK }

/-- The foreground player `fgTracking` after the key t. -/
def fgTrack : Foreground.FkltVideoPlayer (List Nat × Nat) Nat Nat (Int × Int) :=
  { fgTracking with mode := Mode.TRACK }

/-- The Lucas-Kanade player `lkTracking` after a click at (120, 80). -/
def lkClick : LucasKanade.LucasKanadeVideoPlayer (List Nat × Nat) Nat (Int × Int) :=
  { lkTracking with mode := Mode.POINT, newPoint := (120, 80) }

/-- A foreground player on a camera (no frame count, no trackbar, position 0)
after a click at (120, 80). -/
def fgCameraClick : Foreground.FkltVideoPlayer (List Nat × Nat) Nat Nat (Int × Int) :=
  { fgFresh with frameCount := 0, trackbar := none, mode := Mode.POINT, newPoint := (120, 80) }

/-- The foreground player `fgTracking` after a click at (120, 80). -/
def fgTrackingClick : Foreground.FkltVideoPlayer (List Nat × Nat) Nat Nat (Int × Int) :=
  { fgTracking with mode := Mode.POINT, newPoint := (120, 80) }

/-- A foreground player on the file, after its first frame, that tracks no
point and keeps one point in `nextPoints`, after a click at (120, 80). -/
def fgIdleClick : Foreground.FkltVideoPlayer (List Nat × Nat) Nat Nat (Int × Int) :=
  { fgFresh with video := ([1, 2, 3, 4], 1), position := 1, nextPoints := [(9, 9)],
                 mode := Mode.POINT, newPoint := (120, 80) }

end Sample

/-! ## The video source adapter, the constructors and the main loop -/

/-- The integer nearest to a rational that is not negative, the even one of
the two when it is half way. -/
def roundHalfEven (y : ℚ) : Int :=
  let f := ⌊y⌋
  if y - f < 1 / 2 then f
  else if 1 / 2 < y - f then f + 1
  else if f % 2 = 0 then f else f + 1

/-- The `double` (IEEE 754 binary64) that a computation with the exact result
`x` returns: the representable number nearest to `x`, the one with the even
significand when `x` is half way; `none` when that is not a finite number.
The numbers representable next to `x` are the multiples of `2 ^ (e - 52)`,
where `2 ^ e ≤ |x| < 2 ^ (e + 1)` and `e` is not below -1022. -/
def roundToDouble (x : ℚ) : Option ℚ :=
  if x = 0 then some 0
  else
    let e := max (Int.log 2 |x|) (-1022)
    let ulp : ℚ := 2 ^ (e - 52)
    let r : ℚ := roundHalfEven (|x| / ulp) * ulp
    if r < 2 ^ (1024 : Int) then some (if x < 0 then -r else r) else none

/-- The quotient `a / b` of two `double`s, taken as the rationals they
represent: `none` when it is not a finite number. -/
def divDouble (a b : ℚ) : Option ℚ :=
  if b = 0 then none else roundToDouble (a / b)

/-- The conversion of a `double` to `int`: the value truncated toward zero;
it has no result out of the range of `int`. -/
def doubleToInt (x : ℚ) : Option Int :=
  let t : Int := if 0 ≤ x then ⌊x⌋ else ⌈x⌉
  if -2147483648 ≤ t ∧ t ≤ 2147483647 then some t else none

/-- The initialiser `msDelay(1000 / video.getFramesPerSecond())` of the
constructors for the frame rate `fps`: the quotient of the two `double`s,
converted to `int`. -/
def msDelayOfFps (fps : ℚ) : Option Int :=
  (divDouble 1000 fps).bind doubleToInt

/-- The `double` nearest to 0.1: 3602879701896397 / 2 ^ 55. -/
def doubleTenth : ℚ := 3602879701896397 / 36028797018963968

namespace CvVideoCapture

variable {V B Mat Pt : Type}

/-- The method `getFramesPerSecond`: `fps ? fps : 30.0`. -/
def getFramesPerSecond (cv : Cv V B Mat Pt) (video : V) : ℚ :=
  let fps := cv.propFps video
  if fps ≠ 0 then fps else 30

/-- The method `getFourCcCodecString` for the value `code` of
`getFourCcCodec()`: the bytes of the `std::string` made from the five
characters of `result`, which ends before the first zero character.  Here
`>>` is the arithmetic shift and `& 0xff` the remainder modulo 256. -/
def getFourCcCodecString (code : Int) : List Int :=
  let result : List Int :=
    [(code >>> (0 : Nat)) % 256, (code >>> (8 : Nat)) % 256, (code >>> (16 : Nat)) % 256,
      (code >>> (24 : Nat)) % 256, 0]
  result.takeWhile (fun c => c ≠ 0)

end CvVideoCapture

/-- The little-endian integer of a string of bytes: the sum of
`byte(s[i]) * 256^i`. -/
def fourCcOfString : List Int → Int
  | [] => 0
  | c :: rest => c + 256 * fourCcOfString rest

/-- A callback run by the library during a key wait: the mouse callback, or
the trackbar callback after a move of the trackbar. -/
inductive Callback where
  | mouse (event x y : Int)
  | drag (position : Int)
  deriving DecidableEq, Repr

/-- The action of a callback. -/
def Callback.toAction : Callback → Action
  | Callback.mouse event x y => Action.mouse event x y
  | Callback.drag position => Action.drag position

/-- What one call of `cv::waitKey` brings: the callbacks run during the wait,
then the key code returned. -/
structure KeyWait where
  callbacks : List Callback
  key : Int
  deriving DecidableEq, Repr

/-- The result of `operator()` on a finite list of key waits: it returned a
value, or it is still in its loop when the list ends, or a read was out of
range. -/
inductive Outcome (P : Type) where
  | returned (value : Bool) (player : P)
  | looping (player : P)
  | undefined

/-- The source is a file of `n` frames read by index: a seek sets the index,
a read returns the frame at the index, which has data exactly when the index
is one of `0 .. n - 1`, and then advances the index by one. -/
def ReadsByIndex {V B Mat Pt : Type} (cv : Cv V B Mat Pt) (n : Int) : Prop :=
  (∀ (v : V) (p : Int), 0 ≤ p → cv.getPosition (cv.setPosition v p) = p) ∧
  (∀ v : V, cv.getPosition (cv.read v).1 = cv.getPosition v + 1) ∧
  (∀ v : V, cv.hasData (cv.read v).2 = true ↔ (0 ≤ cv.getPosition v ∧ cv.getPosition v < n))

namespace LucasKanade

variable {V B Mat Pt : Type}

/-- The members of a player when the body of a constructor is entered on the
source `video`; `mode` is the value the uninitialised member `mode` holds. -/
def initialPlayer (cv : Cv V B Mat Pt) (video : V) (msDelay frameCount : Int) (state : State)
    (mode : Mode) : LucasKanadeVideoPlayer V Mat Pt where
  video := video
  msDelay := msDelay
  frameCount := frameCount
  image := cv.emptyMat
  itsFrame := cv.emptyMat
  priorGray := cv.emptyMat
  nextGray := cv.emptyMat
  priorPoints := []
  nextPoints := []
  priorPyramid := []
  nextPyramid := []
  position := 0
  state := state
  night := false
  mode := mode
  newPoint := cv.point2f 0 0
  trackbar := none
  shown := []

/-- The constructor `LucasKanadeVideoPlayer(const char *t)`: no result when
the initialiser of `msDelay` has none. -/
def playerOfFile (cv : Cv V B Mat Pt) (t : String) (mode : Mode) :
    Option (LucasKanadeVideoPlayer V Mat Pt) :=
  let video := cv.openFile t
  (msDelayOfFps (CvVideoCapture.getFramesPerSecond cv video)).map fun msDelay =>
    let s := initialPlayer cv video msDelay (cv.getFrameCount video) State.STEP mode
    if cv.isOpened s.video then reset cv { s with trackbar := some s.position } else s

/-- The constructor `LucasKanadeVideoPlayer(int n)`. -/
def playerOfCamera (cv : Cv V B Mat Pt) (n : Int) (mode : Mode) :
    Option (LucasKanadeVideoPlayer V Mat Pt) :=
  let video := cv.openCamera n
  (msDelayOfFps (CvVideoCapture.getFramesPerSecond cv video)).map fun msDelay =>
    let s := initialPlayer cv video msDelay 0 State.RUN mode
    if cv.isOpened s.video then reset cv s else s

/-- The argument of `cv::waitKey` in `operator()`: `state == RUN ? msDelay : 0`. -/
def waitArgument (s : LucasKanadeVideoPlayer V Mat Pt) : Int :=
  if s.state = State.RUN then s.msDelay else 0

/-- The method `operator()` on a list of key waits. -/
def operatorCall (cv : Cv V B Mat Pt) :
    List KeyWait → LucasKanadeVideoPlayer V Mat Pt → Outcome (LucasKanadeVideoPlayer V Mat Pt)
  | [], s => if cv.isOpened s.video then Outcome.looping s else Outcome.returned false s
  | w :: rest, s =>
    if cv.isOpened s.video then
      match (showFrame cv s).bind (run cv (w.callbacks.map Callback.toAction)) with
      | none => Outcome.undefined
      | some s2 =>
        match onKey w.key s2 with
        | none => Outcome.returned true s2
        | some s3 => operatorCall cv rest s3
    else Outcome.returned false s

end LucasKanade

namespace Foreground

variable {V B Mat Pt : Type}

/-- The members of a player when the body of a constructor is entered on the
source `video`; `mode` is the value the uninitialised member `mode` holds. -/
def initialPlayer (cv : Cv V B Mat Pt) (video : V) (msDelay frameCount : Int) (state : State)
    (mode : Mode) : FkltVideoPlayer V B Mat Pt where
  video := video
  msDelay := msDelay
  frameCount := frameCount
  image := cv.emptyMat
  itsFrame := cv.emptyMat
  priorGray := cv.emptyMat
  nextGray := cv.emptyMat
  priorPoints := []
  nextPoints := []
  position := 0
  state := state
  night := false
  mode := mode
  newPoint := cv.point2f 0 0
  itsBackgroundRemover := cv.makeBs
  trackbar := none
  shown := []

/-- The constructor `FkltVideoPlayer(const char *t)`: no result when the
initialiser of `msDelay` has none. -/
def playerOfFile (cv : Cv V B Mat Pt) (t : String) (mode : Mode) :
    Option (FkltVideoPlayer V B Mat Pt) :=
  let video := cv.openFile t
  (msDelayOfFps (CvVideoCapture.getFramesPerSecond cv video)).map fun msDelay =>
    let s := initialPlayer cv video msDelay (cv.getFrameCount video) State.RUN mode
    if cv.isOpened s.video then reset cv { s with trackbar := some s.position } else s

/-- The constructor `FkltVideoPlayer(int n)`. -/
def playerOfCamera (cv : Cv V B Mat Pt) (n : Int) (mode : Mode) :
    Option (FkltVideoPlayer V B Mat Pt) :=
  let video := cv.openCamera n
  (msDelayOfFps (CvVideoCapture.getFramesPerSecond cv video)).map fun msDelay =>
    let s := initialPlayer cv video msDelay 0 State.RUN mode
    if cv.isOpened s.video then reset cv s else s

/-- The argument of `cv::waitKey` in `operator()`: `state == RUN ? msDelay : 0`. -/
def waitArgument (s : FkltVideoPlayer V B Mat Pt) : Int :=
  if s.state = State.RUN then s.msDelay else 0

/-- The method `operator()` on a list of key waits. -/
def operatorCall (cv : Cv V B Mat Pt) :
    List KeyWait → FkltVideoPlayer V B Mat Pt → Outcome (FkltVideoPlayer V B Mat Pt)
  | [], s => if cv.isOpened s.video then Outcome.looping s else Outcome.returned false s
  | w :: rest, s =>
    if cv.isOpened s.video then
      match (showFrame cv s).bind (run cv (w.callbacks.map Callback.toAction)) with
      | none => Outcome.undefined
      | some s2 =>
        match onKey w.key s2 with
        | none => Outcome.returned true s2
        | some s3 => operatorCall cv rest s3
    else Outcome.returned false s

end Foreground

/-- The key wait of the library never ends by itself when its argument is not
positive (`cv::waitKey(0)` waits for a key for ever). -/
def waitsForEver (delay : Int) : Bool :=
  decide (delay ≤ 0)

namespace Sample

/-- The sample library on a file of 100 frames read by index: the frame at
the index `i` is the number `i + 1`. -/
def cvFile100 : Cv (List Nat × Nat) Nat Nat (Int × Int) :=
  { cv with
    read := fun v => ((v.1, v.2 + 1), if v.2 < 100 then v.2 + 1 else 0)
    getFrameCount := fun _ => 100 }

/-- A Lucas-Kanade player on the file of 100 frames, tracking two points. -/
def lkFile100 : LucasKanade.LucasKanadeVideoPlayer (List Nat × Nat) Nat (Int × Int) :=
  { lkTracking with frameCount := 100 }

/-- The sample library on a source, opened by name, that has frames and
reports no frame count. -/
def cvStream : Cv (List Nat × Nat) Nat Nat (Int × Int) :=
  { cv with getFrameCount := fun _ => 0 }

/-- The name of the sample file. -/
def fileName : String := "video.avi"

/-- The sample library on a source that reports 2000 frames per second. -/
def cvFast : Cv (List Nat × Nat) Nat Nat (Int × Int) :=
  { cv with propFps := fun _ => 2000 }

/-- The sample library on a source that reports 0.1 frames per second: the
`double` nearest to 0.1. -/
def cvTenth : Cv (List Nat × Nat) Nat Nat (Int × Int) :=
  { cv with propFps := fun _ => doubleTenth }

/-- The sample library on a source that reports -3 frames per second. -/
def cvReverse : Cv (List Nat × Nat) Nat Nat (Int × Int) :=
  { cv with propFps := fun _ => -3 }

end Sample

/-! ## The reads of the point filter and the programs -/

/-- An opened source stays opened: a read and a seek do not close it. -/
def StaysOpen {V B Mat Pt : Type} (cv : Cv V B Mat Pt) : Prop :=
  (∀ v : V, cv.isOpened (cv.read v).1 = cv.isOpened v) ∧
  (∀ (v : V) (p : Int), cv.isOpened (cv.setPosition v p) = cv.isOpened v)

/-- What `main` does on a finite list of key waits: it returns an exit code,
after the usage message or not, or it is still in the loop of `operator()`
when the list ends, or a read was out of range. -/
inductive MainResult where
  | exit (code : Int) (usage : Bool)
  | running
  | undefined
  deriving DecidableEq, Repr

/-- The key code is q or Q once converted to `char`: `operator()` returns true. -/
def quits (key : Int) : Bool :=
  decide (key % 256 = 113 ∨ key % 256 = 81)

/-- The source named by the argument of the programs: the camera -1 for "-",
the file of that name otherwise. -/
def sourceOfArgument {V B Mat Pt : Type} (cv : Cv V B Mat Pt) (source : String) : V :=
  if source = "-" then cv.openCamera (-1) else cv.openFile source

namespace LucasKanade

variable {V B Mat Pt : Type}

/-- The player `main` makes for its argument. -/
def playerOfArgument (cv : Cv V B Mat Pt) (source : String) (mode : Mode) :
    Option (LucasKanadeVideoPlayer V Mat Pt) :=
  if source = "-" then playerOfCamera cv (-1) mode else playerOfFile cv source mode

/-- The function `main` of lucas-kanade.cpp on the arguments `av` (the program
name first, so `ac` is the length of `av`); `mode` is the value the
uninitialised member `mode` holds. -/
def main (cv : Cv V B Mat Pt) (av : List String) (mode : Mode) (waits : List KeyWait) :
    MainResult :=
  match av with
  | [_, source] =>
    match playerOfArgument cv source mode with
    | none => MainResult.undefined
    | some player =>
      match operatorCall cv waits player with
      | Outcome.returned true _ => MainResult.exit 0 false
      | Outcome.returned false _ => MainResult.exit 1 true
      | Outcome.looping _ => MainResult.running
      | Outcome.undefined => MainResult.undefined
  | _ => MainResult.exit 1 true

end LucasKanade

namespace Foreground

variable {V B Mat Pt : Type}

/-- The player `main` makes for its argument. -/
def playerOfArgument (cv : Cv V B Mat Pt) (source : String) (mode : Mode) :
    Option (FkltVideoPlayer V B Mat Pt) :=
  if source = "-" then playerOfCamera cv (-1) mode else playerOfFile cv source mode

/-- The function `main` of foreground.cpp on the arguments `av` (the program
name first, so `ac` is the length of `av`); `mode` is the value the
uninitialised member `mode` holds. -/
def main (cv : Cv V B Mat Pt) (av : List String) (mode : Mode) (waits : List KeyWait) :
    MainResult :=
  match av with
  | [_, source] =>
    match playerOfArgument cv source mode with
    | none => MainResult.undefined
    | some player =>
      match operatorCall cv waits player with
      | Outcome.returned true _ => MainResult.exit 0 false
      | Outcome.returned false _ => MainResult.exit 1 true
      | Outcome.looping _ => MainResult.running
      | Outcome.undefined => MainResult.undefined
  | _ => MainResult.exit 1 true

end Foreground

namespace Sample

/-- The sample library with another detector: it finds the one corner (7, 7). -/
def cvOneCorner : Cv (List Nat × Nat) Nat Nat (Int × Int) :=
  { cv with goodFeaturesToTrack := fun _ => [(7, 7)] }

/-- The sample library on a source that does not open. -/
def cvClosed : Cv (List Nat × Nat) Nat Nat (Int × Int) :=
  { cv with isOpened := fun _ => false }

/-- The foreground player `fgFresh` after the key t. -/
def fgFreshTrack : Foreground.FkltVideoPlayer (List Nat × Nat) Nat Nat (Int × Int) :=
  { fgFresh with mode := Mode.TRACK }

/-- The arguments of a program run on the camera. -/
def cameraArguments : List String := ["player", "-"]

/-- The arguments of a program run on the sample file. -/
def fileArguments : List String := ["player", "video.avi"]

/-- Two key waits: the key t, then the key q. -/
def trackThenQuit : List KeyWait := [{ callbacks := [], key := 116 }, { callbacks := [], key := 113 }]

end Sample

namespace Sample

/-- The Lucas-Kanade player `lkTracking` after its first frame: the frame it
reads next is the frame 2, on which the sample tracker loses every point. -/
def lkLosing : LucasKanade.LucasKanadeVideoPlayer (List Nat × Nat) Nat (Int × Int) :=
  { lkTracking with video := ([1, 2, 3, 4], 1), position := 1 }

/-- The argument "-" of the programs: the camera. -/
def cameraArgument : String := "-"

end Sample

/-! ## The background remover (foreground.cpp, remove-background.cpp) -/

namespace BackgroundRemoval

/-- An image (`cv::Mat`) by its size, its number of channels (its type) and
the value of each channel of each pixel: `pixel i j c` for the row `i`, the
column `j` and the channel `c`. -/
structure Image where
  rows : Nat
  cols : Nat
  channels : Nat
  pixel : Nat → Nat → Nat → Int

/-- The image `cv::Mat::zeros(size, type)`. -/
def zeros (rows cols channels : Nat) : Image where
  rows := rows
  cols := cols
  channels := channels
  pixel := fun _ _ _ => 0

/-- The destination after `src.copyTo(dst)`: a copy of `src`. -/
def copyTo (src : Image) : Image :=
  src

/-- The image has no data (`!mask.data`). -/
def Image.noData (m : Image) : Bool :=
  decide (m.rows = 0 ∨ m.cols = 0)

/-- The destination after the library's `src.copyTo(dst, mask)` with a mask of
one channel: without mask data it is `src.copyTo(dst)`; otherwise `dst` is
kept when it has the size and the type of `src` and is made anew, all zero,
when it has not, and then takes the pixels of `src` where the mask is not 0. -/
def copyToMasked (src dst mask : Image) : Image :=
  if mask.noData then copyTo src
  else
    let base :=
      if dst.rows = src.rows ∧ dst.cols = src.cols ∧ dst.channels = src.channels then dst
      else zeros src.rows src.cols src.channels
    { base with
      pixel := fun i j c => if mask.pixel i j 0 ≠ 0 then src.pixel i j c else base.pixel i j c }

/-- The members of `class BackgroundRemover`; `S` is the state of the
background model `itsBs`. -/
structure BackgroundRemover (S : Type) where
  itsBs : S
  itsMask : Image
  itsOutput : Image

/-- The method `BackgroundRemover::operator()`.  `apply` is the background
model (`itsBs->apply(frame, itsMask)`: the new model and the mask); `black` is
the function-static image `black`, `none` until the first call initialises it.
The result is the static image, the remover and the image returned. -/
def BackgroundRemover.call {S : Type} (apply : S → Image → S × Image) (black : Option Image)
    (remover : BackgroundRemover S) (frame : Image) :
    Option Image × BackgroundRemover S × Image :=
  let black1 :=
    match black with
    | none => zeros frame.rows frame.cols frame.channels
    | some b => b
  let applied := apply remover.itsBs frame
  let itsMask := applied.2
  let output1 := copyTo black1
  let output2 := copyToMasked frame output1 itsMask
  (some black1, { itsBs := applied.1, itsMask := itsMask, itsOutput := output2 }, output2)

/-- The images returned by successive calls of `operator()` on the frames,
each with the mask the model made for it. -/
def BackgroundRemover.callAll {S : Type} (apply : S → Image → S × Image) :
    Option Image → BackgroundRemover S → List Image → List (Image × Image × Image)
  | _, _, [] => []
  | black, remover, frame :: rest =>
    let r := BackgroundRemover.call apply black remover frame
    (frame, r.2.1.itsMask, r.2.2) :: BackgroundRemover.callAll apply r.1 r.2.1 rest

/-- The output is the frame where the mask is not 0 and 0 elsewhere, and has
the size and the type of the frame. -/
def Masked (frame mask output : Image) : Prop :=
  output.rows = frame.rows ∧ output.cols = frame.cols ∧ output.channels = frame.channels ∧
  ∀ i j c, i < frame.rows → j < frame.cols → c < frame.channels →
    output.pixel i j c = if mask.pixel i j 0 = 0 then 0 else frame.pixel i j c

/-- A sample frame of 2 rows, 2 columns and 3 channels. -/
def sampleFrame : Image where
  rows := 2
  cols := 2
  channels := 3
  pixel := fun i j c => 100 * i + 10 * j + c + 1

/-- A second sample frame, of 1 row and 3 columns. -/
def sampleWide : Image where
  rows := 1
  cols := 3
  channels := 3
  pixel := fun _ j c => 50 + 10 * j + c

/-- A sample background model: its mask has the size of the frame, one
channel, and is 255 on the diagonal and 0 elsewhere. -/
def sampleApply (model : Nat) (frame : Image) : Nat × Image :=
  (model + 1,
    { rows := frame.rows, cols := frame.cols, channels := 1,
      pixel := fun i j _ => if i = j then 255 else 0 })

/-- A sample remover, as its constructor leaves it: empty images. -/
def sampleRemover : BackgroundRemover Nat where
  itsBs := 0
  itsMask := zeros 0 0 1
  itsOutput := zeros 0 0 1

end BackgroundRemoval

/-! ## The choice of the source in the background-removal demo (remove-background.cpp) -/

namespace RemoveBackground

/-- The white space of the "C" locale, skipped by the extractions of a
stream: the space and the characters 9 to 13 (tab, line feed, vertical tab,
form feed, carriage return). -/
def isSpace (c : Char) : Bool :=
  decide (c.toNat = 32 ∨ (9 ≤ c.toNat ∧ c.toNat ≤ 13))

/-- The decimal digits 0 to 9 (the characters 48 to 57). -/
def isDigit (c : Char) : Bool :=
  decide (48 ≤ c.toNat ∧ c.toNat ≤ 57)

/-- The character is the sign - (45). -/
def isMinus (c : Char) : Bool :=
  decide (c.toNat = 45)

/-- The character is the sign + (43). -/
def isPlus (c : Char) : Bool :=
  decide (c.toNat = 43)

/-- The number written by a run of decimal digits. -/
def digitsValue (digits : List Char) : Nat :=
  digits.foldl (fun value c => 10 * value + (c.toNat - 48)) 0

/-- The sign read by the extraction of an `int` and the characters after it. -/
def splitSign : List Char → Bool × List Char
  | [] => (false, [])
  | c :: rest =>
    if isMinus c then (true, rest) else if isPlus c then (false, rest) else (false, c :: rest)

/-- The extraction `stream >> cameraId` of an `int` from a stream on the
characters, followed by the test `if (stream)`: `none` when the extraction
fails.  The extraction skips the leading white space, takes a sign if there
is one, then the longest run of decimal digits; it fails when there is no
digit and when the number does not fit an `int`. -/
def extractInt (source : List Char) : Option Int :=
  let signed := splitSign (source.dropWhile isSpace)
  let digits := signed.2.takeWhile isDigit
  if digits.isEmpty then none
  else
    let value : Int := if signed.1 then -(digitsValue digits : Int) else (digitsValue digits : Int)
    if -2147483648 ≤ value ∧ value ≤ 2147483647 then some value else none

/-- The extraction `stream >> filename` of a `std::string`, followed by the
test `if (stream)`: the leading white space is skipped and the characters up
to the next white space are taken; it fails when there is none. -/
def extractString (source : List Char) : Option (List Char) :=
  let token := (source.dropWhile isSpace).takeWhile (fun c => !isSpace c)
  if token.isEmpty then none else some token

/-- The argument of the constructor of `CvVideoCapture` that `openVideo`
calls: a camera id or a file name. -/
inductive VideoSource where
  | camera (id : Int)
  | file (name : List Char)
  deriving DecidableEq, Repr

/-- The function `openVideo`, by the constructor it calls. -/
def openVideo (source : String) : VideoSource :=
  match extractInt source.toList with
  | some cameraId => VideoSource.camera cameraId
  | none =>
    match extractString source.toList with
    | some filename => VideoSource.file filename
    | none => VideoSource.camera (-1)

/-- A file name that begins with a digit. -/
def digitName : String := "1video.avi"

/-- A file name with a space in it. -/
def spacedName : String := "my video.avi"

/-- A run of digits too long for an `int`. -/
def longNumber : String := "99999999999"

/-- A camera id with white space before it and a sign. -/
def signedId : String := "  -12"

/-- An ordinary file name. -/
def plainName : String := "video.avi"

/-- A string of white space. -/
def blank : String := "   "

end RemoveBackground

namespace RemoveBackground

/-- The characters begin, after white space, with a decimal integer of value
`n` that fits an `int`: an optional sign, then a run of digits that is not
empty and ends the characters or is followed by a character that is not a
digit. -/
def BeginsWithInteger (source : List Char) (n : Int) : Prop :=
  ∃ (ws signChars digits rest : List Char) (negative : Bool),
    source = ws ++ (signChars ++ (digits ++ rest)) ∧
    (∀ c ∈ ws, isSpace c = true) ∧
    ((signChars = [] ∧ negative = false) ∨
      ∃ c, signChars = [c] ∧ ((isMinus c = true ∧ negative = true) ∨
        (isMinus c = false ∧ isPlus c = true ∧ negative = false))) ∧
    digits ≠ [] ∧ (∀ c ∈ digits, isDigit c = true) ∧
    (∀ c, rest.head? = some c → isDigit c = false) ∧
    n = (if negative then -(digitsValue digits : Int) else (digitsValue digits : Int)) ∧
    -2147483648 ≤ n ∧ n ≤ 2147483647

/-- The characters `name` are the first token of the source: the run of
characters, not empty, between the leading white space and the next white
space or the end. -/
def FirstToken (source name : List Char) : Prop :=
  name ≠ [] ∧ ∃ ws rest : List Char,
    source = ws ++ (name ++ rest) ∧ (∀ c ∈ ws, isSpace c = true) ∧
    (∀ c ∈ name, isSpace c = false) ∧ (∀ c, rest.head? = some c → isSpace c = true)

/-- The first token of `spacedName`. -/
def firstName : String := "my"

end RemoveBackground

/-! ## The scans of the matrix demo (scan-image.cpp) -/

namespace ScanImage

end ScanImage

namespace ScanImage

end ScanImage

namespace ScanImage

end ScanImage

/-! ## The quadrant swap of the Fourier demo (dft.cpp) -/

namespace Dft

/-- A matrix (`cv::Mat`) by its size and its elements: `entry i j` is the
element of the row `i` and the column `j`. -/
structure Matrix (α : Type) where
  rows : Nat
  cols : Nat
  entry : Nat → Nat → α

variable {α : Type}

/-- The value of `n & -2` for a size `n`, an `int` that is not negative: `n`
with its lowest bit cleared. -/
def clearLowestBit (n : Nat) : Nat :=
  n - n % 2

/-- The header `cv::Mat(m, cv::Rect(x, y, width, height))`, which shares the
data of `m`: the elements of the rectangle.  A header on a rectangle that has
no row or no column is released by the library: it has 0 rows and 0 columns. -/
def view (m : Matrix α) (x y width height : Nat) : Matrix α where
  rows := if height = 0 ∨ width = 0 then 0 else height
  cols := if height = 0 ∨ width = 0 then 0 else width
  entry := fun i j => m.entry (y + i) (x + j)

/-- The matrix `m` after `src.copyTo(dst)`, where `dst` is the header on the
rectangle of `m` at (x, y) that has the size of `src`: the rectangle holds the
elements of `src`, the rest of `m` is untouched. -/
def copyToView (src m : Matrix α) (x y : Nat) : Matrix α :=
  { m with
    entry := fun i j =>
      if y ≤ i ∧ i < y + src.rows ∧ x ≤ j ∧ j < x + src.cols then src.entry (i - y) (j - x)
      else m.entry i j }

/-- The function `centerOrigin`.  Its result is a header on the data of
`dftMatrix`; the value returned here is what is seen through that header when
the function returns. -/
def centerOrigin (dftMatrix : Matrix α) : Matrix α :=
  let cols := clearLowestBit dftMatrix.cols
  let rows := clearLowestBit dftMatrix.rows
  let result := view dftMatrix 0 0 cols rows
  let halfX := result.cols / 2
  let halfY := result.rows / 2
  -- tlQuadrant.copyTo(xyQuadrant)
  let xyQuadrant := view result 0 0 halfX halfY
  -- brQuadrant.copyTo(tlQuadrant)
  let result := copyToView (view result halfX halfY halfX halfY) result 0 0
  -- xyQuadrant.copyTo(brQuadrant)
  let result := copyToView xyQuadrant result halfX halfY
  -- trQuadrant.copyTo(xyQuadrant)
  let xyQuadrant := view result halfX 0 halfX halfY
  -- blQuadrant.copyTo(trQuadrant)
  let result := copyToView (view result 0 halfY halfX halfY) result halfX 0
  -- xyQuadrant.copyTo(blQuadrant)
  copyToView xyQuadrant result 0 halfY

/-- A sample matrix of 5 rows and 4 columns: the element at (i, j) is 10 i + j. -/
def sample : Matrix Nat where
  rows := 5
  cols := 4
  entry := fun i j => 10 * i + j

/-- A sample matrix of 1 row and 4 columns. -/
def sampleRow : Matrix Nat where
  rows := 1
  cols := 4
  entry := fun _ j => j

end Dft

/-! ## Lemmas on the point filter -/

theorem survivors_cons {Pt : Type} (st : Nat) (ss : List Nat) (p : Pt) (ps : List Pt) :
    survivors (st :: ss) (p :: ps) =
      if st ≠ 0 then p :: survivors ss ps else survivors ss ps := by
  by_cases h : st = 0 <;> simp [survivors, h]

theorem survivors_drop {Pt : Type} (status : List Nat) (points : List Pt) (i : Nat)
    (hp : i < points.length) (hs : i < status.length) :
    survivors (status.drop i) (points.drop i) =
      if status[i] ≠ 0 then points[i] :: survivors (status.drop (i + 1)) (points.drop (i + 1))
      else survivors (status.drop (i + 1)) (points.drop (i + 1)) := by
  rw [List.drop_eq_getElem_cons hp, List.drop_eq_getElem_cons hs, survivors_cons]

theorem survivors_length_le {Pt : Type} (status : List Nat) (points : List Pt) :
    (survivors status points).length ≤ points.length := by
  unfold survivors
  rw [List.length_map]
  exact le_trans (List.length_filter_le _ _) (by simp [List.length_zip])

theorem survivors_length_eq_iff {Pt : Type} (points : List Pt) :
    ∀ status : List Nat, points.length = status.length →
      ((survivors status points).length = points.length ↔ ∀ x ∈ status, x ≠ 0) := by
  induction points with
  | nil =>
    intro status h
    have hs : status = [] := List.length_eq_zero.mp h.symm
    subst hs
    simp [survivors]
  | cons p ps ih =>
    intro status h
    cases status with
    | nil => simp at h
    | cons st ss =>
      have hl : ps.length = ss.length := by simpa using h
      rw [survivors_cons]
      by_cases h0 : st = 0
      · have hle := survivors_length_le ss ps
        simp only [h0, ne_eq, not_true_eq_false, if_false, List.length_cons, List.mem_cons]
        constructor
        · intro hc
          omega
        · intro hc
          exact absurd rfl (hc 0 (Or.inl rfl))
      · have hi := ih ss hl
        simp only [ne_eq, h0, not_false_eq_true, if_true, List.length_cons, List.mem_cons,
          Nat.add_right_cancel_iff]
        rw [hi]
        constructor
        · intro hc x hx
          rcases hx with hx | hx
          · rw [hx]; exact h0
          · exact hc x hx
        · intro hc x hx
          exact hc x (Or.inr hx)

namespace LucasKanade

variable {V B Mat Pt : Type}

theorem lk_drawPointsLoop_eq (cv : Cv V B Mat Pt) (status : List Nat) (points : List Pt) :
    ∀ (n i : Nat) (image : Mat) (result : List Pt), i + n = points.length →
      points.length ≤ status.length →
      drawPointsLoop cv status points n i image result =
        some ((survivors (status.drop i) (points.drop i)).foldl cv.circle image,
              result ++ survivors (status.drop i) (points.drop i)) := by
  intro n
  induction n with
  | zero =>
    intro i image result hi hs
    have h1 : points.drop i = [] := List.drop_eq_nil_of_le (by omega)
    simp [drawPointsLoop, survivors, h1]
  | succ n ih =>
    intro i image result hi hs
    have hp : i < points.length := by omega
    have hst : i < status.length := by omega
    rw [survivors_drop status points i hp hst]
    unfold drawPointsLoop
    rw [List.getElem?_eq_getElem hst, List.getElem?_eq_getElem hp]
    by_cases h : status[i] = 0
    · simp [h, ih (i + 1) image result (by omega) hs]
    · simp [h, drawGreenCircle,
        ih (i + 1) (cv.circle image points[i]) (result ++ [points[i]]) (by omega) hs]

theorem lk_drawPoints_eq (cv : Cv V B Mat Pt) (image : Mat) (status : List Nat) (points : List Pt)
    (h : points.length ≤ status.length) :
    drawPoints cv image status points =
      some ((survivors status points).foldl cv.circle image, survivors status points) := by
  unfold drawPoints
  rw [lk_drawPointsLoop_eq cv status points points.length 0 image [] (by simp) h]
  simp

end LucasKanade

namespace Foreground

variable {V B Mat Pt : Type}

theorem fg_drawPointsLoop_eq (cv : Cv V B Mat Pt) (status : List Nat) (points : List Pt) :
    ∀ (n i good : Nat) (image : Mat) (result : List Pt), i + n = points.length →
      points.length ≤ status.length →
      drawPointsLoop cv status points n i good image result =
        some (good + (survivors (status.drop i) (points.drop i)).length,
              (survivors (status.drop i) (points.drop i)).foldl cv.circle image,
              result ++ survivors (status.drop i) (points.drop i)) := by
  intro n
  induction n with
  | zero =>
    intro i good image result hi hs
    have h1 : points.drop i = [] := List.drop_eq_nil_of_le (by omega)
    simp [drawPointsLoop, survivors, h1]
  | succ n ih =>
    intro i good image result hi hs
    have hp : i < points.length := by omega
    have hst : i < status.length := by omega
    rw [survivors_drop status points i hp hst]
    unfold drawPointsLoop
    rw [List.getElem?_eq_getElem hst, List.getElem?_eq_getElem hp]
    by_cases h : status[i] = 0
    · simp [h, ih (i + 1) good image result (by omega) hs]
    · simp [h, drawGreenCircle,
        ih (i + 1) (good + 1) (cv.circle image points[i]) (result ++ [points[i]]) (by omega) hs]
      omega

theorem fg_drawPoints_eq (cv : Cv V B Mat Pt) (image : Mat) (status : List Nat) (points : List Pt)
    (h : points.length ≤ status.length) :
    drawPoints cv image status points =
      some ((survivors status points).foldl cv.circle image, survivors status points) := by
  unfold drawPoints
  rw [fg_drawPointsLoop_eq cv status points points.length 0 0 image [] (by simp) h]
  simp

end Foreground

/-! ## The tracking step -/

namespace LucasKanade

variable {V B Mat Pt : Type}

theorem lk_dispatchModes_track (cv : Cv V B Mat Pt) (s : LucasKanadeVideoPlayer V Mat Pt)
    (hc : s.mode ≠ Mode.CLEAR) (ht : s.mode ≠ Mode.TRACK) (hp : s.priorPoints ≠ [])
    (hlen : (cv.calcOpticalFlowPyrLK s.priorPyramid (makePyramid cv s.nextGray)
              s.priorPoints s.nextPoints).1.length ≤
            (cv.calcOpticalFlowPyrLK s.priorPyramid (makePyramid cv s.nextGray)
              s.priorPoints s.nextPoints).2.length) :
    dispatchModes cv s =
      some { s with
        nextPyramid := makePyramid cv s.nextGray
        image := (survivors
          (cv.calcOpticalFlowPyrLK s.priorPyramid (makePyramid cv s.nextGray)
            s.priorPoints s.nextPoints).2
          (cv.calcOpticalFlowPyrLK s.priorPyramid (makePyramid cv s.nextGray)
            s.priorPoints s.nextPoints).1).foldl cv.circle s.image
        nextPoints := survivors
          (cv.calcOpticalFlowPyrLK s.priorPyramid (makePyramid cv s.nextGray)
            s.priorPoints s.nextPoints).2
          (cv.calcOpticalFlowPyrLK s.priorPyramid (makePyramid cv s.nextGray)
            s.priorPoints s.nextPoints).1 } := by
  have he : s.priorPoints.isEmpty = false := by
    cases hq : s.priorPoints with
    | nil => exact absurd hq hp
    | cons a l => rfl
  unfold dispatchModes
  simp only [hc, ht, he, if_false, calculateFlow]
  rw [lk_drawPoints_eq cv _ _ _ hlen]
  simp

theorem lk_dispatchModes_idle (cv : Cv V B Mat Pt) (s : LucasKanadeVideoPlayer V Mat Pt)
    (hc : s.mode ≠ Mode.CLEAR) (ht : s.mode ≠ Mode.TRACK) (hp : s.priorPoints = []) :
    dispatchModes cv s = some s := by
  unfold dispatchModes
  simp [hc, ht, hp]

theorem lk_dispatchModes_clear (cv : Cv V B Mat Pt) (s : LucasKanadeVideoPlayer V Mat Pt)
    (hc : s.mode = Mode.CLEAR) :
    dispatchModes cv s = some { s with priorPoints := [], nextPoints := [] } := by
  unfold dispatchModes
  simp [hc]

theorem lk_dispatchModes_detect (cv : Cv V B Mat Pt) (s : LucasKanadeVideoPlayer V Mat Pt)
    (ht : s.mode = Mode.TRACK) :
    dispatchModes cv s = some { s with nextPoints := getGoodTrackingPoints cv s.nextGray } := by
  unfold dispatchModes
  simp [ht]

end LucasKanade

namespace Foreground

variable {V B Mat Pt : Type}

theorem fg_drawFlowPoints_track (cv : Cv V B Mat Pt) (s : FkltVideoPlayer V B Mat Pt)
    (hp : s.priorPoints ≠ [])
    (hlen : (cv.calcOpticalFlowImages s.priorGray s.nextGray s.priorPoints s.nextPoints).1.length ≤
            (cv.calcOpticalFlowImages s.priorGray s.nextGray s.priorPoints
              s.nextPoints).2.length) :
    drawFlowPoints cv s =
      some { s with
        image := (survivors
          (cv.calcOpticalFlowImages s.priorGray s.nextGray s.priorPoints s.nextPoints).2
          (cv.calcOpticalFlowImages s.priorGray s.nextGray s.priorPoints s.nextPoints).1).foldl
            cv.circle s.image
        nextPoints := survivors
          (cv.calcOpticalFlowImages s.priorGray s.nextGray s.priorPoints s.nextPoints).2
          (cv.calcOpticalFlowImages s.priorGray s.nextGray s.priorPoints s.nextPoints).1 } := by
  have he : s.priorPoints.isEmpty = false := by
    cases hq : s.priorPoints with
    | nil => exact absurd hq hp
    | cons a l => rfl
  unfold drawFlowPoints
  simp only [he, if_false]
  rw [fg_drawPoints_eq cv _ _ _ hlen]
  simp

theorem fg_drawFlowPoints_idle (cv : Cv V B Mat Pt) (s : FkltVideoPlayer V B Mat Pt)
    (hp : s.priorPoints = []) :
    drawFlowPoints cv s = some s := by
  unfold drawFlowPoints
  simp [hp]

end Foreground

/-! ## The mode handler -/

namespace LucasKanade

variable {V B Mat Pt : Type}

theorem lk_nightImage_eq (cv : Cv V B Mat Pt) (s : LucasKanadeVideoPlayer V Mat Pt) :
    nightImage cv s =
      { s with image := if s.night then cv.setToZero s.image else s.image } := by
  unfold nightImage
  split <;> rfl

@[simp] theorem nightImage_mode (cv : Cv V B Mat Pt) (s : LucasKanadeVideoPlayer V Mat Pt) :
    (nightImage cv s).mode = s.mode := by rw [lk_nightImage_eq]

@[simp] theorem nightImage_priorPoints (cv : Cv V B Mat Pt)
    (s : LucasKanadeVideoPlayer V Mat Pt) :
    (nightImage cv s).priorPoints = s.priorPoints := by rw [lk_nightImage_eq]

@[simp] theorem nightImage_nextPoints (cv : Cv V B Mat Pt)
    (s : LucasKanadeVideoPlayer V Mat Pt) :
    (nightImage cv s).nextPoints = s.nextPoints := by rw [lk_nightImage_eq]

@[simp] theorem nightImage_priorPyramid (cv : Cv V B Mat Pt)
    (s : LucasKanadeVideoPlayer V Mat Pt) :
    (nightImage cv s).priorPyramid = s.priorPyramid := by rw [lk_nightImage_eq]

@[simp] theorem nightImage_nextPyramid (cv : Cv V B Mat Pt)
    (s : LucasKanadeVideoPlayer V Mat Pt) :
    (nightImage cv s).nextPyramid = s.nextPyramid := by rw [lk_nightImage_eq]

@[simp] theorem nightImage_priorGray (cv : Cv V B Mat Pt)
    (s : LucasKanadeVideoPlayer V Mat Pt) :
    (nightImage cv s).priorGray = s.priorGray := by rw [lk_nightImage_eq]

@[simp] theorem nightImage_nextGray (cv : Cv V B Mat Pt)
    (s : LucasKanadeVideoPlayer V Mat Pt) :
    (nightImage cv s).nextGray = s.nextGray := by rw [lk_nightImage_eq]

@[simp] theorem nightImage_rest (cv : Cv V B Mat Pt) (s : LucasKanadeVideoPlayer V Mat Pt) :
    (nightImage cv s).position = s.position ∧ (nightImage cv s).state = s.state ∧
    (nightImage cv s).night = s.night ∧ (nightImage cv s).video = s.video ∧
    (nightImage cv s).shown = s.shown ∧ (nightImage cv s).trackbar = s.trackbar ∧
    (nightImage cv s).newPoint = s.newPoint ∧ (nightImage cv s).itsFrame = s.itsFrame ∧
    (nightImage cv s).frameCount = s.frameCount ∧ (nightImage cv s).msDelay = s.msDelay := by
  rw [lk_nightImage_eq]
  simp

/-- The fields of the player after `handleModes`, the image apart. -/
theorem lk_handleModes_eq (cv : Cv V B Mat Pt) (s : LucasKanadeVideoPlayer V Mat Pt)
    (hlen : s.mode ≠ Mode.CLEAR → s.mode ≠ Mode.TRACK → s.priorPoints ≠ [] →
      (cv.calcOpticalFlowPyrLK s.priorPyramid (makePyramid cv s.nextGray)
        s.priorPoints s.nextPoints).1.length ≤
      (cv.calcOpticalFlowPyrLK s.priorPyramid (makePyramid cv s.nextGray)
        s.priorPoints s.nextPoints).2.length) :
    ∃ s1, handleModes cv s = some s1 ∧
      s1.priorPoints = (if s.mode = Mode.CLEAR then [] else s.priorPoints) ∧
      s1.nextPoints =
        (if s.mode = Mode.CLEAR then []
         else if s.mode = Mode.TRACK then getGoodTrackingPoints cv s.nextGray
         else if s.priorPoints.isEmpty then s.nextPoints
         else survivors
          (cv.calcOpticalFlowPyrLK s.priorPyramid (makePyramid cv s.nextGray)
            s.priorPoints s.nextPoints).2
          (cv.calcOpticalFlowPyrLK s.priorPyramid (makePyramid cv s.nextGray)
            s.priorPoints s.nextPoints).1) ++
        (if s.mode = Mode.POINT then [cv.cornerSubPix s.nextGray 31 s.newPoint] else []) ∧
      s1.nextPyramid =
        (if s.mode = Mode.CLEAR then s.nextPyramid
         else if s.mode = Mode.TRACK then s.nextPyramid
         else if s.priorPoints.isEmpty then s.nextPyramid
         else makePyramid cv s.nextGray) ∧
      s1.priorPyramid = s.priorPyramid ∧ s1.priorGray = s.priorGray ∧
      s1.nextGray = s.nextGray ∧ s1.mode = Mode.NONE ∧ s1.position = s.position ∧
      s1.state = s.state ∧ s1.night = s.night ∧ s1.video = s.video ∧
      s1.shown = s.shown ∧ s1.trackbar = s.trackbar ∧ s1.newPoint = s.newPoint ∧
      s1.itsFrame = s.itsFrame ∧ s1.frameCount = s.frameCount ∧ s1.msDelay = s.msDelay := by
  have hr := nightImage_rest cv s
  unfold handleModes
  by_cases hc : s.mode = Mode.CLEAR
  · rw [lk_dispatchModes_clear cv (nightImage cv s) (by simpa using hc)]
    simp [applyPoint, hc, hr]
  · by_cases ht : s.mode = Mode.TRACK
    · rw [lk_dispatchModes_detect cv (nightImage cv s) (by simpa using ht)]
      simp [applyPoint, ht, hr]
    · by_cases hp : s.priorPoints = []
      · rw [lk_dispatchModes_idle cv (nightImage cv s) (by simpa using hc) (by simpa using ht)
          (by simpa using hp)]
        by_cases hq : s.mode = Mode.POINT <;>
          simp [applyPoint, hc, ht, hp, hq, addTrackingPoint, hr]
      · rw [lk_dispatchModes_track cv (nightImage cv s) (by simpa using hc) (by simpa using ht)
          (by simpa using hp) (by simpa using hlen hc ht hp)]
        by_cases hq : s.mode = Mode.POINT <;>
          simp [applyPoint, hc, ht, hp, hq, addTrackingPoint, hr]


theorem lk_handleModes_of_tracker (cv : Cv V B Mat Pt) (htr : TrackerPerPoint cv)
    (s : LucasKanadeVideoPlayer V Mat Pt) :
    s.mode ≠ Mode.CLEAR → s.mode ≠ Mode.TRACK → s.priorPoints ≠ [] →
      (cv.calcOpticalFlowPyrLK s.priorPyramid (makePyramid cv s.nextGray)
        s.priorPoints s.nextPoints).1.length ≤
      (cv.calcOpticalFlowPyrLK s.priorPyramid (makePyramid cv s.nextGray)
        s.priorPoints s.nextPoints).2.length := by
  intro _ _ _
  have hl := htr.1 s.priorPyramid (makePyramid cv s.nextGray) s.priorPoints s.nextPoints
  rw [hl.1, hl.2]

theorem lk_atHandleModes_fields (cv : Cv V B Mat Pt) (s : LucasKanadeVideoPlayer V Mat Pt) :
    (atHandleModes cv s).priorPoints = s.priorPoints ∧
    (atHandleModes cv s).nextPoints = s.nextPoints ∧
    (atHandleModes cv s).mode = s.mode ∧
    (atHandleModes cv s).newPoint = s.newPoint ∧
    (atHandleModes cv s).priorGray = s.priorGray ∧
    (atHandleModes cv s).nextGray = cv.cvtColor (cv.read s.video).2 ∧
    (atHandleModes cv s).priorPyramid = s.priorPyramid ∧
    (atHandleModes cv s).nextPyramid = s.nextPyramid ∧
    (atHandleModes cv s).night = s.night ∧
    (atHandleModes cv s).state = s.state ∧
    (atHandleModes cv s).shown = s.shown ∧
    (atHandleModes cv s).frameCount = s.frameCount := by
  unfold atHandleModes prepareFrame
  by_cases h : s.frameCount = 0 <;> simp [h]

theorem lk_showFrame_displayed (cv : Cv V B Mat Pt) (s : LucasKanadeVideoPlayer V Mat Pt)
    (hd : cv.hasData (cv.read s.video).2 = true) :
    showFrame cv s = (beforeSwap cv s).map swapAndShow := by
  unfold showFrame beforeSwap atHandleModes
  simp [hd]

theorem lk_showFrame_empty (cv : Cv V B Mat Pt) (s : LucasKanadeVideoPlayer V Mat Pt)
    (hd : cv.hasData (cv.read s.video).2 = false) :
    showFrame cv s =
      some { s with video := (cv.read s.video).1, itsFrame := (cv.read s.video).2,
                    state := State.STEP } := by
  unfold showFrame
  simp [hd]

end LucasKanade

namespace Foreground

variable {V B Mat Pt : Type}

theorem fg_dispatchedMode_eq (s : FkltVideoPlayer V B Mat Pt) :
    dispatchedMode s = if s.position % 16 = 0 then Mode.TRACK else s.mode := by
  unfold dispatchedMode forceTrack
  have h : (0 = Int.tmod s.position 16) ↔ s.position % 16 = 0 := by
    rw [eq_comm, ← Int.dvd_iff_tmod_eq_zero, Int.dvd_iff_emod_eq_zero]
  by_cases h0 : s.position % 16 = 0
  · simp [h0, h.mpr h0]
  · have h1 : ¬ (0 = Int.tmod s.position 16) := fun hc => h0 (h.mp hc)
    simp [h0, h1]

theorem fg_nightImage_eq (cv : Cv V B Mat Pt) (s : FkltVideoPlayer V B Mat Pt) :
    nightImage cv s =
      { s with image := if s.night then cv.setToZero s.image else s.image } := by
  unfold nightImage
  split <;> rfl

theorem fg_forceTrack_eq (s : FkltVideoPlayer V B Mat Pt) :
    forceTrack s = { s with mode := dispatchedMode s } := by
  unfold dispatchedMode forceTrack
  split <;> rfl

theorem fg_dispatchedMode_nightImage (cv : Cv V B Mat Pt) (s : FkltVideoPlayer V B Mat Pt) :
    dispatchedMode (nightImage cv s) = dispatchedMode s := by
  by_cases h : 0 = Int.tmod s.position 16 <;>
    simp [dispatchedMode, forceTrack, fg_nightImage_eq, h]

/-- The fields of the player after `handleModes`, the image apart. -/
theorem fg_handleModes_eq (cv : Cv V B Mat Pt) (s : FkltVideoPlayer V B Mat Pt) :
    (handleModes cv s).priorPoints =
      (if dispatchedMode s = Mode.CLEAR then []
       else if dispatchedMode s = Mode.TRACK then getGoodTrackingPoints cv s.priorGray
       else s.priorPoints) ∧
    (handleModes cv s).nextPoints =
      (if dispatchedMode s = Mode.CLEAR then []
       else if dispatchedMode s = Mode.POINT then
         s.nextPoints ++ [cv.cornerSubPix s.nextGray 31 s.newPoint]
       else s.nextPoints) ∧
    (handleModes cv s).priorGray = s.priorGray ∧ (handleModes cv s).nextGray = s.nextGray ∧
    (handleModes cv s).mode = Mode.NONE ∧ (handleModes cv s).position = s.position ∧
    (handleModes cv s).state = s.state ∧ (handleModes cv s).night = s.night ∧
    (handleModes cv s).video = s.video ∧ (handleModes cv s).shown = s.shown ∧
    (handleModes cv s).trackbar = s.trackbar ∧ (handleModes cv s).newPoint = s.newPoint ∧
    (handleModes cv s).itsFrame = s.itsFrame ∧ (handleModes cv s).frameCount = s.frameCount ∧
    (handleModes cv s).msDelay = s.msDelay ∧
    (handleModes cv s).itsBackgroundRemover = s.itsBackgroundRemover := by
  unfold handleModes
  rw [fg_forceTrack_eq, fg_dispatchedMode_nightImage, fg_nightImage_eq]
  unfold dispatchModes
  cases hm : dispatchedMode s <;> simp [addTrackingPoint]

theorem fg_atHandleModes_fields (cv : Cv V B Mat Pt) (s : FkltVideoPlayer V B Mat Pt) :
    (atHandleModes cv s).priorPoints = s.priorPoints ∧
    (atHandleModes cv s).nextPoints = s.nextPoints ∧
    (atHandleModes cv s).mode = s.mode ∧
    (atHandleModes cv s).newPoint = s.newPoint ∧
    (atHandleModes cv s).priorGray = s.priorGray ∧
    (atHandleModes cv s).nextGray =
      cv.cvtColor (cv.removeBackground s.itsBackgroundRemover (cv.read s.video).2).2 ∧
    (atHandleModes cv s).night = s.night ∧
    (atHandleModes cv s).state = s.state ∧
    (atHandleModes cv s).shown = s.shown ∧
    (atHandleModes cv s).frameCount = s.frameCount ∧
    (atHandleModes cv s).position =
      (if s.frameCount ≠ 0 then cv.getPosition (cv.read s.video).1 else s.position) := by
  unfold atHandleModes prepareFrame
  by_cases h : s.frameCount = 0 <;> simp [h]

theorem fg_showFrame_displayed (cv : Cv V B Mat Pt) (s : FkltVideoPlayer V B Mat Pt)
    (hd : cv.hasData (cv.read s.video).2 = true) :
    showFrame cv s = (beforeSwap cv s).map swapAndShow := by
  unfold showFrame beforeSwap atHandleModes
  simp [hd]

theorem fg_showFrame_empty (cv : Cv V B Mat Pt) (s : FkltVideoPlayer V B Mat Pt)
    (hd : cv.hasData (cv.read s.video).2 = false) :
    showFrame cv s =
      some { s with video := (cv.read s.video).1, itsFrame := (cv.read s.video).2,
                    state := State.STEP } := by
  unfold showFrame
  simp [hd]

end Foreground

/-! ## Runs of actions -/

namespace LucasKanade

variable {V B Mat Pt : Type}

theorem lk_showFrame_clear (cv : Cv V B Mat Pt) (s : LucasKanadeVideoPlayer V Mat Pt)
    (hd : cv.hasData (cv.read s.video).2 = true)
    (hc : (atHandleModes cv s).mode = Mode.CLEAR) :
    ∃ s1, showFrame cv s = some s1 ∧ s1.priorPoints = [] ∧ s1.nextPoints = [] := by
  obtain ⟨s1, h1, h2, h3, -⟩ := lk_handleModes_eq cv (atHandleModes cv s)
    (fun hne _ _ => absurd hc hne)
  rw [lk_showFrame_displayed cv s hd]
  unfold beforeSwap
  rw [h1]
  refine ⟨swapAndShow s1, rfl, ?_, ?_⟩
  · show s1.nextPoints = []
    rw [h3]
    simp [hc]
  · show s1.priorPoints = []
    rw [h2]
    simp [hc]

theorem lk_showFrame_quiet (cv : Cv V B Mat Pt) (s : LucasKanadeVideoPlayer V Mat Pt)
    (hp : s.priorPoints = []) (hn : s.nextPoints = [])
    (ht : (atHandleModes cv s).mode ≠ Mode.TRACK)
    (hq : (atHandleModes cv s).mode ≠ Mode.POINT) :
    ∃ s1, showFrame cv s = some s1 ∧ s1.priorPoints = [] ∧ s1.nextPoints = [] := by
  by_cases hd : cv.hasData (cv.read s.video).2 = true
  · obtain ⟨hp0, hn0, -⟩ := lk_atHandleModes_fields cv s
    obtain ⟨s1, h1, h2, h3, -⟩ := lk_handleModes_eq cv (atHandleModes cv s)
      (fun _ _ hne => absurd (hp0.trans hp) hne)
    rw [lk_showFrame_displayed cv s hd]
    unfold beforeSwap
    rw [h1]
    refine ⟨swapAndShow s1, rfl, ?_, ?_⟩
    · show s1.nextPoints = []
      rw [h3, hp0, hn0, hp, hn]
      simp [ht, hq]
    · show s1.priorPoints = []
      rw [h2, hp0, hp]
      simp
  · rw [lk_showFrame_empty cv s (by simpa using hd)]
    exact ⟨_, rfl, hp, hn⟩

theorem lk_onKey_points (code : Int) (s : LucasKanadeVideoPlayer V Mat Pt) :
    ((onKey code s).getD s).priorPoints = s.priorPoints ∧
    ((onKey code s).getD s).nextPoints = s.nextPoints := by
  unfold onKey
  simp only []
  repeat' split
  all_goals exact ⟨rfl, rfl⟩

theorem lk_onMouseClick_points (cv : Cv V B Mat Pt) (event x y : Int)
    (s : LucasKanadeVideoPlayer V Mat Pt) :
    (onMouseClick cv event x y s).priorPoints = s.priorPoints ∧
    (onMouseClick cv event x y s).nextPoints = s.nextPoints := by
  unfold onMouseClick
  split <;> exact ⟨rfl, rfl⟩

theorem lk_seekAndReset_points (cv : Cv V B Mat Pt) (p : Int)
    (s : LucasKanadeVideoPlayer V Mat Pt) :
    (seekAndReset cv p s).priorPoints = s.priorPoints ∧
    (seekAndReset cv p s).nextPoints = s.nextPoints :=
  ⟨rfl, rfl⟩

theorem lk_act_cases (cv : Cv V B Mat Pt) (a : Action) (s : LucasKanadeVideoPlayer V Mat Pt) :
    (∃ s0, frameInput cv a s = some s0 ∧ act cv a s = showFrame cv s0 ∧
      s0.priorPoints = s.priorPoints ∧ s0.nextPoints = s.nextPoints) ∨
    (frameInput cv a s = none ∧ ∃ s1, act cv a s = some s1 ∧
      s1.priorPoints = s.priorPoints ∧ s1.nextPoints = s.nextPoints) := by
  cases a with
  | frame => exact Or.inl ⟨s, rfl, rfl, rfl, rfl⟩
  | key code => exact Or.inr ⟨rfl, _, rfl, lk_onKey_points code s⟩
  | mouse event x y => exact Or.inr ⟨rfl, _, rfl, lk_onMouseClick_points cv event x y s⟩
  | drag p =>
    cases ht : s.trackbar with
    | none =>
      refine Or.inr ⟨?_, s, ?_, rfl, rfl⟩
      · simp [frameInput, ht]
      · simp [act, ht]
    | some t =>
      refine Or.inl ⟨seekAndReset cv p { s with position := p, trackbar := some p }, ?_, ?_,
        rfl, rfl⟩
      · simp [frameInput, ht]
      · simp [act, ht, onTrackBar]

theorem lk_act_clear (cv : Cv V B Mat Pt) (a : Action) (s : LucasKanadeVideoPlayer V Mat Pt)
    (hc : dispatchedBy cv a s = some Mode.CLEAR) :
    ∃ s1, act cv a s = some s1 ∧ s1.priorPoints = [] ∧ s1.nextPoints = [] := by
  rcases lk_act_cases cv a s with ⟨s0, hf, ha, -, -⟩ | ⟨hf, -⟩
  · unfold dispatchedBy at hc
    rw [hf] at hc
    by_cases hd : cv.hasData (cv.read s0.video).2 = true
    · simp [hd] at hc
      rw [ha]
      exact lk_showFrame_clear cv s0 hd hc
    · simp [hd] at hc
  · unfold dispatchedBy at hc
    rw [hf] at hc
    simp at hc

theorem lk_act_quiet (cv : Cv V B Mat Pt) (a : Action) (s : LucasKanadeVideoPlayer V Mat Pt)
    (hp : s.priorPoints = []) (hn : s.nextPoints = [])
    (ht : dispatchedBy cv a s ≠ some Mode.TRACK)
    (hq : dispatchedBy cv a s ≠ some Mode.POINT) :
    ∃ s1, act cv a s = some s1 ∧ s1.priorPoints = [] ∧ s1.nextPoints = [] := by
  rcases lk_act_cases cv a s with ⟨s0, hf, ha, hp0, hn0⟩ | ⟨-, s1, ha, hp1, hn1⟩
  · rw [ha]
    by_cases hd : cv.hasData (cv.read s0.video).2 = true
    · unfold dispatchedBy at ht hq
      rw [hf] at ht hq
      simp [hd] at ht hq
      exact lk_showFrame_quiet cv s0 (hp0.trans hp) (hn0.trans hn) ht hq
    · rw [lk_showFrame_empty cv s0 (by simpa using hd)]
      exact ⟨_, rfl, hp0.trans hp, hn0.trans hn⟩
  · exact ⟨s1, ha, hp1.trans hp, hn1.trans hn⟩

theorem lk_run_quiet (cv : Cv V B Mat Pt) :
    ∀ (acts : List Action) (s : LucasKanadeVideoPlayer V Mat Pt),
      s.priorPoints = [] → s.nextPoints = [] → Quiet cv acts s →
      ∃ s2, run cv acts s = some s2 ∧ s2.priorPoints = [] ∧ s2.nextPoints = [] := by
  intro acts
  induction acts with
  | nil =>
    intro s hp hn _
    exact ⟨s, rfl, hp, hn⟩
  | cons a rest ih =>
    intro s hp hn hq
    obtain ⟨ht, hpt, hrest⟩ := hq
    obtain ⟨s1, h1, hp1, hn1⟩ := lk_act_quiet cv a s hp hn ht hpt
    simp only [h1] at hrest
    obtain ⟨s2, h2, hp2, hn2⟩ := ih s1 hp1 hn1 hrest
    refine ⟨s2, ?_, hp2, hn2⟩
    simp [run, h1, h2]

theorem lk_quiet_take (cv : Cv V B Mat Pt) :
    ∀ (acts : List Action) (k : Nat) (s : LucasKanadeVideoPlayer V Mat Pt),
      Quiet cv acts s → Quiet cv (acts.take k) s := by
  intro acts
  induction acts with
  | nil =>
    intro k s h
    simpa using h
  | cons a rest ih =>
    intro k s h
    cases k with
    | zero => exact trivial
    | succ k =>
      obtain ⟨ht, hpt, hrest⟩ := h
      refine ⟨ht, hpt, ?_⟩
      cases h1 : act cv a s with
      | none => exact trivial
      | some s1 =>
        simp only [h1] at hrest
        exact ih k s1 hrest

end LucasKanade

namespace Foreground

variable {V B Mat Pt : Type}

theorem fg_showFrame_clear (cv : Cv V B Mat Pt) (s : FkltVideoPlayer V B Mat Pt)
    (hd : cv.hasData (cv.read s.video).2 = true)
    (hc : dispatchedMode (atHandleModes cv s) = Mode.CLEAR) :
    ∃ s1, showFrame cv s = some s1 ∧ s1.priorPoints = [] ∧ s1.nextPoints = [] := by
  obtain ⟨h2, h3, -⟩ := fg_handleModes_eq cv (atHandleModes cv s)
  have hp : (handleModes cv (atHandleModes cv s)).priorPoints = [] := by
    rw [h2]
    simp [hc]
  have hn : (handleModes cv (atHandleModes cv s)).nextPoints = [] := by
    rw [h3]
    simp [hc]
  rw [fg_showFrame_displayed cv s hd]
  unfold beforeSwap
  rw [fg_drawFlowPoints_idle cv _ hp]
  exact ⟨_, rfl, hn, hp⟩

theorem fg_showFrame_quiet (cv : Cv V B Mat Pt) (s : FkltVideoPlayer V B Mat Pt)
    (hp : s.priorPoints = []) (hn : s.nextPoints = [])
    (ht : dispatchedMode (atHandleModes cv s) ≠ Mode.TRACK)
    (hq : dispatchedMode (atHandleModes cv s) ≠ Mode.POINT) :
    ∃ s1, showFrame cv s = some s1 ∧ s1.priorPoints = [] ∧ s1.nextPoints = [] := by
  by_cases hd : cv.hasData (cv.read s.video).2 = true
  · obtain ⟨hp0, hn0, -⟩ := fg_atHandleModes_fields cv s
    obtain ⟨h2, h3, -⟩ := fg_handleModes_eq cv (atHandleModes cv s)
    have hp1 : (handleModes cv (atHandleModes cv s)).priorPoints = [] := by
      rw [h2, hp0, hp]
      simp [ht]
    have hn1 : (handleModes cv (atHandleModes cv s)).nextPoints = [] := by
      rw [h3, hn0, hn]
      simp [hq]
    rw [fg_showFrame_displayed cv s hd]
    unfold beforeSwap
    rw [fg_drawFlowPoints_idle cv _ hp1]
    exact ⟨_, rfl, hn1, hp1⟩
  · rw [fg_showFrame_empty cv s (by simpa using hd)]
    exact ⟨_, rfl, hp, hn⟩

theorem fg_onKey_points (code : Int) (s : FkltVideoPlayer V B Mat Pt) :
    ((onKey code s).getD s).priorPoints = s.priorPoints ∧
    ((onKey code s).getD s).nextPoints = s.nextPoints := by
  unfold onKey
  simp only []
  repeat' split
  all_goals exact ⟨rfl, rfl⟩

theorem fg_onMouseClick_points (cv : Cv V B Mat Pt) (event x y : Int)
    (s : FkltVideoPlayer V B Mat Pt) :
    (onMouseClick cv event x y s).priorPoints = s.priorPoints ∧
    (onMouseClick cv event x y s).nextPoints = s.nextPoints := by
  unfold onMouseClick
  split <;> exact ⟨rfl, rfl⟩

theorem fg_seekAndReset_points (cv : Cv V B Mat Pt) (p : Int)
    (s : FkltVideoPlayer V B Mat Pt) :
    (seekAndReset cv p s).priorPoints = s.priorPoints ∧
    (seekAndReset cv p s).nextPoints = s.nextPoints :=
  ⟨rfl, rfl⟩

theorem fg_act_cases (cv : Cv V B Mat Pt) (a : Action) (s : FkltVideoPlayer V B Mat Pt) :
    (∃ s0, frameInput cv a s = some s0 ∧ act cv a s = showFrame cv s0 ∧
      s0.priorPoints = s.priorPoints ∧ s0.nextPoints = s.nextPoints) ∨
    (frameInput cv a s = none ∧ ∃ s1, act cv a s = some s1 ∧
      s1.priorPoints = s.priorPoints ∧ s1.nextPoints = s.nextPoints) := by
  cases a with
  | frame => exact Or.inl ⟨s, rfl, rfl, rfl, rfl⟩
  | key code => exact Or.inr ⟨rfl, _, rfl, fg_onKey_points code s⟩
  | mouse event x y => exact Or.inr ⟨rfl, _, rfl, fg_onMouseClick_points cv event x y s⟩
  | drag p =>
    cases ht : s.trackbar with
    | none =>
      refine Or.inr ⟨?_, s, ?_, rfl, rfl⟩
      · simp [frameInput, ht]
      · simp [act, ht]
    | some t =>
      refine Or.inl ⟨seekAndReset cv p { s with position := p, trackbar := some p }, ?_, ?_,
        rfl, rfl⟩
      · simp [frameInput, ht]
      · simp [act, ht, onTrackBar]

theorem fg_act_clear (cv : Cv V B Mat Pt) (a : Action) (s : FkltVideoPlayer V B Mat Pt)
    (hc : dispatchedBy cv a s = some Mode.CLEAR) :
    ∃ s1, act cv a s = some s1 ∧ s1.priorPoints = [] ∧ s1.nextPoints = [] := by
  rcases fg_act_cases cv a s with ⟨s0, hf, ha, -, -⟩ | ⟨hf, -⟩
  · unfold dispatchedBy at hc
    rw [hf] at hc
    by_cases hd : cv.hasData (cv.read s0.video).2 = true
    · simp [hd] at hc
      rw [ha]
      exact fg_showFrame_clear cv s0 hd hc
    · simp [hd] at hc
  · unfold dispatchedBy at hc
    rw [hf] at hc
    simp at hc

theorem fg_act_quiet (cv : Cv V B Mat Pt) (a : Action) (s : FkltVideoPlayer V B Mat Pt)
    (hp : s.priorPoints = []) (hn : s.nextPoints = [])
    (ht : dispatchedBy cv a s ≠ some Mode.TRACK)
    (hq : dispatchedBy cv a s ≠ some Mode.POINT) :
    ∃ s1, act cv a s = some s1 ∧ s1.priorPoints = [] ∧ s1.nextPoints = [] := by
  rcases fg_act_cases cv a s with ⟨s0, hf, ha, hp0, hn0⟩ | ⟨-, s1, ha, hp1, hn1⟩
  · rw [ha]
    by_cases hd : cv.hasData (cv.read s0.video).2 = true
    · unfold dispatchedBy at ht hq
      rw [hf] at ht hq
      simp [hd] at ht hq
      exact fg_showFrame_quiet cv s0 (hp0.trans hp) (hn0.trans hn) ht hq
    · rw [fg_showFrame_empty cv s0 (by simpa using hd)]
      exact ⟨_, rfl, hp0.trans hp, hn0.trans hn⟩
  · exact ⟨s1, ha, hp1.trans hp, hn1.trans hn⟩

theorem fg_run_quiet (cv : Cv V B Mat Pt) :
    ∀ (acts : List Action) (s : FkltVideoPlayer V B Mat Pt),
      s.priorPoints = [] → s.nextPoints = [] → Quiet cv acts s →
      ∃ s2, run cv acts s = some s2 ∧ s2.priorPoints = [] ∧ s2.nextPoints = [] := by
  intro acts
  induction acts with
  | nil =>
    intro s hp hn _
    exact ⟨s, rfl, hp, hn⟩
  | cons a rest ih =>
    intro s hp hn hq
    obtain ⟨ht, hpt, hrest⟩ := hq
    obtain ⟨s1, h1, hp1, hn1⟩ := fg_act_quiet cv a s hp hn ht hpt
    simp only [h1] at hrest
    obtain ⟨s2, h2, hp2, hn2⟩ := ih s1 hp1 hn1 hrest
    refine ⟨s2, ?_, hp2, hn2⟩
    simp [run, h1, h2]

theorem fg_quiet_take (cv : Cv V B Mat Pt) :
    ∀ (acts : List Action) (k : Nat) (s : FkltVideoPlayer V B Mat Pt),
      Quiet cv acts s → Quiet cv (acts.take k) s := by
  intro acts
  induction acts with
  | nil =>
    intro k s h
    simpa using h
  | cons a rest ih =>
    intro k s h
    cases k with
    | zero => exact trivial
    | succ k =>
      obtain ⟨ht, hpt, hrest⟩ := h
      refine ⟨ht, hpt, ?_⟩
      cases h1 : act cv a s with
      | none => exact trivial
      | some s1 =>
        simp only [h1] at hrest
        exact ih k s1 hrest

end Foreground

namespace Foreground

variable {V B Mat Pt : Type}

theorem fg_handleModes_idle (cv : Cv V B Mat Pt) (x : FkltVideoPlayer V B Mat Pt)
    (hpos : x.position % 16 ≠ 0) (hp : x.priorPoints = []) (hm : x.mode = Mode.NONE) :
    (handleModes cv x).priorPoints = [] ∧ (handleModes cv x).nextPoints = x.nextPoints := by
  obtain ⟨h2, h3, -⟩ := fg_handleModes_eq cv x
  have hd : dispatchedMode x = Mode.NONE := by
    rw [fg_dispatchedMode_eq, hm]
    simp [hpos]
  rw [h2, h3, hd, hp]
  simp

theorem fg_handleModes_click (cv : Cv V B Mat Pt) (x : FkltVideoPlayer V B Mat Pt)
    (hpos : x.position % 16 ≠ 0) (hp : x.priorPoints = []) (hm : x.mode = Mode.POINT) :
    (handleModes cv x).priorPoints = [] ∧
    (handleModes cv x).nextPoints =
      x.nextPoints ++ [cv.cornerSubPix x.nextGray 31 x.newPoint] := by
  obtain ⟨h2, h3, -⟩ := fg_handleModes_eq cv x
  have hd : dispatchedMode x = Mode.POINT := by
    rw [fg_dispatchedMode_eq, hm]
    simp [hpos]
  rw [h2, h3, hd, hp]
  simp

end Foreground

/-! ## The pending request after a frame -/

namespace LucasKanade

variable {V B Mat Pt : Type}

theorem lk_frameInput_mode (cv : Cv V B Mat Pt) (a : Action)
    (s s0 : LucasKanadeVideoPlayer V Mat Pt) (h : frameInput cv a s = some s0) :
    s0.mode = s.mode := by
  cases a with
  | frame =>
    have h0 : s = s0 := Option.some.inj h
    rw [h0]
  | key code => simp [frameInput] at h
  | mouse event x y => simp [frameInput] at h
  | drag p =>
    cases ht : s.trackbar with
    | none => simp [frameInput, ht] at h
    | some t =>
      simp only [frameInput, ht] at h
      have h0 := Option.some.inj h
      rw [← h0]
      rfl

theorem lk_dispatchedBy_mode (cv : Cv V B Mat Pt) (a : Action)
    (s : LucasKanadeVideoPlayer V Mat Pt) (m : Mode) (h : dispatchedBy cv a s = some m) :
    m = s.mode := by
  unfold dispatchedBy at h
  cases hf : frameInput cv a s with
  | none => simp [hf] at h
  | some s0 =>
    simp only [hf] at h
    by_cases hd : cv.hasData (cv.read s0.video).2 = true
    · simp only [hd, if_true] at h
      have h0 := Option.some.inj h
      rw [← h0, (lk_atHandleModes_fields cv s0).2.2.1]
      exact lk_frameInput_mode cv a s s0 hf
    · simp [hd] at h

theorem lk_act_displayed_mode (cv : Cv V B Mat Pt) (htr : TrackerPerPoint cv) (a : Action)
    (s : LucasKanadeVideoPlayer V Mat Pt) (m : Mode) (h : dispatchedBy cv a s = some m) :
    ∃ s1, act cv a s = some s1 ∧ s1.mode = Mode.NONE := by
  rcases lk_act_cases cv a s with ⟨s0, hf, ha, -, -⟩ | ⟨hf, -⟩
  · unfold dispatchedBy at h
    rw [hf] at h
    by_cases hd : cv.hasData (cv.read s0.video).2 = true
    · obtain ⟨s1, h1, -, -, -, -, -, -, hm, -⟩ := lk_handleModes_eq cv (atHandleModes cv s0)
        (lk_handleModes_of_tracker cv htr _)
      rw [ha, lk_showFrame_displayed cv s0 hd]
      unfold beforeSwap
      rw [h1]
      exact ⟨swapAndShow s1, rfl, hm⟩
    · simp [hd] at h
  · unfold dispatchedBy at h
    rw [hf] at h
    simp at h

end LucasKanade

namespace Foreground

variable {V B Mat Pt : Type}

theorem fg_frameInput_mode (cv : Cv V B Mat Pt) (a : Action)
    (s s0 : FkltVideoPlayer V B Mat Pt) (h : frameInput cv a s = some s0) :
    s0.mode = s.mode := by
  cases a with
  | frame =>
    have h0 : s = s0 := Option.some.inj h
    rw [h0]
  | key code => simp [frameInput] at h
  | mouse event x y => simp [frameInput] at h
  | drag p =>
    cases ht : s.trackbar with
    | none => simp [frameInput, ht] at h
    | some t =>
      simp only [frameInput, ht] at h
      have h0 := Option.some.inj h
      rw [← h0]
      rfl

theorem fg_dispatchedBy_mode (cv : Cv V B Mat Pt) (a : Action)
    (s : FkltVideoPlayer V B Mat Pt) (m : Mode) (h : dispatchedBy cv a s = some m) :
    m = s.mode ∨
      (m = Mode.TRACK ∧ ∃ s0, frameInput cv a s = some s0 ∧
        (atHandleModes cv s0).position % 16 = 0) := by
  unfold dispatchedBy at h
  cases hf : frameInput cv a s with
  | none => simp [hf] at h
  | some s0 =>
    simp only [hf] at h
    by_cases hd : cv.hasData (cv.read s0.video).2 = true
    · simp only [hd, if_true] at h
      have h0 := Option.some.inj h
      rw [fg_dispatchedMode_eq] at h0
      by_cases hp : (atHandleModes cv s0).position % 16 = 0
      · simp only [hp, if_true] at h0
        exact Or.inr ⟨h0.symm, s0, rfl, hp⟩
      · simp only [hp, if_false] at h0
        left
        rw [← h0, (fg_atHandleModes_fields cv s0).2.2.1]
        exact fg_frameInput_mode cv a s s0 hf
    · simp [hd] at h

theorem fg_beforeSwap_mode (cv : Cv V B Mat Pt) (htr : TrackerPerPoint cv)
    (s : FkltVideoPlayer V B Mat Pt) :
    ∃ s1, beforeSwap cv s = some s1 ∧ s1.mode = Mode.NONE := by
  have hm := (fg_handleModes_eq cv (atHandleModes cv s)).2.2.2.2.1
  unfold beforeSwap
  by_cases he : (handleModes cv (atHandleModes cv s)).priorPoints = []
  · rw [fg_drawFlowPoints_idle cv _ he]
    exact ⟨_, rfl, hm⟩
  · have hl := htr.2 (handleModes cv (atHandleModes cv s)).priorGray
      (handleModes cv (atHandleModes cv s)).nextGray
      (handleModes cv (atHandleModes cv s)).priorPoints
      (handleModes cv (atHandleModes cv s)).nextPoints
    rw [fg_drawFlowPoints_track cv _ he (by rw [hl.1, hl.2])]
    exact ⟨_, rfl, hm⟩

theorem fg_act_displayed_mode (cv : Cv V B Mat Pt) (htr : TrackerPerPoint cv) (a : Action)
    (s : FkltVideoPlayer V B Mat Pt) (m : Mode) (h : dispatchedBy cv a s = some m) :
    ∃ s1, act cv a s = some s1 ∧ s1.mode = Mode.NONE := by
  rcases fg_act_cases cv a s with ⟨s0, hf, ha, -, -⟩ | ⟨hf, -⟩
  · unfold dispatchedBy at h
    rw [hf] at h
    by_cases hd : cv.hasData (cv.read s0.video).2 = true
    · obtain ⟨s1, h1, hm⟩ := fg_beforeSwap_mode cv htr s0
      rw [ha, fg_showFrame_displayed cv s0 hd, h1]
      exact ⟨swapAndShow s1, rfl, hm⟩
    · simp [hd] at h
  · unfold dispatchedBy at h
    rw [hf] at h
    simp at h

end Foreground

/-! ## The trackbar callback -/

namespace LucasKanade

variable {V B Mat Pt : Type}

theorem lk_atHandleModes_source (cv : Cv V B Mat Pt) (s : LucasKanadeVideoPlayer V Mat Pt) :
    (atHandleModes cv s).video = (cv.read s.video).1 ∧
    (atHandleModes cv s).itsFrame = (cv.read s.video).2 ∧
    (atHandleModes cv s).position =
      (if s.frameCount ≠ 0 then cv.getPosition (cv.read s.video).1 else s.position) := by
  unfold atHandleModes prepareFrame
  by_cases h : s.frameCount = 0 <;> simp [h]

end LucasKanade

theorem Sample.cvFile100_readsByIndex : ReadsByIndex Sample.cvFile100 100 := by
  refine ⟨fun v p hp => ?_, fun v => ?_, fun v => ?_⟩
  · show ((p.toNat : Nat) : Int) = p
    exact Int.toNat_of_nonneg hp
  · show ((v.2 + 1 : Nat) : Int) = (v.2 : Int) + 1
    simp
  · show decide ((if v.2 < 100 then v.2 + 1 else 0) ≠ 0) = true ↔
      (0 ≤ (v.2 : Int) ∧ (v.2 : Int) < 100)
    by_cases h : v.2 < 100 <;> simp [h]

theorem Sample.cvFile100_trackerPerPoint : TrackerPerPoint Sample.cvFile100 := by
  refine ⟨fun a b prior next => ?_, fun a b prior next => ?_⟩ <;>
    simp [Sample.cvFile100, Sample.cv]

/-! ## The FourCC string -/

theorem fourCc_shifts (c : Int) :
    c >>> (0 : Nat) = c ∧ c >>> (8 : Nat) = c / 256 ∧ c >>> (16 : Nat) = c / 65536 ∧
      c >>> (24 : Nat) = c / 16777216 := by
  refine ⟨?_, ?_, ?_, ?_⟩ <;> rw [Int.shiftRight_eq_div_pow] <;> norm_num

theorem fourCc_string_eq (c : Int) :
    CvVideoCapture.getFourCcCodecString c =
      [c % 256, c / 256 % 256, c / 65536 % 256, c / 16777216 % 256].takeWhile
        (fun b => b ≠ 0) := by
  obtain ⟨h0, h1, h2, h3⟩ := fourCc_shifts c
  unfold CvVideoCapture.getFourCcCodecString
  rw [h0, h1, h2, h3]
  by_cases a0 : c % 256 = 0 <;> by_cases a1 : c / 256 % 256 = 0 <;>
    by_cases a2 : c / 65536 % 256 = 0 <;> by_cases a3 : c / 16777216 % 256 = 0 <;>
    simp [List.takeWhile, a0, a1, a2, a3]

/-! ## The frame delay -/

theorem roundHalfEven_ge (y : ℚ) (a : Int) (h : (a : ℚ) ≤ y) : a ≤ roundHalfEven y := by
  have hf : a ≤ ⌊y⌋ := Int.le_floor.mpr h
  unfold roundHalfEven
  simp only []
  split_ifs <;> omega

theorem roundHalfEven_le (y : ℚ) (a : Int) (h : y ≤ (a : ℚ)) : roundHalfEven y ≤ a := by
  have hf : ⌊y⌋ ≤ a := by
    have := Int.floor_le_floor h
    simpa using this
  unfold roundHalfEven
  simp only []
  by_cases heq : ⌊y⌋ = a
  · have hy : y - ⌊y⌋ = 0 := by
      have h1 := Int.floor_le y
      rw [heq] at h1 ⊢
      linarith
    rw [hy]
    norm_num
    omega
  · split_ifs <;> omega

theorem roundHalfEven_eq (y : ℚ) (m : Int) (h1 : (m : ℚ) - 1 / 2 < y) (h2 : y < m + 1 / 2) :
    roundHalfEven y = m := by
  unfold roundHalfEven
  simp only []
  by_cases hm : (m : ℚ) ≤ y
  · have hf : ⌊y⌋ = m := by
      rw [Int.floor_eq_iff]
      constructor
      · exact hm
      · linarith
    rw [hf, if_pos (by linarith)]
  · have hf : ⌊y⌋ = m - 1 := by
      rw [Int.floor_eq_iff]
      push_cast
      constructor <;> linarith
    rw [hf]
    push_cast
    rw [if_neg (by linarith), if_pos (by linarith)]
    omega

/-- The exponent of the binade of a positive rational. -/
theorem log_two_eq (x : ℚ) (e : Int) (h1 : (2 : ℚ) ^ e ≤ x) (h2 : x < (2 : ℚ) ^ (e + 1)) :
    Int.log 2 x = e := by
  have hx : 0 < x := lt_of_lt_of_le (by positivity) h1
  have a : e ≤ Int.log 2 x := (Int.zpow_le_iff_le_log (by norm_num) hx).mp (by simpa using h1)
  have b : Int.log 2 x < e + 1 := (Int.lt_zpow_iff_log_lt (by norm_num) hx).mp (by simpa using h2)
  omega

/-- The rounding of a positive rational, by the exponent of its binade. -/
theorem roundToDouble_pos (x : ℚ) (hx : 0 < x) :
    roundToDouble x =
      if (roundHalfEven (x / 2 ^ (max (Int.log 2 x) (-1022) - 52)) : ℚ) *
          2 ^ (max (Int.log 2 x) (-1022) - 52) < 2 ^ (1024 : Int)
      then some ((roundHalfEven (x / 2 ^ (max (Int.log 2 x) (-1022) - 52)) : ℚ) *
          2 ^ (max (Int.log 2 x) (-1022) - 52))
      else none := by
  unfold roundToDouble
  rw [if_neg (ne_of_gt hx), abs_of_pos hx]
  simp only [if_neg (not_lt.mpr (le_of_lt hx))]

theorem roundToDouble_neg (x : ℚ) (hx : 0 < x) :
    roundToDouble (-x) = (roundToDouble x).map fun r => -r := by
  rw [roundToDouble_pos x hx]
  unfold roundToDouble
  have hne : -x ≠ 0 := by linarith
  have hlt : -x < 0 := by linarith
  rw [if_neg hne, abs_neg, abs_of_pos hx]
  simp only [if_pos hlt]
  split_ifs <;> rfl

/-- The rounding of a positive rational lies between any two numbers of a
grid `2 ^ (-k)` that is coarser than the `double`s around it. -/
theorem roundToDouble_between (x : ℚ) (k : Nat) (a b : Int) (hx : 0 < x)
    (ha : (a : ℚ) / 2 ^ k ≤ x) (hb : x ≤ (b : ℚ) / 2 ^ k)
    (hlt : x < 2 ^ (53 - (k : Int))) (hk : k ≤ 1074) :
    ∃ r, roundToDouble x = some r ∧ (a : ℚ) / 2 ^ k ≤ r ∧ r ≤ (b : ℚ) / 2 ^ k := by
  have hlog : Int.log 2 x < 53 - (k : Int) :=
    (Int.lt_zpow_iff_log_lt (by norm_num) hx).mp (by simpa using hlt)
  have hlog2 : x < (2 : ℚ) ^ (Int.log 2 x + 1) := by
    simpa using Int.lt_zpow_succ_log_self (b := 2) (by norm_num) x
  obtain ⟨e, he⟩ : ∃ e, e = max (Int.log 2 x) (-1022) := ⟨_, rfl⟩
  have he1 : e ≤ 52 - (k : Int) := by
    rw [he]
    omega
  have he2 : Int.log 2 x ≤ e := by
    rw [he]
    exact le_max_left _ _
  obtain ⟨j, hj⟩ : ∃ j : Nat, (j : Int) = 52 - e - k := ⟨(52 - e - k).toNat, by omega⟩
  have hpow : (2 : ℚ) ^ (e - 52) * 2 ^ j = 1 / 2 ^ k := by
    have : (2 : ℚ) ^ (e - 52) * 2 ^ (j : Int) = 2 ^ (-(k : Int)) := by
      rw [← zpow_add₀ (by norm_num : (2 : ℚ) ≠ 0)]
      congr 1
      omega
    rw [zpow_natCast] at this
    rw [this, zpow_neg, zpow_natCast, one_div]
  have hulp : (0 : ℚ) < 2 ^ (e - 52) := by positivity
  have hj0 : (0 : ℚ) < 2 ^ j := by positivity
  have hk0 : (0 : ℚ) < 2 ^ k := by positivity
  have hgrid : ∀ c : Int, (c : ℚ) / 2 ^ k = ((c * 2 ^ j : Int) : ℚ) * 2 ^ (e - 52) := by
    intro c
    push_cast
    rw [mul_assoc, mul_comm ((2 : ℚ) ^ j), hpow]
    ring
  have hlo : (a * 2 ^ j : Int) ≤ roundHalfEven (x / 2 ^ (e - 52)) := by
    apply roundHalfEven_ge
    rw [le_div_iff₀ hulp, ← hgrid]
    exact ha
  have hhi : roundHalfEven (x / 2 ^ (e - 52)) ≤ (b * 2 ^ j : Int) := by
    apply roundHalfEven_le
    rw [div_le_iff₀ hulp, ← hgrid]
    exact hb
  have htop : roundHalfEven (x / 2 ^ (e - 52)) ≤ (2 ^ 53 : Int) := by
    apply roundHalfEven_le
    rw [div_le_iff₀ hulp]
    have h3 : (2 : ℚ) ^ (Int.log 2 x + 1) ≤ 2 ^ (e + 1) :=
      zpow_le_zpow_right₀ (by norm_num) (by omega)
    have h4 : ((2 ^ 53 : Int) : ℚ) * 2 ^ (e - 52) = 2 ^ (e + 1) := by
      have c : ((2 ^ 53 : Int) : ℚ) = (2 : ℚ) ^ (53 : Int) := by norm_num
      rw [c, ← zpow_add₀ (by norm_num : (2 : ℚ) ≠ 0)]
      congr 1
      omega
    rw [h4]
    linarith
  have hfin : (roundHalfEven (x / 2 ^ (e - 52)) : ℚ) * 2 ^ (e - 52) < 2 ^ (1024 : Int) := by
    have h5 : (roundHalfEven (x / 2 ^ (e - 52)) : ℚ) ≤ ((2 ^ 53 : Int) : ℚ) := by
      exact_mod_cast htop
    have h6 : (2 : ℚ) ^ (e - 52) ≤ 2 ^ (0 : Int) := zpow_le_zpow_right₀ (by norm_num) (by omega)
    have h7 : (roundHalfEven (x / 2 ^ (e - 52)) : ℚ) * 2 ^ (e - 52) ≤ ((2 ^ 53 : Int) : ℚ) * 1 := by
      apply mul_le_mul h5 (by simpa using h6) (le_of_lt hulp) (by positivity)
    have h8 : (((2 : Int) ^ 53 : Int) : ℚ) * 1 < 2 ^ (1024 : Int) := by norm_num
    linarith
  rw [roundToDouble_pos x hx, ← he, if_pos hfin]
  refine ⟨_, rfl, ?_, ?_⟩
  · rw [hgrid a]
    exact mul_le_mul_of_nonneg_right (by exact_mod_cast hlo) (le_of_lt hulp)
  · rw [hgrid b]
    exact mul_le_mul_of_nonneg_right (by exact_mod_cast hhi) (le_of_lt hulp)

/-- The rounding of a rational of a normal binade is not below the binade. -/
theorem roundToDouble_ge_binade (x : ℚ) (e : Int) (he : -1022 ≤ e) (h1 : (2 : ℚ) ^ e ≤ x) :
    ∀ r, roundToDouble x = some r → (2 : ℚ) ^ e ≤ r := by
  intro r hr
  have hx : 0 < x := lt_of_lt_of_le (by positivity) h1
  have hlog : e ≤ Int.log 2 x :=
    (Int.zpow_le_iff_le_log (by norm_num) hx).mp (by simpa using h1)
  have hself : (2 : ℚ) ^ Int.log 2 x ≤ x := by
    simpa using Int.zpow_log_le_self (b := 2) (r := x) (by norm_num) hx
  have hmax : max (Int.log 2 x) (-1022) = Int.log 2 x := max_eq_left (by omega)
  rw [roundToDouble_pos x hx, hmax] at hr
  have hulp : (0 : ℚ) < 2 ^ (Int.log 2 x - 52) := by positivity
  have h4 : ((2 ^ 52 : Int) : ℚ) * 2 ^ (Int.log 2 x - 52) = 2 ^ Int.log 2 x := by
    have c : ((2 ^ 52 : Int) : ℚ) = (2 : ℚ) ^ (52 : Int) := by norm_num
    rw [c, ← zpow_add₀ (by norm_num : (2 : ℚ) ≠ 0)]
    congr 1
    omega
  have hlo : (2 ^ 52 : Int) ≤ roundHalfEven (x / 2 ^ (Int.log 2 x - 52)) := by
    apply roundHalfEven_ge
    rw [le_div_iff₀ hulp, h4]
    exact hself
  split at hr
  · have hre := (Option.some.inj hr).symm
    rw [hre]
    calc (2 : ℚ) ^ e ≤ 2 ^ Int.log 2 x := zpow_le_zpow_right₀ (by norm_num) hlog
      _ = ((2 ^ 52 : Int) : ℚ) * 2 ^ (Int.log 2 x - 52) := h4.symm
      _ ≤ _ := mul_le_mul_of_nonneg_right (by exact_mod_cast hlo) (le_of_lt hulp)
  · cases hr

/-- The rounding of a positive rational, from the exponent of its binade and
the integer nearest to its quotient by the unit of the binade. -/
theorem roundToDouble_eq (x : ℚ) (e m : Int) (h1 : (2 : ℚ) ^ e ≤ x) (h2 : x < (2 : ℚ) ^ (e + 1))
    (he : -1022 ≤ e) (hm1 : (m : ℚ) - 1 / 2 < x / 2 ^ (e - 52))
    (hm2 : x / 2 ^ (e - 52) < m + 1 / 2) (hfin : (m : ℚ) * 2 ^ (e - 52) < 2 ^ (1024 : Int)) :
    roundToDouble x = some ((m : ℚ) * 2 ^ (e - 52)) := by
  have hx : 0 < x := lt_of_lt_of_le (by positivity) h1
  have hlog := log_two_eq x e h1 h2
  have hmax : max (Int.log 2 x) (-1022) = e := by
    rw [hlog]
    exact max_eq_left he
  rw [roundToDouble_pos x hx, hmax, roundHalfEven_eq _ m hm1 hm2, if_pos hfin]

theorem doubleToInt_eq (x : ℚ) (z : Int) (h0 : 0 ≤ x) (h1 : (z : ℚ) ≤ x) (h2 : x < z + 1)
    (h3 : 0 ≤ z) (h4 : z ≤ 2147483647) : doubleToInt x = some z := by
  have hf : ⌊x⌋ = z := Int.floor_eq_iff.mpr ⟨h1, h2⟩
  unfold doubleToInt
  simp only [h0, if_true, hf]
  rw [if_pos ⟨by omega, h4⟩]

theorem doubleToInt_neg_eq (x : ℚ) (z : Int) (h0 : x < 0) (h1 : (z : ℚ) - 1 < x)
    (h2 : x ≤ z) (h3 : -2147483648 ≤ z) : doubleToInt x = some z := by
  have hf : ⌈x⌉ = z := Int.ceil_eq_iff.mpr ⟨h1, h2⟩
  have hz : z ≤ 0 := by
    rw [← hf]
    exact Int.ceil_le.mpr (by simpa using le_of_lt h0)
  unfold doubleToInt
  simp only [not_le.mpr h0, if_false, hf]
  rw [if_pos ⟨h3, by omega⟩]

/-- For a positive frame rate the delay is the floor of the exact quotient,
or the next integer when the quotient of the doubles is rounded up to it. -/
theorem msDelayOfFps_pos (f : ℚ) (hf : 0 < f) :
    (∀ d, msDelayOfFps f = some d → d = ⌊1000 / f⌋ ∨ d = ⌊1000 / f⌋ + 1) ∧
    (⌊1000 / f⌋ + 1 ≤ 2147483647 → ∃ d, msDelayOfFps f = some d) ∧
    (1000 / f ≤ ⌊1000 / f⌋ + 1 / 2 → ⌊1000 / f⌋ ≤ 2147483647 →
      msDelayOfFps f = some ⌊1000 / f⌋) := by
  have hx : (0 : ℚ) < 1000 / f := by positivity
  have hn0 : 0 ≤ ⌊1000 / f⌋ := Int.floor_nonneg.mpr (le_of_lt hx)
  have hlo := Int.floor_le (1000 / f)
  have hhi := Int.lt_floor_add_one (1000 / f)
  have hdiv : divDouble 1000 f = roundToDouble (1000 / f) := by
    unfold divDouble
    rw [if_neg (ne_of_gt hf)]
  -- the value of the conversion when the rounded quotient is between two integers
  have conv : ∀ r : ℚ, (⌊1000 / f⌋ : ℚ) ≤ r → r ≤ (⌊1000 / f⌋ : ℚ) + 1 →
      ⌊1000 / f⌋ + 1 ≤ 2147483647 →
      doubleToInt r = some ⌊1000 / f⌋ ∨ doubleToInt r = some (⌊1000 / f⌋ + 1) := by
    intro r h1 h2 h3
    have hr0 : (0 : ℚ) ≤ r := le_trans (by exact_mod_cast hn0) h1
    by_cases he : r = (⌊1000 / f⌋ : ℚ) + 1
    · right
      exact doubleToInt_eq r _ hr0 (by rw [he]; push_cast; exact le_refl _)
        (by rw [he]; push_cast; linarith) (by omega) h3
    · left
      exact doubleToInt_eq r _ hr0 h1 (lt_of_le_of_ne h2 he) hn0 (by omega)
  have small : 1000 / f < 2 ^ (53 : Int) →
      ∃ r, roundToDouble (1000 / f) = some r ∧ (⌊1000 / f⌋ : ℚ) ≤ r ∧
        r ≤ (⌊1000 / f⌋ : ℚ) + 1 := by
    intro hs
    obtain ⟨r, hr, h1, h2⟩ := roundToDouble_between (1000 / f) 0 ⌊1000 / f⌋ (⌊1000 / f⌋ + 1) hx
      (by simpa using hlo) (by push_cast; simpa using le_of_lt hhi) (by simpa using hs)
      (by norm_num)
    exact ⟨r, hr, by simpa using h1, by push_cast at h2; simpa using h2⟩
  refine ⟨fun d hd => ?_, fun hr => ?_, fun hh hr => ?_⟩
  · unfold msDelayOfFps at hd
    rw [hdiv] at hd
    by_cases hs : 1000 / f < 2 ^ (53 : Int)
    · obtain ⟨r, hr, h1, h2⟩ := small hs
      rw [hr, Option.some_bind] at hd
      -- the conversion gives the floor of r
      have hr0 : (0 : ℚ) ≤ r := le_trans (by exact_mod_cast hn0) h1
      unfold doubleToInt at hd
      simp only [hr0, if_true] at hd
      split at hd
      · have hde := (Option.some.inj hd).symm
        rw [hde]
        have a1 : ⌊1000 / f⌋ ≤ ⌊r⌋ := Int.le_floor.mpr h1
        have a2 : ⌊r⌋ ≤ ⌊1000 / f⌋ + 1 := by
          have := Int.floor_le_floor h2
          have e : ⌊(⌊1000 / f⌋ : ℚ) + 1⌋ = ⌊1000 / f⌋ + 1 := by
            rw [Int.floor_add_one, Int.floor_intCast]
          rw [e] at this
          exact this
        omega
      · cases hd
    · exfalso
      have hbig : (2 : ℚ) ^ (53 : Int) ≤ 1000 / f := not_lt.mp hs
      cases hq : roundToDouble (1000 / f) with
      | none =>
        rw [hq] at hd
        cases hd
      | some r =>
        rw [hq, Option.some_bind] at hd
        have hr := roundToDouble_ge_binade (1000 / f) 53 (by norm_num) hbig r hq
        have hr0 : (0 : ℚ) ≤ r := le_trans (by positivity) hr
        have hfl : (2 ^ 53 : Int) ≤ ⌊r⌋ := Int.le_floor.mpr (by
          have c : ((2 ^ 53 : Int) : ℚ) = (2 : ℚ) ^ (53 : Int) := by norm_num
          rw [c]
          exact hr)
        unfold doubleToInt at hd
        simp only [hr0, if_true] at hd
        split at hd
        · rename_i hrange
          have : (2 ^ 53 : Int) ≤ 2147483647 := le_trans hfl hrange.2
          norm_num at this
        · cases hd
  · have hs : 1000 / f < 2 ^ (53 : Int) := by
      have h1 : (1000 / f : ℚ) < (2147483647 : ℚ) := by
        have : ((⌊1000 / f⌋ + 1 : Int) : ℚ) ≤ ((2147483647 : Int) : ℚ) := by exact_mod_cast hr
        push_cast at this
        linarith
      have h2 : (2147483647 : ℚ) < 2 ^ (53 : Int) := by norm_num
      linarith
    obtain ⟨r, hrr, h1, h2⟩ := small hs
    unfold msDelayOfFps
    rw [hdiv, hrr, Option.some_bind]
    rcases conv r h1 h2 hr with h | h
    · exact ⟨_, h⟩
    · exact ⟨_, h⟩
  · have hs : 1000 / f < 2 ^ (52 : Int) := by
      have h1 : (1000 / f : ℚ) < (2147483647 : ℚ) + 1 := by
        have : ((⌊1000 / f⌋ : Int) : ℚ) ≤ ((2147483647 : Int) : ℚ) := by exact_mod_cast hr
        push_cast at this
        linarith
      have h2 : (2147483647 : ℚ) + 1 < 2 ^ (52 : Int) := by norm_num
      linarith
    obtain ⟨r, hrr, h1, h2⟩ := roundToDouble_between (1000 / f) 1 (2 * ⌊1000 / f⌋)
      (2 * ⌊1000 / f⌋ + 1) hx (by push_cast; linarith) (by push_cast; linarith)
      (by simpa using hs) (by norm_num)
    unfold msDelayOfFps
    rw [hdiv, hrr, Option.some_bind]
    push_cast at h1 h2
    have hnq : (0 : ℚ) ≤ (⌊1000 / f⌋ : ℚ) := by exact_mod_cast hn0
    exact doubleToInt_eq r _ (by linarith) (by linarith) (by linarith) hn0 hr

/-- Where the rounding of a positive rational lies. -/
theorem roundToDouble_pos_bounds (y : ℚ) (hy : 0 < y) (r : ℚ) (hr : roundToDouble y = some r) :
    0 ≤ r ∧ (y < 2 ^ (53 : Int) → (⌊y⌋ : ℚ) ≤ r ∧ r ≤ (⌊y⌋ : ℚ) + 1) ∧
    ((2 : ℚ) ^ (53 : Int) ≤ y → (2 : ℚ) ^ (53 : Int) ≤ r) := by
  have hn0 : 0 ≤ ⌊y⌋ := Int.floor_nonneg.mpr (le_of_lt hy)
  have hnq : (0 : ℚ) ≤ (⌊y⌋ : ℚ) := by exact_mod_cast hn0
  have small : y < 2 ^ (53 : Int) → (⌊y⌋ : ℚ) ≤ r ∧ r ≤ (⌊y⌋ : ℚ) + 1 := by
    intro hs
    obtain ⟨r2, hr2, h1, h2⟩ := roundToDouble_between y 0 ⌊y⌋ (⌊y⌋ + 1) hy
      (by simpa using Int.floor_le y) (by push_cast; simpa using le_of_lt (Int.lt_floor_add_one y))
      (by simpa using hs) (by norm_num)
    rw [hr] at hr2
    cases hr2
    exact ⟨by simpa using h1, by push_cast at h2; simpa using h2⟩
  have big : (2 : ℚ) ^ (53 : Int) ≤ y → (2 : ℚ) ^ (53 : Int) ≤ r :=
    fun hb => roundToDouble_ge_binade y 53 (by norm_num) hb r hr
  refine ⟨?_, small, big⟩
  by_cases hs : y < 2 ^ (53 : Int)
  · exact le_trans hnq (small hs).1
  · exact le_trans (by positivity) (big (not_lt.mp hs))

/-- For a negative frame rate the delay is the ceiling of the exact quotient,
or the integer before it when the quotient of the doubles is rounded down to
it. -/
theorem msDelayOfFps_neg (f : ℚ) (hf : f < 0) :
    ∀ d, msDelayOfFps f = some d → d = ⌈1000 / f⌉ ∨ d = ⌈1000 / f⌉ - 1 := by
  intro d hd
  have hy : (0 : ℚ) < 1000 / (-f) := by
    have : (0 : ℚ) < -f := by linarith
    positivity
  have hxy : 1000 / f = -(1000 / (-f)) := by
    rw [div_neg, neg_neg]
  have hceil : ⌈1000 / f⌉ = -⌊1000 / (-f)⌋ := by
    rw [hxy, Int.ceil_neg]
  have hn0 : 0 ≤ ⌊1000 / (-f)⌋ := Int.floor_nonneg.mpr (le_of_lt hy)
  unfold msDelayOfFps divDouble at hd
  rw [if_neg (ne_of_lt hf), hxy, roundToDouble_neg _ hy] at hd
  cases hq : roundToDouble (1000 / (-f)) with
  | none =>
    rw [hq] at hd
    cases hd
  | some r =>
    rw [hq] at hd
    simp only [Option.map_some', Option.some_bind] at hd
    obtain ⟨hr0, small, big⟩ := roundToDouble_pos_bounds _ hy r hq
    have hfr0 : 0 ≤ ⌊r⌋ := Int.floor_nonneg.mpr hr0
    -- the conversion of -r gives minus the floor of r
    have hconv : d = -⌊r⌋ ∧ ⌊r⌋ ≤ 2147483648 := by
      unfold doubleToInt at hd
      simp only [] at hd
      by_cases hz : (0 : ℚ) ≤ -r
      · have hre : r = 0 := by linarith
        rw [if_pos hz] at hd
        split at hd
        · have hde := (Option.some.inj hd).symm
          rw [hde, hre]
          simp
        · cases hd
      · rw [if_neg hz, Int.ceil_neg] at hd
        split at hd
        · rename_i hrange
          have hde := (Option.some.inj hd).symm
          exact ⟨hde, by omega⟩
        · cases hd
    by_cases hs : 1000 / (-f) < 2 ^ (53 : Int)
    · obtain ⟨h1, h2⟩ := small hs
      have a1 : ⌊1000 / (-f)⌋ ≤ ⌊r⌋ := Int.le_floor.mpr h1
      have a2 : ⌊r⌋ ≤ ⌊1000 / (-f)⌋ + 1 := by
        have := Int.floor_le_floor h2
        have e : ⌊(⌊1000 / (-f)⌋ : ℚ) + 1⌋ = ⌊1000 / (-f)⌋ + 1 := by
          rw [Int.floor_add_one, Int.floor_intCast]
        rw [e] at this
        exact this
      rw [hceil, hconv.1]
      omega
    · exfalso
      have hb := big (not_lt.mp hs)
      have hfl : (2 ^ 53 : Int) ≤ ⌊r⌋ := Int.le_floor.mpr (by
        have c : ((2 ^ 53 : Int) : ℚ) = (2 : ℚ) ^ (53 : Int) := by norm_num
        rw [c]
        exact hb)
      have : (2 ^ 53 : Int) ≤ 2147483648 := le_trans hfl hconv.2
      norm_num at this

theorem msDelayOfFps_thirty : msDelayOfFps 30 = some 33 := by
  have h := (msDelayOfFps_pos 30 (by norm_num)).2.2
  have hf : ⌊(1000 : ℚ) / 30⌋ = 33 := by
    rw [Int.floor_eq_iff]
    norm_num
  rw [hf] at h
  exact h (by norm_num) (by norm_num)

theorem msDelayOfFps_two_thousand : msDelayOfFps 2000 = some 0 := by
  have h := (msDelayOfFps_pos 2000 (by norm_num)).2.2
  have hf : ⌊(1000 : ℚ) / 2000⌋ = 0 := by
    rw [Int.floor_eq_iff]
    norm_num
  rw [hf] at h
  exact h (by norm_num) (by norm_num)

/-- The quotient of the doubles 1000 and 0.1 is the double 10000. -/
theorem msDelayOfFps_tenth : msDelayOfFps doubleTenth = some 10000 := by
  have hr : roundToDouble (1000 / doubleTenth) =
      some (((10000 * 2 ^ 39 : Int) : ℚ) * (2 : ℚ) ^ ((13 : Int) - 52)) := by
    apply roundToDouble_eq
    · norm_num [doubleTenth]
    · norm_num [doubleTenth]
    · norm_num
    · norm_num [doubleTenth]
    · norm_num [doubleTenth]
    · norm_num
  have hv : (((10000 * 2 ^ 39 : Int) : ℚ) * (2 : ℚ) ^ ((13 : Int) - 52)) = 10000 := by norm_num
  unfold msDelayOfFps divDouble
  rw [if_neg (by norm_num [doubleTenth]), hr, Option.some_bind, hv]
  exact doubleToInt_eq _ 10000 (by norm_num) (by norm_num) (by norm_num) (by norm_num)
    (by norm_num)

/-- The quotient of the doubles 1000 and -3, converted to `int`, is -333. -/
theorem msDelayOfFps_minus_three : msDelayOfFps (-3) = some (-333) := by
  have hr : roundToDouble ((1000 : ℚ) / 3) =
      some (((5864062014805333 : Int) : ℚ) * (2 : ℚ) ^ ((8 : Int) - 52)) := by
    apply roundToDouble_eq
    · norm_num
    · norm_num
    · norm_num
    · norm_num
    · norm_num
    · norm_num
  have hx : (1000 : ℚ) / (-3) = -(1000 / 3) := by norm_num
  unfold msDelayOfFps divDouble
  rw [if_neg (by norm_num), hx, roundToDouble_neg _ (by norm_num), hr]
  simp only [Option.map_some', Option.some_bind]
  exact doubleToInt_neg_eq _ (-333) (by norm_num) (by norm_num) (by norm_num) (by norm_num)

/-- The nearest integer is not further than one half. -/
theorem roundHalfEven_near (y : ℚ) :
    (roundHalfEven y : ℚ) - y ≤ 1 / 2 ∧ y - (roundHalfEven y : ℚ) ≤ 1 / 2 := by
  have h1 := Int.floor_le y
  have h2 := Int.lt_floor_add_one y
  unfold roundHalfEven
  simp only []
  split_ifs with a b c
  · constructor <;> linarith
  · push_cast
    constructor <;> linarith
  · constructor <;> linarith
  · push_cast
    constructor <;> linarith

/-- The rounding of a positive rational that is not below the least normal
number is not further from it than the relative error `2 ^ (-53)`. -/
theorem roundToDouble_near (x : ℚ) (hx : (2 : ℚ) ^ (-1022 : Int) ≤ x) (r : ℚ)
    (hr : roundToDouble x = some r) :
    r - x ≤ x * 2 ^ (-53 : Int) ∧ x - r ≤ x * 2 ^ (-53 : Int) := by
  have hpos : 0 < x := lt_of_lt_of_le (by positivity) hx
  have hlog : -1022 ≤ Int.log 2 x :=
    (Int.zpow_le_iff_le_log (by norm_num) hpos).mp (by simpa using hx)
  have hle : (2 : ℚ) ^ (Int.log 2 x) ≤ x := by
    have := Int.zpow_log_le_self (by norm_num : 1 < 2) hpos
    simpa using this
  rw [roundToDouble_pos x hpos, max_eq_left hlog] at hr
  have hu : (0 : ℚ) < 2 ^ (Int.log 2 x - 52) := by positivity
  have hhalf : (2 : ℚ) ^ (Int.log 2 x - 52) * (1 / 2) = 2 ^ (Int.log 2 x) * 2 ^ (-53 : Int) := by
    rw [show Int.log 2 x - 52 = Int.log 2 x + (-52 : Int) by ring,
      zpow_add₀ (by norm_num : (2 : ℚ) ≠ 0)]
    norm_num
    ring
  have hbound : (2 : ℚ) ^ (Int.log 2 x - 52) * (1 / 2) ≤ x * 2 ^ (-53 : Int) := by
    rw [hhalf]
    exact mul_le_mul_of_nonneg_right hle (by positivity)
  have hxy : x = x / 2 ^ (Int.log 2 x - 52) * 2 ^ (Int.log 2 x - 52) := by
    field_simp
  obtain ⟨n1, n2⟩ := roundHalfEven_near (x / 2 ^ (Int.log 2 x - 52))
  split_ifs at hr with hfin
  cases hr
  constructor
  · calc (roundHalfEven (x / 2 ^ (Int.log 2 x - 52)) : ℚ) * 2 ^ (Int.log 2 x - 52) - x
        = ((roundHalfEven (x / 2 ^ (Int.log 2 x - 52)) : ℚ) - x / 2 ^ (Int.log 2 x - 52)) *
            2 ^ (Int.log 2 x - 52) := by
          rw [sub_mul, ← hxy]
      _ ≤ 1 / 2 * 2 ^ (Int.log 2 x - 52) := mul_le_mul_of_nonneg_right n1 (le_of_lt hu)
      _ = 2 ^ (Int.log 2 x - 52) * (1 / 2) := by ring
      _ ≤ x * 2 ^ (-53 : Int) := hbound
  · calc x - (roundHalfEven (x / 2 ^ (Int.log 2 x - 52)) : ℚ) * 2 ^ (Int.log 2 x - 52)
        = (x / 2 ^ (Int.log 2 x - 52) - (roundHalfEven (x / 2 ^ (Int.log 2 x - 52)) : ℚ)) *
            2 ^ (Int.log 2 x - 52) := by
          rw [sub_mul, ← hxy]
      _ ≤ 1 / 2 * 2 ^ (Int.log 2 x - 52) := mul_le_mul_of_nonneg_right n2 (le_of_lt hu)
      _ = 2 ^ (Int.log 2 x - 52) * (1 / 2) := by ring
      _ ≤ x * 2 ^ (-53 : Int) := hbound

/-- When the delay for a positive frame rate is one more than the floor of
the exact quotient, the quotient is that close to the next integer that the
quotient of the doubles is rounded up to it. -/
theorem msDelayOfFps_rounded_up (f : ℚ) (hf : 0 < f)
    (h : msDelayOfFps f = some (⌊1000 / f⌋ + 1)) :
    (⌊1000 / f⌋ : ℚ) + 1 / 2 < 1000 / f ∧
    (⌊1000 / f⌋ : ℚ) + 1 - 1000 / f ≤ 1000 / f * 2 ^ (-53 : Int) := by
  have hx : (0 : ℚ) < 1000 / f := by positivity
  have hn0 : 0 ≤ ⌊1000 / f⌋ := Int.floor_nonneg.mpr (le_of_lt hx)
  have hnq : (0 : ℚ) ≤ (⌊1000 / f⌋ : ℚ) := by exact_mod_cast hn0
  have hhalf : (⌊1000 / f⌋ : ℚ) + 1 / 2 < 1000 / f := by
    by_contra hc
    have hle := not_lt.mp hc
    unfold msDelayOfFps at h
    obtain ⟨r, _, hconv⟩ := Option.bind_eq_some.mp h
    have hrange : ⌊1000 / f⌋ + 1 ≤ 2147483647 := by
      unfold doubleToInt at hconv
      simp only [] at hconv
      split_ifs at hconv with h0 hr
      · have e := Option.some.inj hconv
        omega
      · have e := Option.some.inj hconv
        omega
    have h3 := (msDelayOfFps_pos f hf).2.2 hle (by omega)
    unfold msDelayOfFps at h3
    rw [h3] at h
    have := Option.some.inj h
    omega
  refine ⟨hhalf, ?_⟩
  unfold msDelayOfFps divDouble at h
  rw [if_neg (ne_of_gt hf)] at h
  obtain ⟨r, hr, hconv⟩ := Option.bind_eq_some.mp h
  have hnormal : (2 : ℚ) ^ (-1022 : Int) ≤ 1000 / f := by
    have : (2 : ℚ) ^ (-1022 : Int) ≤ 1 / 2 := by
      rw [show (1 : ℚ) / 2 = 2 ^ (-1 : Int) by norm_num]
      exact zpow_le_zpow_right₀ (by norm_num) (by norm_num)
    linarith
  obtain ⟨n1, -⟩ := roundToDouble_near _ hnormal r hr
  have hrge : (⌊1000 / f⌋ : ℚ) + 1 ≤ r := by
    unfold doubleToInt at hconv
    simp only [] at hconv
    split_ifs at hconv with h0 hrg
    · have e := Option.some.inj hconv
      have := Int.floor_le r
      rw [e] at this
      push_cast at this
      exact this
    · have e := Option.some.inj hconv
      have hr0 : r < 0 := not_le.mp h0
      have : ⌈r⌉ ≤ 0 := Int.ceil_le.mpr (by simpa using le_of_lt hr0)
      omega
  linarith

theorem getFramesPerSecond_pos {V B Mat Pt : Type} (cv : Cv V B Mat Pt) (video : V)
    (h : 0 ≤ cv.propFps video) : 0 < CvVideoCapture.getFramesPerSecond cv video := by
  unfold CvVideoCapture.getFramesPerSecond
  by_cases hz : cv.propFps video = 0
  · simp [hz]
  · simp only [ne_eq, hz, not_false_eq_true, if_true]
    exact lt_of_le_of_ne h (Ne.symm hz)

theorem getFramesPerSecond_eq {V B Mat Pt : Type} (cv : Cv V B Mat Pt) (video : V) :
    CvVideoCapture.getFramesPerSecond cv video =
      (if cv.propFps video = 0 then 30 else cv.propFps video) := by
  unfold CvVideoCapture.getFramesPerSecond
  by_cases hz : cv.propFps video = 0 <;> simp [hz]

theorem getFramesPerSecond_ne_zero {V B Mat Pt : Type} (cv : Cv V B Mat Pt) (video : V) :
    CvVideoCapture.getFramesPerSecond cv video ≠ 0 := by
  rw [getFramesPerSecond_eq]
  by_cases hz : cv.propFps video = 0
  · rw [if_pos hz]
    norm_num
  · rw [if_neg hz]
    exact hz

theorem Sample.cvFast_msDelay (v : List Nat × Nat) :
    msDelayOfFps (CvVideoCapture.getFramesPerSecond Sample.cvFast v) = some 0 := by
  have hf : CvVideoCapture.getFramesPerSecond Sample.cvFast v = 2000 := by
    norm_num [CvVideoCapture.getFramesPerSecond, Sample.cvFast]
  rw [hf]
  exact msDelayOfFps_two_thousand

theorem Sample.cv_msDelay (v : List Nat × Nat) :
    msDelayOfFps (CvVideoCapture.getFramesPerSecond Sample.cv v) = some 33 := by
  have hf : CvVideoCapture.getFramesPerSecond Sample.cv v = 30 := by
    norm_num [CvVideoCapture.getFramesPerSecond, Sample.cv]
  rw [hf]
  exact msDelayOfFps_thirty

theorem Sample.cvTenth_msDelay (v : List Nat × Nat) :
    msDelayOfFps (CvVideoCapture.getFramesPerSecond Sample.cvTenth v) = some 10000 := by
  have hf : CvVideoCapture.getFramesPerSecond Sample.cvTenth v = doubleTenth := by
    norm_num [CvVideoCapture.getFramesPerSecond, Sample.cvTenth, doubleTenth]
  rw [hf]
  exact msDelayOfFps_tenth

theorem Sample.cvReverse_msDelay (v : List Nat × Nat) :
    msDelayOfFps (CvVideoCapture.getFramesPerSecond Sample.cvReverse v) = some (-333) := by
  have hf : CvVideoCapture.getFramesPerSecond Sample.cvReverse v = -3 := by
    norm_num [CvVideoCapture.getFramesPerSecond, Sample.cvReverse]
  rw [hf]
  exact msDelayOfFps_minus_three

/-- The delay of a player made by a constructor is the conversion of the
quotient of the doubles. -/
theorem lk_playerOfFile_msDelay {V B Mat Pt : Type} (cv : Cv V B Mat Pt) (t : String)
    (mode : Mode) :
    (LucasKanade.playerOfFile cv t mode).map (fun s => s.msDelay) =
      msDelayOfFps (CvVideoCapture.getFramesPerSecond cv (cv.openFile t)) := by
  unfold LucasKanade.playerOfFile
  dsimp only
  cases msDelayOfFps (CvVideoCapture.getFramesPerSecond cv (cv.openFile t)) with
  | none => rfl
  | some d =>
    simp only [Option.map_some']
    congr 1
    split <;> rfl

theorem lk_playerOfCamera_msDelay {V B Mat Pt : Type} (cv : Cv V B Mat Pt) (n : Int)
    (mode : Mode) :
    (LucasKanade.playerOfCamera cv n mode).map (fun s => s.msDelay) =
      msDelayOfFps (CvVideoCapture.getFramesPerSecond cv (cv.openCamera n)) := by
  unfold LucasKanade.playerOfCamera
  dsimp only
  cases msDelayOfFps (CvVideoCapture.getFramesPerSecond cv (cv.openCamera n)) with
  | none => rfl
  | some d =>
    simp only [Option.map_some']
    congr 1
    split <;> rfl

theorem fg_playerOfFile_msDelay {V B Mat Pt : Type} (cv : Cv V B Mat Pt) (t : String)
    (mode : Mode) :
    (Foreground.playerOfFile cv t mode).map (fun s => s.msDelay) =
      msDelayOfFps (CvVideoCapture.getFramesPerSecond cv (cv.openFile t)) := by
  unfold Foreground.playerOfFile
  dsimp only
  cases msDelayOfFps (CvVideoCapture.getFramesPerSecond cv (cv.openFile t)) with
  | none => rfl
  | some d =>
    simp only [Option.map_some']
    congr 1
    split <;> rfl

theorem fg_playerOfCamera_msDelay {V B Mat Pt : Type} (cv : Cv V B Mat Pt) (n : Int)
    (mode : Mode) :
    (Foreground.playerOfCamera cv n mode).map (fun s => s.msDelay) =
      msDelayOfFps (CvVideoCapture.getFramesPerSecond cv (cv.openCamera n)) := by
  unfold Foreground.playerOfCamera
  dsimp only
  cases msDelayOfFps (CvVideoCapture.getFramesPerSecond cv (cv.openCamera n)) with
  | none => rfl
  | some d =>
    simp only [Option.map_some']
    congr 1
    split <;> rfl

/-! ## The trackbar of a player -/

namespace LucasKanade

variable {V B Mat Pt : Type}

theorem lk_dispatchModes_window (cv : Cv V B Mat Pt) (s s1 : LucasKanadeVideoPlayer V Mat Pt)
    (h : dispatchModes cv s = some s1) :
    s1.trackbar = s.trackbar ∧ s1.frameCount = s.frameCount := by
  unfold dispatchModes at h
  split at h
  · cases h
    exact ⟨rfl, rfl⟩
  · split at h
    · cases h
      exact ⟨rfl, rfl⟩
    · split at h
      · simp only [] at h
        split at h
        · cases h
        · cases h
          exact ⟨rfl, rfl⟩
      · cases h
        exact ⟨rfl, rfl⟩

theorem lk_handleModes_window (cv : Cv V B Mat Pt) (s s1 : LucasKanadeVideoPlayer V Mat Pt)
    (h : handleModes cv s = some s1) :
    s1.trackbar = s.trackbar ∧ s1.frameCount = s.frameCount := by
  unfold handleModes at h
  obtain ⟨s2, h2, h3⟩ := Option.map_eq_some'.mp h
  obtain ⟨ht, hf⟩ := lk_dispatchModes_window cv _ s2 h2
  rw [lk_nightImage_eq] at ht hf
  rw [← h3]
  unfold applyPoint
  split
  · exact ⟨ht, hf⟩
  · exact ⟨ht, hf⟩

theorem lk_showFrame_no_trackbar (cv : Cv V B Mat Pt) (s s1 : LucasKanadeVideoPlayer V Mat Pt)
    (hn : s.trackbar = none) (h : showFrame cv s = some s1) :
    s1.trackbar = none ∧ s1.frameCount = s.frameCount := by
  have hat : (atHandleModes cv s).trackbar = none ∧
      (atHandleModes cv s).frameCount = s.frameCount := by
    unfold atHandleModes prepareFrame
    by_cases hfc : s.frameCount = 0 <;> simp [hfc, hn]
  by_cases hd : cv.hasData (cv.read s.video).2 = true
  · rw [lk_showFrame_displayed cv s hd] at h
    obtain ⟨s2, h2, h3⟩ := Option.map_eq_some'.mp h
    obtain ⟨ht, hf⟩ := lk_handleModes_window cv _ s2 h2
    rw [← h3]
    exact ⟨ht.trans hat.1, hf.trans hat.2⟩
  · rw [lk_showFrame_empty cv s (by simpa using hd)] at h
    cases h
    exact ⟨hn, rfl⟩

theorem lk_onKey_window (code : Int) (s : LucasKanadeVideoPlayer V Mat Pt) :
    ((onKey code s).getD s).trackbar = s.trackbar ∧
    ((onKey code s).getD s).frameCount = s.frameCount := by
  unfold onKey
  simp only []
  repeat' split
  all_goals exact ⟨rfl, rfl⟩

theorem lk_act_no_trackbar (cv : Cv V B Mat Pt) (a : Action)
    (s s1 : LucasKanadeVideoPlayer V Mat Pt) (hn : s.trackbar = none)
    (h : act cv a s = some s1) :
    s1.trackbar = none ∧ s1.frameCount = s.frameCount := by
  cases a with
  | frame => exact lk_showFrame_no_trackbar cv s s1 hn h
  | key code =>
    have h0 : (onKey code s).getD s = s1 := Option.some.inj h
    rw [← h0]
    exact ⟨(lk_onKey_window code s).1.trans hn, (lk_onKey_window code s).2⟩
  | mouse event x y =>
    have h0 : onMouseClick cv event x y s = s1 := Option.some.inj h
    rw [← h0]
    unfold onMouseClick
    split
    · exact ⟨hn, rfl⟩
    · exact ⟨hn, rfl⟩
  | drag p =>
    simp only [act, hn] at h
    cases h
    exact ⟨hn, rfl⟩

theorem lk_run_no_trackbar (cv : Cv V B Mat Pt) :
    ∀ (acts : List Action) (s s1 : LucasKanadeVideoPlayer V Mat Pt), s.trackbar = none →
      run cv acts s = some s1 → s1.trackbar = none ∧ s1.frameCount = s.frameCount := by
  intro acts
  induction acts with
  | nil =>
    intro s s1 hn h
    cases h
    exact ⟨hn, rfl⟩
  | cons a rest ih =>
    intro s s1 hn h
    simp only [run] at h
    obtain ⟨s2, h2, h3⟩ := Option.bind_eq_some.mp h
    obtain ⟨ht, hf⟩ := lk_act_no_trackbar cv a s s2 hn h2
    obtain ⟨ht2, hf2⟩ := ih s2 s1 ht h3
    exact ⟨ht2, hf2.trans hf⟩

end LucasKanade

namespace Foreground

variable {V B Mat Pt : Type}

theorem fg_drawFlowPoints_window (cv : Cv V B Mat Pt) (s s1 : FkltVideoPlayer V B Mat Pt)
    (h : drawFlowPoints cv s = some s1) :
    s1.trackbar = s.trackbar ∧ s1.frameCount = s.frameCount := by
  unfold drawFlowPoints at h
  split at h
  · simp only [] at h
    split at h
    · cases h
    · cases h
      exact ⟨rfl, rfl⟩
  · cases h
    exact ⟨rfl, rfl⟩

theorem fg_showFrame_no_trackbar (cv : Cv V B Mat Pt) (s s1 : FkltVideoPlayer V B Mat Pt)
    (hn : s.trackbar = none) (h : showFrame cv s = some s1) :
    s1.trackbar = none ∧ s1.frameCount = s.frameCount := by
  have hat : (atHandleModes cv s).trackbar = none ∧
      (atHandleModes cv s).frameCount = s.frameCount := by
    unfold atHandleModes prepareFrame
    by_cases hfc : s.frameCount = 0 <;> simp [hfc, hn]
  by_cases hd : cv.hasData (cv.read s.video).2 = true
  · rw [fg_showFrame_displayed cv s hd] at h
    obtain ⟨s2, h2, h3⟩ := Option.map_eq_some'.mp h
    obtain ⟨ht, hf⟩ := fg_drawFlowPoints_window cv _ s2 h2
    obtain ⟨-, -, -, -, -, -, -, -, -, -, h11, -, -, h14, -⟩ :=
      fg_handleModes_eq cv (atHandleModes cv s)
    rw [← h3]
    exact ⟨(ht.trans h11).trans hat.1, (hf.trans h14).trans hat.2⟩
  · rw [fg_showFrame_empty cv s (by simpa using hd)] at h
    cases h
    exact ⟨hn, rfl⟩

theorem fg_onKey_window (code : Int) (s : FkltVideoPlayer V B Mat Pt) :
    ((onKey code s).getD s).trackbar = s.trackbar ∧
    ((onKey code s).getD s).frameCount = s.frameCount := by
  unfold onKey
  simp only []
  repeat' split
  all_goals exact ⟨rfl, rfl⟩

theorem fg_act_no_trackbar (cv : Cv V B Mat Pt) (a : Action)
    (s s1 : FkltVideoPlayer V B Mat Pt) (hn : s.trackbar = none)
    (h : act cv a s = some s1) :
    s1.trackbar = none ∧ s1.frameCount = s.frameCount := by
  cases a with
  | frame => exact fg_showFrame_no_trackbar cv s s1 hn h
  | key code =>
    have h0 : (onKey code s).getD s = s1 := Option.some.inj h
    rw [← h0]
    exact ⟨(fg_onKey_window code s).1.trans hn, (fg_onKey_window code s).2⟩
  | mouse event x y =>
    have h0 : onMouseClick cv event x y s = s1 := Option.some.inj h
    rw [← h0]
    unfold onMouseClick
    split
    · exact ⟨hn, rfl⟩
    · exact ⟨hn, rfl⟩
  | drag p =>
    simp only [act, hn] at h
    cases h
    exact ⟨hn, rfl⟩

theorem fg_run_no_trackbar (cv : Cv V B Mat Pt) :
    ∀ (acts : List Action) (s s1 : FkltVideoPlayer V B Mat Pt), s.trackbar = none →
      run cv acts s = some s1 → s1.trackbar = none ∧ s1.frameCount = s.frameCount := by
  intro acts
  induction acts with
  | nil =>
    intro s s1 hn h
    cases h
    exact ⟨hn, rfl⟩
  | cons a rest ih =>
    intro s s1 hn h
    simp only [run] at h
    obtain ⟨s2, h2, h3⟩ := Option.bind_eq_some.mp h
    obtain ⟨ht, hf⟩ := fg_act_no_trackbar cv a s s2 hn h2
    obtain ⟨ht2, hf2⟩ := ih s2 s1 ht h3
    exact ⟨ht2, hf2.trans hf⟩

end Foreground

theorem Sample.cvStream_msDelay (v : List Nat × Nat) :
    msDelayOfFps (CvVideoCapture.getFramesPerSecond Sample.cvStream v) = some 33 := by
  have hf : CvVideoCapture.getFramesPerSecond Sample.cvStream v = 30 := by
    norm_num [CvVideoCapture.getFramesPerSecond, Sample.cvStream, Sample.cv]
  rw [hf]
  exact msDelayOfFps_thirty

theorem Sample.cv_trackerPerPoint : TrackerPerPoint Sample.cv := by
  refine ⟨fun a b prior next => ?_, fun a b prior next => ?_⟩ <;> simp [Sample.cv]

/-! ## The reads of the point filter -/

theorem survivors_all_zero {Pt : Type} (status : List Nat) :
    ∀ points : List Pt, (∀ x ∈ status, x = 0) → survivors status points = [] := by
  induction status with
  | nil => intro points _; cases points <;> simp [survivors]
  | cons st ss ih =>
    intro points h
    cases points with
    | nil => simp [survivors]
    | cons p ps =>
      rw [survivors_cons]
      have h0 : st = 0 := h st (by simp)
      simp [h0, ih ps (fun x hx => h x (by simp [hx]))]

namespace LucasKanade

variable {V B Mat Pt : Type}

end LucasKanade

namespace Foreground

variable {V B Mat Pt : Type}

end Foreground

/-! ## The main loop never reads out of range -/

namespace LucasKanade

variable {V B Mat Pt : Type}

theorem lk_showFrame_defined (cv : Cv V B Mat Pt) (htr : TrackerPerPoint cv)
    (s : LucasKanadeVideoPlayer V Mat Pt) :
    ∃ s1, showFrame cv s = some s1 ∧ s1.video = (cv.read s.video).1 := by
  by_cases hd : cv.hasData (cv.read s.video).2 = true
  · obtain ⟨s1, h1, -, -, -, -, -, -, -, -, -, -, hv, -⟩ :=
      lk_handleModes_eq cv (atHandleModes cv s) (lk_handleModes_of_tracker cv htr _)
    refine ⟨swapAndShow s1, ?_, ?_⟩
    · rw [lk_showFrame_displayed cv s hd]
      unfold beforeSwap
      rw [h1]
      rfl
    · exact hv.trans (lk_atHandleModes_source cv s).1
  · rw [lk_showFrame_empty cv s (by simpa using hd)]
    exact ⟨_, rfl, rfl⟩

theorem lk_onKey_video (code : Int) (s : LucasKanadeVideoPlayer V Mat Pt) :
    ∀ s1, onKey code s = some s1 → s1.video = s.video := by
  intro s1 h
  unfold onKey at h
  simp only [] at h
  repeat' split at h
  all_goals first
    | cases h; rfl
    | cases h

theorem lk_act_defined (cv : Cv V B Mat Pt) (htr : TrackerPerPoint cv) (hso : StaysOpen cv)
    (a : Action) (s : LucasKanadeVideoPlayer V Mat Pt) :
    ∃ s1, act cv a s = some s1 ∧ cv.isOpened s1.video = cv.isOpened s.video := by
  cases a with
  | frame =>
    obtain ⟨s1, h1, hv⟩ := lk_showFrame_defined cv htr s
    exact ⟨s1, h1, by rw [hv, hso.1]⟩
  | key code =>
    refine ⟨(onKey code s).getD s, rfl, ?_⟩
    cases hk : onKey code s with
    | none => rfl
    | some s1 =>
      rw [Option.getD_some, lk_onKey_video code s s1 hk]
  | mouse event x y =>
    refine ⟨onMouseClick cv event x y s, rfl, ?_⟩
    unfold onMouseClick
    split <;> rfl
  | drag p =>
    cases ht : s.trackbar with
    | none => exact ⟨s, by simp [act, ht], rfl⟩
    | some t =>
      obtain ⟨s1, h1, hv⟩ :=
        lk_showFrame_defined cv htr (seekAndReset cv p { s with position := p, trackbar := some p })
      refine ⟨s1, by simpa [act, ht, onTrackBar] using h1, ?_⟩
      rw [hv, hso.1]
      show cv.isOpened (cv.setPosition (cv.read (cv.setPosition s.video p)).1 _) = _
      rw [hso.2, hso.1, hso.2]

theorem lk_run_defined (cv : Cv V B Mat Pt) (htr : TrackerPerPoint cv) (hso : StaysOpen cv) :
    ∀ (acts : List Action) (s : LucasKanadeVideoPlayer V Mat Pt),
      ∃ s1, run cv acts s = some s1 ∧ cv.isOpened s1.video = cv.isOpened s.video := by
  intro acts
  induction acts with
  | nil => intro s; exact ⟨s, rfl, rfl⟩
  | cons a rest ih =>
    intro s
    obtain ⟨s1, h1, hv1⟩ := lk_act_defined cv htr hso a s
    obtain ⟨s2, h2, hv2⟩ := ih s1
    exact ⟨s2, by simp [run, h1, h2], hv2.trans hv1⟩

/-- On an opened source `operator()` returns true at the first key q, and is
in its loop as long as there is none. -/
theorem lk_operatorCall_opened (cv : Cv V B Mat Pt) (htr : TrackerPerPoint cv)
    (hso : StaysOpen cv) :
    ∀ (waits : List KeyWait) (s : LucasKanadeVideoPlayer V Mat Pt),
      cv.isOpened s.video = true →
      ((∃ w ∈ waits, quits w.key = true) → ∃ p, operatorCall cv waits s = Outcome.returned true p) ∧
      ((∀ w ∈ waits, quits w.key = false) → ∃ p, operatorCall cv waits s = Outcome.looping p) := by
  intro waits
  induction waits with
  | nil =>
    intro s ho
    refine ⟨fun h => ?_, fun _ => ⟨s, by simp [operatorCall, ho]⟩⟩
    obtain ⟨w, hw, -⟩ := h
    cases hw
  | cons w rest ih =>
    intro s ho
    obtain ⟨s1, h1, hv1⟩ := lk_showFrame_defined cv htr s
    obtain ⟨s2, h2, hv2⟩ := lk_run_defined cv htr hso (w.callbacks.map Callback.toAction) s1
    have ho2 : cv.isOpened s2.video = true := by rw [hv2, hv1, hso.1, ho]
    have hstep : (showFrame cv s).bind (run cv (w.callbacks.map Callback.toAction)) = some s2 := by
      rw [h1]
      exact h2
    unfold operatorCall
    simp only [ho, if_true, hstep]
    cases hk : onKey w.key s2 with
    | none =>
      have hq : quits w.key = true := by
        unfold onKey at hk
        simp only [] at hk
        unfold quits
        by_cases hc : w.key % 256 = 113 ∨ w.key % 256 = 81
        · simpa using hc
        · rw [if_neg hc] at hk
          repeat' split at hk
          all_goals cases hk
      refine ⟨fun _ => ⟨s2, rfl⟩, fun h => ?_⟩
      have := h w (by simp)
      rw [hq] at this
      cases this
    | some s3 =>
      have hq : quits w.key = false := by
        unfold onKey at hk
        simp only [] at hk
        unfold quits
        by_cases hc : w.key % 256 = 113 ∨ w.key % 256 = 81
        · rw [if_pos hc] at hk
          cases hk
        · simpa using hc
      have ho3 : cv.isOpened s3.video = true := by
        rw [lk_onKey_video w.key s2 s3 hk]
        exact ho2
      obtain ⟨ia, ib⟩ := ih s3 ho3
      refine ⟨fun h => ?_, fun h => ?_⟩
      · obtain ⟨x, hx, hxq⟩ := h
        rcases List.mem_cons.mp hx with hx | hx
        · subst hx
          rw [hq] at hxq
          cases hxq
        · exact ia ⟨x, hx, hxq⟩
      · exact ib (fun x hx => h x (by simp [hx]))

theorem lk_operatorCall_closed (cv : Cv V B Mat Pt) (waits : List KeyWait)
    (s : LucasKanadeVideoPlayer V Mat Pt) (ho : cv.isOpened s.video = false) :
    operatorCall cv waits s = Outcome.returned false s := by
  cases waits <;> simp [operatorCall, ho]

/-- The source of the player a constructor returns is opened exactly when the
source it was made on is. -/
theorem lk_playerOfArgument_opened (cv : Cv V B Mat Pt) (hso : StaysOpen cv) (source : String)
    (mode : Mode) (p : LucasKanadeVideoPlayer V Mat Pt)
    (h : playerOfArgument cv source mode = some p) :
    cv.isOpened p.video = cv.isOpened (sourceOfArgument cv source) := by
  unfold playerOfArgument at h
  unfold sourceOfArgument
  by_cases hs : source = "-"
  · rw [if_pos hs] at h
    rw [if_pos hs]
    unfold playerOfCamera at h
    obtain ⟨d, -, hd⟩ := Option.map_eq_some'.mp h
    rw [← hd]
    simp only [initialPlayer]
    by_cases ho : cv.isOpened (cv.openCamera (-1)) = true
    · rw [if_pos ho]
      show cv.isOpened (cv.setPosition (cv.read (cv.openCamera (-1))).1 _) = _
      rw [hso.2, hso.1]
    · rw [if_neg ho]
  · rw [if_neg hs] at h
    rw [if_neg hs]
    unfold playerOfFile at h
    obtain ⟨d, -, hd⟩ := Option.map_eq_some'.mp h
    rw [← hd]
    simp only [initialPlayer]
    by_cases ho : cv.isOpened (cv.openFile source) = true
    · rw [if_pos ho]
      show cv.isOpened (cv.setPosition (cv.read (cv.openFile source)).1 _) = _
      rw [hso.2, hso.1]
    · rw [if_neg ho]

end LucasKanade

namespace Foreground

variable {V B Mat Pt : Type}

/-- The method `drawFlowPoints` has a result when the tracker returns one
candidate and one status per prior point; it writes `image` and `nextPoints`
only. -/
theorem fg_drawFlowPoints_defined (cv : Cv V B Mat Pt) (htr : TrackerPerPoint cv)
    (s : FkltVideoPlayer V B Mat Pt) :
    ∃ s1, drawFlowPoints cv s = some s1 ∧ s1.video = s.video ∧ s1.position = s.position ∧
      s1.priorPoints = s.priorPoints ∧ s1.mode = s.mode ∧ s1.frameCount = s.frameCount ∧
      s1.trackbar = s.trackbar ∧
      s1.nextPoints =
        (if s.priorPoints.isEmpty then s.nextPoints
         else survivors
          (cv.calcOpticalFlowImages s.priorGray s.nextGray s.priorPoints s.nextPoints).2
          (cv.calcOpticalFlowImages s.priorGray s.nextGray s.priorPoints s.nextPoints).1) := by
  by_cases he : s.priorPoints = []
  · refine ⟨s, fg_drawFlowPoints_idle cv s he, rfl, rfl, rfl, rfl, rfl, rfl, ?_⟩
    simp [he]
  · have hl := htr.2 s.priorGray s.nextGray s.priorPoints s.nextPoints
    have hne : s.priorPoints.isEmpty = false := by
      cases hq : s.priorPoints with
      | nil => exact absurd hq he
      | cons a l => rfl
    refine ⟨_, fg_drawFlowPoints_track cv s he (by rw [hl.1, hl.2]), rfl, rfl, rfl, rfl, rfl, rfl,
      ?_⟩
    simp [hne]

theorem fg_atHandleModes_source (cv : Cv V B Mat Pt) (s : FkltVideoPlayer V B Mat Pt) :
    (atHandleModes cv s).video = (cv.read s.video).1 ∧
    (atHandleModes cv s).trackbar =
      (if s.frameCount ≠ 0 then s.trackbar.map fun _ => cv.getPosition (cv.read s.video).1
       else s.trackbar) := by
  unfold atHandleModes prepareFrame
  by_cases h : s.frameCount = 0 <;> simp [h]

theorem fg_showFrame_defined (cv : Cv V B Mat Pt) (htr : TrackerPerPoint cv)
    (s : FkltVideoPlayer V B Mat Pt) :
    ∃ s1, showFrame cv s = some s1 ∧ s1.video = (cv.read s.video).1 ∧
      s1.position = (if cv.hasData (cv.read s.video).2 = true ∧ s.frameCount ≠ 0
        then cv.getPosition (cv.read s.video).1 else s.position) := by
  by_cases hd : cv.hasData (cv.read s.video).2 = true
  · obtain ⟨s1, h1, hv, hp, -⟩ :=
      fg_drawFlowPoints_defined cv htr (handleModes cv (atHandleModes cv s))
    obtain ⟨-, -, -, -, -, h6, -, -, h9, -⟩ := fg_handleModes_eq cv (atHandleModes cv s)
    refine ⟨swapAndShow s1, ?_, ?_, ?_⟩
    · rw [fg_showFrame_displayed cv s hd]
      unfold beforeSwap
      rw [h1]
      rfl
    · exact (hv.trans h9).trans (fg_atHandleModes_source cv s).1
    · show s1.position = _
      rw [hp, h6, (fg_atHandleModes_fields cv s).2.2.2.2.2.2.2.2.2.2]
      by_cases hf : s.frameCount = 0 <;> simp [hf, hd]
  · rw [fg_showFrame_empty cv s (by simpa using hd)]
    exact ⟨_, rfl, rfl, by simp [hd]⟩

theorem fg_onKey_video (code : Int) (s : FkltVideoPlayer V B Mat Pt) :
    ∀ s1, onKey code s = some s1 →
      s1.video = s.video ∧ s1.position = s.position ∧ s1.priorPoints = s.priorPoints ∧
      s1.nextPoints = s.nextPoints := by
  intro s1 h
  unfold onKey at h
  simp only [] at h
  repeat' split at h
  all_goals first
    | cases h; exact ⟨rfl, rfl, rfl, rfl⟩
    | cases h

theorem fg_act_defined (cv : Cv V B Mat Pt) (htr : TrackerPerPoint cv) (hso : StaysOpen cv)
    (a : Action) (s : FkltVideoPlayer V B Mat Pt) :
    ∃ s1, act cv a s = some s1 ∧ cv.isOpened s1.video = cv.isOpened s.video := by
  cases a with
  | frame =>
    obtain ⟨s1, h1, hv, -⟩ := fg_showFrame_defined cv htr s
    exact ⟨s1, h1, by rw [hv, hso.1]⟩
  | key code =>
    refine ⟨(onKey code s).getD s, rfl, ?_⟩
    cases hk : onKey code s with
    | none => rfl
    | some s1 =>
      rw [Option.getD_some, (fg_onKey_video code s s1 hk).1]
  | mouse event x y =>
    refine ⟨onMouseClick cv event x y s, rfl, ?_⟩
    unfold onMouseClick
    split <;> rfl
  | drag p =>
    cases ht : s.trackbar with
    | none => exact ⟨s, by simp [act, ht], rfl⟩
    | some t =>
      obtain ⟨s1, h1, hv, -⟩ :=
        fg_showFrame_defined cv htr (seekAndReset cv p { s with position := p, trackbar := some p })
      refine ⟨s1, by simpa [act, ht, onTrackBar] using h1, ?_⟩
      rw [hv, hso.1]
      show cv.isOpened (cv.setPosition (cv.read (cv.setPosition s.video p)).1 _) = _
      rw [hso.2, hso.1, hso.2]

theorem fg_run_defined (cv : Cv V B Mat Pt) (htr : TrackerPerPoint cv) (hso : StaysOpen cv) :
    ∀ (acts : List Action) (s : FkltVideoPlayer V B Mat Pt),
      ∃ s1, run cv acts s = some s1 ∧ cv.isOpened s1.video = cv.isOpened s.video := by
  intro acts
  induction acts with
  | nil => intro s; exact ⟨s, rfl, rfl⟩
  | cons a rest ih =>
    intro s
    obtain ⟨s1, h1, hv1⟩ := fg_act_defined cv htr hso a s
    obtain ⟨s2, h2, hv2⟩ := ih s1
    exact ⟨s2, by simp [run, h1, h2], hv2.trans hv1⟩

/-- On an opened source `operator()` returns true at the first key q, and is
in its loop as long as there is none. -/
theorem fg_operatorCall_opened (cv : Cv V B Mat Pt) (htr : TrackerPerPoint cv)
    (hso : StaysOpen cv) :
    ∀ (waits : List KeyWait) (s : FkltVideoPlayer V B Mat Pt),
      cv.isOpened s.video = true →
      ((∃ w ∈ waits, quits w.key = true) → ∃ p, operatorCall cv waits s = Outcome.returned true p) ∧
      ((∀ w ∈ waits, quits w.key = false) → ∃ p, operatorCall cv waits s = Outcome.looping p) := by
  intro waits
  induction waits with
  | nil =>
    intro s ho
    refine ⟨fun h => ?_, fun _ => ⟨s, by simp [operatorCall, ho]⟩⟩
    obtain ⟨w, hw, -⟩ := h
    cases hw
  | cons w rest ih =>
    intro s ho
    obtain ⟨s1, h1, hv1, -⟩ := fg_showFrame_defined cv htr s
    obtain ⟨s2, h2, hv2⟩ := fg_run_defined cv htr hso (w.callbacks.map Callback.toAction) s1
    have ho2 : cv.isOpened s2.video = true := by rw [hv2, hv1, hso.1, ho]
    have hstep : (showFrame cv s).bind (run cv (w.callbacks.map Callback.toAction)) = some s2 := by
      rw [h1]
      exact h2
    unfold operatorCall
    simp only [ho, if_true, hstep]
    cases hk : onKey w.key s2 with
    | none =>
      have hq : quits w.key = true := by
        unfold onKey at hk
        simp only [] at hk
        unfold quits
        by_cases hc : w.key % 256 = 113 ∨ w.key % 256 = 81
        · simpa using hc
        · rw [if_neg hc] at hk
          repeat' split at hk
          all_goals cases hk
      refine ⟨fun _ => ⟨s2, rfl⟩, fun h => ?_⟩
      have := h w (by simp)
      rw [hq] at this
      cases this
    | some s3 =>
      have hq : quits w.key = false := by
        unfold onKey at hk
        simp only [] at hk
        unfold quits
        by_cases hc : w.key % 256 = 113 ∨ w.key % 256 = 81
        · rw [if_pos hc] at hk
          cases hk
        · simpa using hc
      have ho3 : cv.isOpened s3.video = true := by
        rw [(fg_onKey_video w.key s2 s3 hk).1]
        exact ho2
      obtain ⟨ia, ib⟩ := ih s3 ho3
      refine ⟨fun h => ?_, fun h => ?_⟩
      · obtain ⟨x, hx, hxq⟩ := h
        rcases List.mem_cons.mp hx with hx | hx
        · subst hx
          rw [hq] at hxq
          cases hxq
        · exact ia ⟨x, hx, hxq⟩
      · exact ib (fun x hx => h x (by simp [hx]))

theorem fg_operatorCall_closed (cv : Cv V B Mat Pt) (waits : List KeyWait)
    (s : FkltVideoPlayer V B Mat Pt) (ho : cv.isOpened s.video = false) :
    operatorCall cv waits s = Outcome.returned false s := by
  cases waits <;> simp [operatorCall, ho]

/-- The source of the player a constructor returns is opened exactly when the
source it was made on is. -/
theorem fg_playerOfArgument_opened (cv : Cv V B Mat Pt) (hso : StaysOpen cv) (source : String)
    (mode : Mode) (p : FkltVideoPlayer V B Mat Pt)
    (h : playerOfArgument cv source mode = some p) :
    cv.isOpened p.video = cv.isOpened (sourceOfArgument cv source) := by
  unfold playerOfArgument at h
  unfold sourceOfArgument
  by_cases hs : source = "-"
  · rw [if_pos hs] at h
    rw [if_pos hs]
    unfold playerOfCamera at h
    obtain ⟨d, -, hd⟩ := Option.map_eq_some'.mp h
    rw [← hd]
    simp only [initialPlayer]
    by_cases ho : cv.isOpened (cv.openCamera (-1)) = true
    · rw [if_pos ho]
      show cv.isOpened (cv.setPosition (cv.read (cv.openCamera (-1))).1 _) = _
      rw [hso.2, hso.1]
    · rw [if_neg ho]
  · rw [if_neg hs] at h
    rw [if_neg hs]
    unfold playerOfFile at h
    obtain ⟨d, -, hd⟩ := Option.map_eq_some'.mp h
    rw [← hd]
    simp only [initialPlayer]
    by_cases ho : cv.isOpened (cv.openFile source) = true
    · rw [if_pos ho]
      show cv.isOpened (cv.setPosition (cv.read (cv.openFile source)).1 _) = _
      rw [hso.2, hso.1]
    · rw [if_neg ho]

/-- Without a frame count and without a trackbar nothing writes `position`. -/
theorem fg_act_camera (cv : Cv V B Mat Pt) (a : Action)
    (s s1 : FkltVideoPlayer V B Mat Pt) (hn : s.trackbar = none) (hf : s.frameCount = 0)
    (h : act cv a s = some s1) :
    s1.position = s.position := by
  cases a with
  | frame =>
    by_cases hd : cv.hasData (cv.read s.video).2 = true
    · have hs : showFrame cv s = some s1 := h
      rw [fg_showFrame_displayed cv s hd] at hs
      obtain ⟨s2, h2, h3⟩ := Option.map_eq_some'.mp hs
      unfold beforeSwap drawFlowPoints at h2
      obtain ⟨-, -, -, -, -, h6, -⟩ := fg_handleModes_eq cv (atHandleModes cv s)
      have hpos : (atHandleModes cv s).position = s.position := by
        rw [(fg_atHandleModes_fields cv s).2.2.2.2.2.2.2.2.2.2]
        simp [hf]
      rw [← h3]
      show s2.position = _
      split at h2
      · simp only [] at h2
        split at h2
        · cases h2
        · cases h2
          exact h6.trans hpos
      · cases h2
        exact h6.trans hpos
    · have hs : showFrame cv s = some s1 := h
      rw [fg_showFrame_empty cv s (by simpa using hd)] at hs
      cases hs
      rfl
  | key code =>
    have h0 : (onKey code s).getD s = s1 := Option.some.inj h
    rw [← h0]
    cases hk : onKey code s with
    | none => rfl
    | some s2 => rw [Option.getD_some, (fg_onKey_video code s s2 hk).2.1]
  | mouse event x y =>
    have h0 : onMouseClick cv event x y s = s1 := Option.some.inj h
    rw [← h0]
    unfold onMouseClick
    split <;> rfl
  | drag p =>
    simp only [act, hn] at h
    cases h
    rfl

theorem fg_run_camera (cv : Cv V B Mat Pt) :
    ∀ (acts : List Action) (s s1 : FkltVideoPlayer V B Mat Pt), s.trackbar = none →
      s.frameCount = 0 → run cv acts s = some s1 →
      s1.position = s.position ∧ s1.trackbar = none ∧ s1.frameCount = 0 := by
  intro acts
  induction acts with
  | nil =>
    intro s s1 hn hf h
    cases h
    exact ⟨rfl, hn, hf⟩
  | cons a rest ih =>
    intro s s1 hn hf h
    simp only [run] at h
    obtain ⟨s2, h2, h3⟩ := Option.bind_eq_some.mp h
    obtain ⟨ht, hfc⟩ := fg_act_no_trackbar cv a s s2 hn h2
    have hp := fg_act_camera cv a s s2 hn hf h2
    obtain ⟨i1, i2, i3⟩ := ih s2 s1 ht (hfc.trans hf) h3
    exact ⟨i1.trans hp, i2, i3⟩

end Foreground

namespace LucasKanade

variable {V B Mat Pt : Type}

/-- The result of `main` once its player is made. -/
theorem lk_main_eq (cv : Cv V B Mat Pt) (htr : TrackerPerPoint cv) (hso : StaysOpen cv)
    (prog source : String) (mode : Mode) (waits : List KeyWait)
    (p : LucasKanadeVideoPlayer V Mat Pt) (hp : playerOfArgument cv source mode = some p) :
    main cv [prog, source] mode waits =
      if cv.isOpened (sourceOfArgument cv source) = true then
        (if ∃ w ∈ waits, quits w.key = true then MainResult.exit 0 false else MainResult.running)
      else MainResult.exit 1 true := by
  have ho := lk_playerOfArgument_opened cv hso source mode p hp
  unfold main
  simp only [hp]
  by_cases h : cv.isOpened (sourceOfArgument cv source) = true
  · rw [if_pos h]
    obtain ⟨ha, hb⟩ := lk_operatorCall_opened cv htr hso waits p (ho.trans h)
    by_cases hq : ∃ w ∈ waits, quits w.key = true
    · obtain ⟨r, hr⟩ := ha hq
      rw [if_pos hq, hr]
    · obtain ⟨r, hr⟩ := hb (fun w hw => by
        cases hqw : quits w.key with
        | false => rfl
        | true => exact absurd ⟨w, hw, hqw⟩ hq)
      rw [if_neg hq, hr]
  · rw [if_neg h, lk_operatorCall_closed cv waits p (by rw [ho]; simpa using h)]

end LucasKanade

namespace Foreground

variable {V B Mat Pt : Type}

/-- The result of `main` once its player is made. -/
theorem fg_main_eq (cv : Cv V B Mat Pt) (htr : TrackerPerPoint cv) (hso : StaysOpen cv)
    (prog source : String) (mode : Mode) (waits : List KeyWait)
    (p : FkltVideoPlayer V B Mat Pt) (hp : playerOfArgument cv source mode = some p) :
    main cv [prog, source] mode waits =
      if cv.isOpened (sourceOfArgument cv source) = true then
        (if ∃ w ∈ waits, quits w.key = true then MainResult.exit 0 false else MainResult.running)
      else MainResult.exit 1 true := by
  have ho := fg_playerOfArgument_opened cv hso source mode p hp
  unfold main
  simp only [hp]
  by_cases h : cv.isOpened (sourceOfArgument cv source) = true
  · rw [if_pos h]
    obtain ⟨ha, hb⟩ := fg_operatorCall_opened cv htr hso waits p (ho.trans h)
    by_cases hq : ∃ w ∈ waits, quits w.key = true
    · obtain ⟨r, hr⟩ := ha hq
      rw [if_pos hq, hr]
    · obtain ⟨r, hr⟩ := hb (fun w hw => by
        cases hqw : quits w.key with
        | false => rfl
        | true => exact absurd ⟨w, hw, hqw⟩ hq)
      rw [if_neg hq, hr]
  · rw [if_neg h, fg_operatorCall_closed cv waits p (by rw [ho]; simpa using h)]

/-- At the position 0 the pending mode does not count: TRACK is forced. -/
theorem fg_handleModes_forced (cv : Cv V B Mat Pt) (x : FkltVideoPlayer V B Mat Pt)
    (hp : x.position = 0) (m : Mode) :
    handleModes cv { x with mode := m } = handleModes cv x := by
  unfold handleModes
  rw [fg_forceTrack_eq, fg_forceTrack_eq (nightImage cv x), fg_dispatchedMode_nightImage,
    fg_dispatchedMode_nightImage, fg_dispatchedMode_eq, fg_dispatchedMode_eq, fg_nightImage_eq,
    fg_nightImage_eq]
  simp [hp]

end Foreground

theorem Sample.cv_staysOpen : StaysOpen Sample.cv :=
  ⟨fun _ => rfl, fun _ _ => rfl⟩

theorem Sample.cvClosed_staysOpen : StaysOpen Sample.cvClosed :=
  ⟨fun _ => rfl, fun _ _ => rfl⟩

theorem Sample.cvClosed_trackerPerPoint : TrackerPerPoint Sample.cvClosed := by
  refine ⟨fun a b prior next => ?_, fun a b prior next => ?_⟩ <;>
    simp [Sample.cvClosed, Sample.cv]

theorem Sample.cvClosed_msDelay (v : List Nat × Nat) :
    msDelayOfFps (CvVideoCapture.getFramesPerSecond Sample.cvClosed v) = some 33 := by
  have hf : CvVideoCapture.getFramesPerSecond Sample.cvClosed v = 30 := by
    norm_num [CvVideoCapture.getFramesPerSecond, Sample.cvClosed, Sample.cv]
  rw [hf]
  exact msDelayOfFps_thirty

/-! ## The background remover -/

namespace BackgroundRemoval

/-- The masked copy onto an image that is all zero. -/
theorem copyToMasked_masked (frame dst mask : Image)
    (hm : mask.rows = frame.rows ∧ mask.cols = frame.cols)
    (hz : ∀ i j c, dst.pixel i j c = 0) :
    Masked frame mask (copyToMasked frame dst mask) := by
  unfold copyToMasked
  by_cases hn : mask.noData = true
  · rw [if_pos hn]
    have h0 : frame.rows = 0 ∨ frame.cols = 0 := by
      unfold Image.noData at hn
      rw [hm.1, hm.2] at hn
      simpa using hn
    refine ⟨rfl, rfl, rfl, fun i j c hi hj _ => ?_⟩
    rcases h0 with h0 | h0 <;> omega
  · rw [if_neg hn]
    by_cases hs : dst.rows = frame.rows ∧ dst.cols = frame.cols ∧ dst.channels = frame.channels
    · simp only [if_pos hs]
      refine ⟨hs.1, hs.2.1, hs.2.2, fun i j c _ _ _ => ?_⟩
      by_cases hp : mask.pixel i j 0 = 0 <;> simp [hp, hz]
    · simp only [if_neg hs]
      refine ⟨rfl, rfl, rfl, fun i j c _ _ _ => ?_⟩
      by_cases hp : mask.pixel i j 0 = 0 <;> simp [hp, zeros]

end BackgroundRemoval

/-! ## The extractions of `openVideo` -/

namespace RemoveBackground

theorem dropWhile_append_head (p : Char → Bool) :
    ∀ (ws r : List Char), (∀ c ∈ ws, p c = true) → (∀ c, r.head? = some c → p c = false) →
      (ws ++ r).dropWhile p = r ∧ (ws ++ r).takeWhile p = ws := by
  intro ws
  induction ws with
  | nil =>
    intro r _ hr
    cases r with
    | nil => exact ⟨rfl, rfl⟩
    | cons c t =>
      have hc : p c = false := hr c rfl
      simp [List.dropWhile, List.takeWhile, hc]
  | cons w ws ih =>
    intro r hw hr
    have h1 : p w = true := hw w (by simp)
    obtain ⟨i1, i2⟩ := ih r (fun c hc => hw c (by simp [hc])) hr
    have e1 : (w :: (ws ++ r)).dropWhile p = (ws ++ r).dropWhile p := by
      simp [List.dropWhile, h1]
    have e2 : (w :: (ws ++ r)).takeWhile p = w :: (ws ++ r).takeWhile p := by
      simp [List.takeWhile, h1]
    rw [List.cons_append, e1, e2, i1, i2]
    exact ⟨rfl, rfl⟩

theorem head_dropWhile (p : Char → Bool) :
    ∀ (l : List Char) (c : Char), (l.dropWhile p).head? = some c → p c = false := by
  intro l
  induction l with
  | nil => intro c h; cases h
  | cons a t ih =>
    intro c h
    by_cases ha : p a = true
    · simp only [List.dropWhile, ha] at h
      exact ih c h
    · have ha2 : p a = false := by simpa using ha
      simp only [List.dropWhile, ha2] at h
      cases h
      exact ha2

theorem mem_takeWhile (p : Char → Bool) :
    ∀ (l : List Char) (c : Char), c ∈ l.takeWhile p → p c = true := by
  intro l
  induction l with
  | nil => intro c h; cases h
  | cons a t ih =>
    intro c h
    by_cases ha : p a = true
    · simp only [List.takeWhile, ha] at h
      rcases List.mem_cons.mp h with h | h
      · rw [h]
        exact ha
      · exact ih c h
    · have ha2 : p a = false := by simpa using ha
      simp only [List.takeWhile, ha2] at h
      cases h

theorem digit_not_other (c : Char) (h : isDigit c = true) :
    isSpace c = false ∧ isMinus c = false ∧ isPlus c = false := by
  unfold isDigit at h
  unfold isSpace isMinus isPlus
  have h2 := of_decide_eq_true h
  refine ⟨?_, ?_, ?_⟩ <;> simp <;> omega

theorem sign_not_space (c : Char) (h : isMinus c = true ∨ isPlus c = true) :
    isSpace c = false := by
  unfold isMinus isPlus at h
  unfold isSpace
  have h2 : c.toNat = 45 ∨ c.toNat = 43 := by simpa using h
  simp
  omega

/-- The end of the extraction of an `int`, once the sign is read. -/
theorem extract_core (negative : Bool) (body : List Char) (n : Int)
    (h : (if (body.takeWhile isDigit).isEmpty = true then none
      else if -2147483648 ≤
            (if negative = true then -(digitsValue (body.takeWhile isDigit) : Int)
              else (digitsValue (body.takeWhile isDigit) : Int)) ∧
          (if negative = true then -(digitsValue (body.takeWhile isDigit) : Int)
            else (digitsValue (body.takeWhile isDigit) : Int)) ≤ 2147483647
        then some (if negative = true then -(digitsValue (body.takeWhile isDigit) : Int)
          else (digitsValue (body.takeWhile isDigit) : Int))
        else none) = some n) :
    body.takeWhile isDigit ≠ [] ∧
    n = (if negative = true then -(digitsValue (body.takeWhile isDigit) : Int)
      else (digitsValue (body.takeWhile isDigit) : Int)) ∧
    -2147483648 ≤ n ∧ n ≤ 2147483647 := by
  by_cases he : (body.takeWhile isDigit).isEmpty = true
  · rw [if_pos he] at h
    cases h
  · rw [if_neg he] at h
    by_cases hr : -2147483648 ≤
        (if negative = true then -(digitsValue (body.takeWhile isDigit) : Int)
          else (digitsValue (body.takeWhile isDigit) : Int)) ∧
        (if negative = true then -(digitsValue (body.takeWhile isDigit) : Int)
          else (digitsValue (body.takeWhile isDigit) : Int)) ≤ 2147483647
    · rw [if_pos hr] at h
      have hn := (Option.some.inj h).symm
      refine ⟨?_, hn, by rw [hn]; exact hr.1, by rw [hn]; exact hr.2⟩
      intro hd
      rw [hd] at he
      exact he rfl
    · rw [if_neg hr] at h
      cases h

/-- The extraction of the `int` succeeds with `n` exactly when the characters
begin with an integer of value `n`. -/
theorem extractInt_eq_some (source : List Char) (n : Int) :
    extractInt source = some n ↔ BeginsWithInteger source n := by
  constructor
  · intro h
    have hsrc : source = source.takeWhile isSpace ++ source.dropWhile isSpace :=
      (List.takeWhile_append_dropWhile isSpace source).symm
    have hws : ∀ c ∈ source.takeWhile isSpace, isSpace c = true :=
      fun c hc => mem_takeWhile isSpace source c hc
    unfold extractInt at h
    simp only [] at h
    cases hafter : source.dropWhile isSpace with
    | nil =>
      rw [hafter] at h
      cases extract_core false [] n h with
      | intro hd _ => exact absurd rfl hd
    | cons c t =>
      rw [hafter] at h hsrc
      unfold splitSign at h
      by_cases hm : isMinus c = true
      · simp only [hm, if_true] at h
        obtain ⟨hd, hn, hlo, hhi⟩ := extract_core true t n h
        exact ⟨_, [c], t.takeWhile isDigit, t.dropWhile isDigit, true,
          by rw [List.takeWhile_append_dropWhile]; exact hsrc, hws,
          Or.inr ⟨c, rfl, Or.inl ⟨hm, rfl⟩⟩, hd,
          fun d hd => mem_takeWhile isDigit t d hd,
          fun d hd => head_dropWhile isDigit t d hd, hn, hlo, hhi⟩
      · have hm2 : isMinus c = false := by simpa using hm
        by_cases hp : isPlus c = true
        · simp only [hm2, hp, if_true, Bool.false_eq_true, if_false] at h
          obtain ⟨hd, hn, hlo, hhi⟩ := extract_core false t n h
          exact ⟨_, [c], t.takeWhile isDigit, t.dropWhile isDigit, false,
            by rw [List.takeWhile_append_dropWhile]; exact hsrc, hws,
            Or.inr ⟨c, rfl, Or.inr ⟨hm2, hp, rfl⟩⟩, hd,
            fun d hd => mem_takeWhile isDigit t d hd,
            fun d hd => head_dropWhile isDigit t d hd, hn, hlo, hhi⟩
        · have hp2 : isPlus c = false := by simpa using hp
          simp only [hm2, hp2, Bool.false_eq_true, if_false] at h
          obtain ⟨hd, hn, hlo, hhi⟩ := extract_core false (c :: t) n h
          exact ⟨_, [], (c :: t).takeWhile isDigit, (c :: t).dropWhile isDigit, false,
            by rw [List.nil_append, List.takeWhile_append_dropWhile]; exact hsrc, hws,
            Or.inl ⟨rfl, rfl⟩, hd,
            fun d hd => mem_takeWhile isDigit (c :: t) d hd,
            fun d hd => head_dropWhile isDigit (c :: t) d hd, hn, hlo, hhi⟩
  · rintro ⟨ws, signChars, digits, rest, negative, hsrc, hws, hsign, hne, hdig, hrest, hn, hlo, hhi⟩
    obtain ⟨d0, dt, hd0⟩ := List.exists_cons_of_ne_nil hne
    have hd0dig : isDigit d0 = true := hdig d0 (by rw [hd0]; simp)
    have hhead : ∀ c, (signChars ++ (digits ++ rest)).head? = some c → isSpace c = false := by
      intro c hc
      rcases hsign with ⟨hs, -⟩ | ⟨s, hs, hsm⟩
      · rw [hs, hd0] at hc
        have : d0 = c := by simpa using hc
        rw [← this]
        exact (digit_not_other d0 hd0dig).1
      · rw [hs] at hc
        have : s = c := by simpa using hc
        rw [← this]
        rcases hsm with ⟨h1, -⟩ | ⟨-, h2, -⟩
        · exact sign_not_space s (Or.inl h1)
        · exact sign_not_space s (Or.inr h2)
    have hdrop : source.dropWhile isSpace = signChars ++ (digits ++ rest) := by
      rw [hsrc]
      exact (dropWhile_append_head isSpace ws _ hws hhead).1
    have hsplit : splitSign (signChars ++ (digits ++ rest)) = (negative, digits ++ rest) := by
      rcases hsign with ⟨hs, hneg⟩ | ⟨s, hs, hsm⟩
      · rw [hs, hneg, hd0]
        simp [splitSign, (digit_not_other d0 hd0dig).2.1, (digit_not_other d0 hd0dig).2.2]
      · rw [hs]
        rcases hsm with ⟨h1, hneg⟩ | ⟨h1, h2, hneg⟩
        · rw [hneg]
          simp [splitSign, h1]
        · rw [hneg]
          simp [splitSign, h1, h2]
    have htake : (digits ++ rest).takeWhile isDigit = digits :=
      (dropWhile_append_head isDigit digits rest hdig hrest).2
    unfold extractInt
    simp only [hdrop, hsplit, htake]
    have hnot : digits.isEmpty = false := by
      rw [hd0]
      rfl
    rw [hnot]
    simp only [Bool.false_eq_true, if_false]
    rw [← hn, if_pos ⟨hlo, hhi⟩]

/-- The extraction of the string gives the first token, and fails exactly
when all the characters are white space. -/
theorem extractString_eq_some (source name : List Char) :
    extractString source = some name ↔ FirstToken source name := by
  constructor
  · intro h
    unfold extractString at h
    simp only [] at h
    split at h
    · cases h
    · rename_i hne
      have hn := (Option.some.inj h).symm
      have hnn : name ≠ [] := by
        intro he
        rw [hn] at he
        rw [he] at hne
        exact hne rfl
      refine ⟨hnn, source.takeWhile isSpace,
        (source.dropWhile isSpace).dropWhile (fun c => !isSpace c), ?_,
        fun c hc => mem_takeWhile isSpace source c hc, ?_, ?_⟩
      · rw [hn, List.takeWhile_append_dropWhile, List.takeWhile_append_dropWhile]
      · intro c hc
        rw [hn] at hc
        have := mem_takeWhile (fun c => !isSpace c) _ c hc
        simpa using this
      · intro c hc
        have := head_dropWhile (fun c => !isSpace c) _ c hc
        simpa using this
  · rintro ⟨hnn, ws, rest, hsrc, hws, hname, hrest⟩
    obtain ⟨a, t, ha⟩ := List.exists_cons_of_ne_nil hnn
    have hhead : ∀ c, (name ++ rest).head? = some c → isSpace c = false := by
      intro c hc
      rw [ha] at hc
      have : a = c := by simpa using hc
      rw [← this]
      exact hname a (by rw [ha]; simp)
    have hdrop : source.dropWhile isSpace = name ++ rest := by
      rw [hsrc]
      exact (dropWhile_append_head isSpace ws _ hws hhead).1
    have htake : (name ++ rest).takeWhile (fun c => !isSpace c) = name :=
      (dropWhile_append_head (fun c => !isSpace c) name rest
        (fun c hc => by simp [hname c hc]) (fun c hc => by simp [hrest c hc])).2
    unfold extractString
    simp only [hdrop, htake]
    have hnot : name.isEmpty = false := by
      rw [ha]
      rfl
    rw [hnot]
    rfl

theorem extractString_eq_none (source : List Char) :
    extractString source = none ↔ ∀ c ∈ source, isSpace c = true := by
  unfold extractString
  simp only []
  constructor
  · intro h
    split at h
    · rename_i he
      have he2 : (source.dropWhile isSpace).takeWhile (fun c => !isSpace c) = [] := by
        simpa using he
      have hd : source.dropWhile isSpace = [] := by
        cases hq : source.dropWhile isSpace with
        | nil => rfl
        | cons c t =>
          have hc : isSpace c = false := head_dropWhile isSpace source c (by rw [hq]; rfl)
          rw [hq] at he2
          simp [List.takeWhile, hc] at he2
      have hs : source = source.takeWhile isSpace := by
        have := List.takeWhile_append_dropWhile isSpace source
        rw [hd, List.append_nil] at this
        exact this.symm
      intro c hc
      rw [hs] at hc
      exact mem_takeWhile isSpace source c hc
    · cases h
  · intro h
    have hd : source.dropWhile isSpace = [] := by
      have := (dropWhile_append_head isSpace source [] h (fun c hc => by cases hc)).1
      rwa [List.append_nil] at this
    rw [hd]
    rfl

end RemoveBackground

/-! ## The loops of the scans -/

namespace ScanImage

end ScanImage

namespace ScanImage

end ScanImage

/-! ## The quadrants of `centerOrigin` -/

namespace Dft

variable {α : Type}

theorem half_shift_mod (n i : Nat) (hn : n = 2 * (n / 2)) (hi : i < n) :
    (i + n / 2) % n = if i < n / 2 then i + n / 2 else i - n / 2 := by
  by_cases h : i < n / 2
  · rw [if_pos h]
    exact Nat.mod_eq_of_lt (by omega)
  · rw [if_neg h]
    have e : i + n / 2 = (i - n / 2) + n := by omega
    rw [e, Nat.add_mod_right]
    exact Nat.mod_eq_of_lt (by omega)

theorem clearLowestBit_even (n : Nat) : clearLowestBit n = 2 * (clearLowestBit n / 2) := by
  unfold clearLowestBit
  omega

theorem clearLowestBit_idem (n : Nat) : clearLowestBit (clearLowestBit n) = clearLowestBit n := by
  unfold clearLowestBit
  omega

theorem clearLowestBit_two_le (n : Nat) (h : 2 ≤ n) : 2 ≤ clearLowestBit n := by
  unfold clearLowestBit
  omega

theorem clearLowestBit_small (n : Nat) (h : n < 2) : clearLowestBit n = 0 := by
  unfold clearLowestBit
  omega

/-- The size of the result: that of the crop, which is released when it has
no row or no column. -/
theorem centerOrigin_size (m : Matrix α) :
    (centerOrigin m).rows =
      (if clearLowestBit m.rows = 0 ∨ clearLowestBit m.cols = 0 then 0
       else clearLowestBit m.rows) ∧
    (centerOrigin m).cols =
      (if clearLowestBit m.rows = 0 ∨ clearLowestBit m.cols = 0 then 0
       else clearLowestBit m.cols) :=
  ⟨rfl, rfl⟩

theorem centerOrigin_entry (m : Matrix α) (i j : Nat)
    (hi : i < clearLowestBit m.rows) (hj : j < clearLowestBit m.cols) :
    (centerOrigin m).entry i j =
      m.entry ((i + clearLowestBit m.rows / 2) % clearLowestBit m.rows)
        ((j + clearLowestBit m.cols / 2) % clearLowestBit m.cols) := by
  have hr := clearLowestBit_even m.rows
  have hc := clearLowestBit_even m.cols
  have hr0 : ¬ (clearLowestBit m.rows = 0 ∨ clearLowestBit m.cols = 0) := by omega
  have hh : ¬ (clearLowestBit m.rows / 2 = 0 ∨ clearLowestBit m.cols / 2 = 0) := by omega
  rw [half_shift_mod _ i hr hi, half_shift_mod _ j hc hj]
  simp only [centerOrigin, view, copyToView, if_neg hr0, if_neg hh]
  generalize clearLowestBit m.rows = R at hi hr ⊢
  generalize clearLowestBit m.cols = C at hj hc ⊢
  split_ifs <;> first
    | rfl
    | (congr 1 <;> omega)

end Dft

/-! ## The claims -/

section Claims

variable {V B Mat Pt : Type}

/-- C1: `drawPoints` of both players returns, for a status vector at least as
long as the points, exactly the points whose status is not zero, in their
order; so a tracking step in which the tracker yields one candidate and one
status per prior point leaves in `nextPoints` the candidates whose status is
not zero, at most as many as `priorPoints`, and as many exactly when every
status is not zero. -/
theorem C1_drawPoints_filter (cv : Cv V B Mat Pt) (image : Mat) (status : List Nat)
    (points : List Pt) (hlen : points.length ≤ status.length)
    (sL : LucasKanade.LucasKanadeVideoPlayer V Mat Pt)
    (hLc : sL.mode ≠ Mode.CLEAR) (hLt : sL.mode ≠ Mode.TRACK) (hLp : sL.priorPoints ≠ [])
    (hL1 : (cv.calcOpticalFlowPyrLK sL.priorPyramid (LucasKanade.makePyramid cv sL.nextGray)
              sL.priorPoints sL.nextPoints).1.length = sL.priorPoints.length)
    (hL2 : (cv.calcOpticalFlowPyrLK sL.priorPyramid (LucasKanade.makePyramid cv sL.nextGray)
              sL.priorPoints sL.nextPoints).2.length = sL.priorPoints.length)
    (sF : Foreground.FkltVideoPlayer V B Mat Pt) (hFp : sF.priorPoints ≠ [])
    (hF1 : (cv.calcOpticalFlowImages sF.priorGray sF.nextGray sF.priorPoints
              sF.nextPoints).1.length = sF.priorPoints.length)
    (hF2 : (cv.calcOpticalFlowImages sF.priorGray sF.nextGray sF.priorPoints
              sF.nextPoints).2.length = sF.priorPoints.length) :
    (LucasKanade.drawPoints cv image status points).map Prod.snd =
        some (((points.zip status).filter (fun q => q.2 ≠ 0)).map Prod.fst) ∧
    (Foreground.drawPoints cv image status points).map Prod.snd =
        some (((points.zip status).filter (fun q => q.2 ≠ 0)).map Prod.fst) ∧
    (∃ s1, LucasKanade.dispatchModes cv sL = some s1 ∧
      s1.nextPoints =
        ((((cv.calcOpticalFlowPyrLK sL.priorPyramid (LucasKanade.makePyramid cv sL.nextGray)
              sL.priorPoints sL.nextPoints).1.zip
            (cv.calcOpticalFlowPyrLK sL.priorPyramid (LucasKanade.makePyramid cv sL.nextGray)
              sL.priorPoints sL.nextPoints).2).filter (fun q => q.2 ≠ 0)).map Prod.fst) ∧
      s1.priorPoints = sL.priorPoints ∧
      s1.nextPoints.length ≤ sL.priorPoints.length ∧
      (s1.nextPoints.length = sL.priorPoints.length ↔
        ∀ x ∈ (cv.calcOpticalFlowPyrLK sL.priorPyramid (LucasKanade.makePyramid cv sL.nextGray)
              sL.priorPoints sL.nextPoints).2, x ≠ 0)) ∧
    (∃ s1, Foreground.drawFlowPoints cv sF = some s1 ∧
      s1.nextPoints =
        ((((cv.calcOpticalFlowImages sF.priorGray sF.nextGray sF.priorPoints sF.nextPoints).1.zip
            (cv.calcOpticalFlowImages sF.priorGray sF.nextGray sF.priorPoints
              sF.nextPoints).2).filter (fun q => q.2 ≠ 0)).map Prod.fst) ∧
      s1.priorPoints = sF.priorPoints ∧
      s1.nextPoints.length ≤ sF.priorPoints.length ∧
      (s1.nextPoints.length = sF.priorPoints.length ↔
        ∀ x ∈ (cv.calcOpticalFlowImages sF.priorGray sF.nextGray sF.priorPoints
              sF.nextPoints).2, x ≠ 0)) := by
  refine ⟨?_, ?_, ?_, ?_⟩
  · rw [LucasKanade.lk_drawPoints_eq cv image status points hlen]
    rfl
  · rw [Foreground.fg_drawPoints_eq cv image status points hlen]
    rfl
  · refine ⟨_, LucasKanade.lk_dispatchModes_track cv sL hLc hLt hLp (by rw [hL1, hL2]), rfl, rfl,
      ?_, ?_⟩
    · exact le_trans (survivors_length_le _ _) (le_of_eq hL1)
    · have h := survivors_length_eq_iff
        (cv.calcOpticalFlowPyrLK sL.priorPyramid (LucasKanade.makePyramid cv sL.nextGray)
          sL.priorPoints sL.nextPoints).1 _ (by rw [hL1, hL2])
      rw [hL1] at h
      exact h
  · refine ⟨_, Foreground.fg_drawFlowPoints_track cv sF hFp (by rw [hF1, hF2]), rfl, rfl, ?_, ?_⟩
    · exact le_trans (survivors_length_le _ _) (le_of_eq hF1)
    · have h := survivors_length_eq_iff
        (cv.calcOpticalFlowImages sF.priorGray sF.nextGray sF.priorPoints sF.nextPoints).1 _
        (by rw [hF1, hF2])
      rw [hF1] at h
      exact h

theorem C1_drawPoints_filter_witness :
    (LucasKanade.drawPoints Sample.cv 7 [1, 0, 2] [(1, 1), (2, 2), (3, 3)]).map Prod.snd =
        some [(1, 1), (3, 3)] ∧
    (Foreground.drawPoints Sample.cv 7 [1, 0, 2] [(1, 1), (2, 2), (3, 3)]).map Prod.snd =
        some [(1, 1), (3, 3)] ∧
    (∃ s1, LucasKanade.dispatchModes Sample.cv Sample.lkTracking = some s1 ∧
      s1.nextPoints = [(6, 5), (8, 7)]) ∧
    (∃ s1, Foreground.drawFlowPoints Sample.cv Sample.fgTracking = some s1 ∧
      s1.nextPoints = [(6, 5), (8, 7)]) := by
  have h := C1_drawPoints_filter Sample.cv 7 [1, 0, 2] [(1, 1), (2, 2), (3, 3)] (by decide)
    Sample.lkTracking (by decide) (by decide) (by decide) (by decide) (by decide)
    Sample.fgTracking (by decide) (by decide) (by decide)
  obtain ⟨h1, h2, ⟨a, ha, hb, _⟩, ⟨c, hc, hd, _⟩⟩ := h
  exact ⟨h1, h2, ⟨a, ha, hb⟩, ⟨c, hc, hd⟩⟩

/-- C2, counterexample: the bound `|nextPoints| <= |priorPoints| + (1 if a
POINT was applied)` fails on a displayed frame of a reachable state.  In the
Lucas-Kanade player started on a file, after the key t the frame dispatches
TRACK: `priorPoints` is empty and `nextPoints` holds the two detected points.
In the foreground player, after the key t and two frames on which the tracker
first keeps and then loses both points, the third frame dispatches NONE:
`priorPoints` is empty and `nextPoints` still holds two points. -/
theorem C2_point_bound_counterexample :
    (∃ s s1, LucasKanade.run Sample.cv [Action.key 116] Sample.lkFresh = some s ∧
      Sample.cv.hasData (Sample.cv.read s.video).2 = true ∧
      (LucasKanade.atHandleModes Sample.cv s).mode = Mode.TRACK ∧
      LucasKanade.beforeSwap Sample.cv s = some s1 ∧
      ¬ (s1.nextPoints.length ≤ s1.priorPoints.length + 0)) ∧
    (∃ s s1, Foreground.run Sample.cv [Action.key 116, Action.frame, Action.frame]
        Sample.fgFresh = some s ∧
      Sample.cv.hasData (Sample.cv.read s.video).2 = true ∧
      Foreground.dispatchedMode (Foreground.atHandleModes Sample.cv s) = Mode.NONE ∧
      Foreground.beforeSwap Sample.cv s = some s1 ∧
      ¬ (s1.nextPoints.length ≤ s1.priorPoints.length + 0)) := by
  refine ⟨⟨_, _, rfl, rfl, rfl, rfl, by decide⟩, ⟨_, _, rfl, rfl, rfl, rfl, by decide⟩⟩

/-- C2, amended: on a displayed frame on which the tracker is invoked
(`priorPoints` not empty when the tracking branch or `drawFlowPoints` is
reached; in the Lucas-Kanade player the mode is neither CLEAR nor TRACK),
`nextPoints` before the swap has at most as many points as `priorPoints` at
that moment, plus one if a POINT request was applied on this frame; on a frame
that dispatches CLEAR both sets are empty; on a Lucas-Kanade frame that
dispatches TRACK `nextPoints` is the detector's output and `priorPoints` is
not modified. -/
theorem C2_point_bound_when_tracking (cv : Cv V B Mat Pt) (htr : TrackerPerPoint cv)
    (sL : LucasKanade.LucasKanadeVideoPlayer V Mat Pt)
    (hLd : cv.hasData (cv.read sL.video).2 = true)
    (sF : Foreground.FkltVideoPlayer V B Mat Pt)
    (hFd : cv.hasData (cv.read sF.video).2 = true) :
    (∃ s1, LucasKanade.beforeSwap cv sL = some s1 ∧
      LucasKanade.showFrame cv sL = some (LucasKanade.swapAndShow s1) ∧
      (sL.mode = Mode.CLEAR → s1.priorPoints = [] ∧ s1.nextPoints = []) ∧
      (sL.mode = Mode.TRACK → s1.priorPoints = sL.priorPoints ∧
        s1.nextPoints = LucasKanade.getGoodTrackingPoints cv (cv.cvtColor (cv.read sL.video).2)) ∧
      (sL.mode ≠ Mode.CLEAR → sL.mode ≠ Mode.TRACK → sL.priorPoints ≠ [] →
        s1.priorPoints = sL.priorPoints ∧
        s1.nextPoints.length ≤
          s1.priorPoints.length + (if sL.mode = Mode.POINT then 1 else 0))) ∧
    (∃ s1, Foreground.beforeSwap cv sF = some s1 ∧
      Foreground.showFrame cv sF = some (Foreground.swapAndShow s1) ∧
      s1.priorPoints =
        (Foreground.handleModes cv (Foreground.atHandleModes cv sF)).priorPoints ∧
      (Foreground.dispatchedMode (Foreground.atHandleModes cv sF) = Mode.CLEAR →
        s1.priorPoints = [] ∧ s1.nextPoints = []) ∧
      (s1.priorPoints ≠ [] →
        s1.nextPoints.length ≤ s1.priorPoints.length +
          (if Foreground.dispatchedMode (Foreground.atHandleModes cv sF) = Mode.POINT
           then 1 else 0))) := by
  constructor
  · obtain ⟨hp, hn, hm, -, -, hg, hpp, -⟩ := LucasKanade.lk_atHandleModes_fields cv sL
    obtain ⟨s1, h1, h2, h3, -⟩ := LucasKanade.lk_handleModes_eq cv (LucasKanade.atHandleModes cv sL)
      (LucasKanade.lk_handleModes_of_tracker cv htr _)
    rw [hp, hm] at h2
    rw [hp, hn, hm, hg, hpp] at h3
    refine ⟨s1, h1, ?_, ?_, ?_, ?_⟩
    · rw [LucasKanade.lk_showFrame_displayed cv sL hLd]
      unfold LucasKanade.beforeSwap
      rw [h1]
      rfl
    · intro hc
      rw [h2, h3]
      simp [hc]
    · intro ht
      rw [h2, h3]
      simp [ht]
    · intro hc ht hq
      rw [h2, h3]
      have hl := (htr.1 sL.priorPyramid
        (LucasKanade.makePyramid cv (cv.cvtColor (cv.read sL.video).2)) sL.priorPoints
        sL.nextPoints).1
      have hs := survivors_length_le
        (cv.calcOpticalFlowPyrLK sL.priorPyramid
          (LucasKanade.makePyramid cv (cv.cvtColor (cv.read sL.video).2)) sL.priorPoints
          sL.nextPoints).2
        (cv.calcOpticalFlowPyrLK sL.priorPyramid
          (LucasKanade.makePyramid cv (cv.cvtColor (cv.read sL.video).2)) sL.priorPoints
          sL.nextPoints).1
      by_cases hpt : sL.mode = Mode.POINT
      · simp [hc, ht, hq, hpt] at hs ⊢
        omega
      · simp [hc, ht, hq, hpt] at hs ⊢
        omega
  · have hshow := Foreground.fg_showFrame_displayed cv sF hFd
    unfold Foreground.beforeSwap at hshow ⊢
    obtain ⟨h2, h3, -⟩ := Foreground.fg_handleModes_eq cv (Foreground.atHandleModes cv sF)
    by_cases hp : (Foreground.handleModes cv (Foreground.atHandleModes cv sF)).priorPoints = []
    · have hflow := Foreground.fg_drawFlowPoints_idle cv _ hp
      rw [hflow] at hshow
      refine ⟨_, hflow, hshow, rfl, ?_, ?_⟩
      · intro hc
        rw [h2, h3]
        simp [hc]
      · intro hne
        exact absurd hp hne
    · have hl := htr.2 (Foreground.handleModes cv (Foreground.atHandleModes cv sF)).priorGray
        (Foreground.handleModes cv (Foreground.atHandleModes cv sF)).nextGray
        (Foreground.handleModes cv (Foreground.atHandleModes cv sF)).priorPoints
        (Foreground.handleModes cv (Foreground.atHandleModes cv sF)).nextPoints
      have hflow := Foreground.fg_drawFlowPoints_track cv _ hp (by rw [hl.1, hl.2])
      rw [hflow] at hshow
      refine ⟨_, hflow, hshow, rfl, ?_, ?_⟩
      · intro hc
        rw [h2] at hp
        simp [hc] at hp
      · intro _
        have hs := survivors_length_le
          (cv.calcOpticalFlowImages
            (Foreground.handleModes cv (Foreground.atHandleModes cv sF)).priorGray
            (Foreground.handleModes cv (Foreground.atHandleModes cv sF)).nextGray
            (Foreground.handleModes cv (Foreground.atHandleModes cv sF)).priorPoints
            (Foreground.handleModes cv (Foreground.atHandleModes cv sF)).nextPoints).2
          (cv.calcOpticalFlowImages
            (Foreground.handleModes cv (Foreground.atHandleModes cv sF)).priorGray
            (Foreground.handleModes cv (Foreground.atHandleModes cv sF)).nextGray
            (Foreground.handleModes cv (Foreground.atHandleModes cv sF)).priorPoints
            (Foreground.handleModes cv (Foreground.atHandleModes cv sF)).nextPoints).1
        rw [hl.1] at hs
        exact le_trans hs (Nat.le_add_right _ _)

theorem C2_point_bound_when_tracking_witness :
    TrackerPerPoint Sample.cv ∧
    (∃ s1, LucasKanade.beforeSwap Sample.cv Sample.lkTracking = some s1 ∧
      s1.priorPoints = [(5, 5), (7, 7)] ∧ s1.nextPoints.length ≤ s1.priorPoints.length + 0) ∧
    (∃ s1, Foreground.beforeSwap Sample.cv Sample.fgTracking = some s1 ∧
      s1.nextPoints.length ≤ s1.priorPoints.length + 0) := by
  obtain ⟨⟨a, ha, -, -, -, hb⟩, ⟨c, hc, -, hpr, -, hd⟩⟩ :=
    C2_point_bound_when_tracking Sample.cv Sample.cv_trackerPerPoint
      Sample.lkTracking (by decide) Sample.fgTracking (by decide)
  refine ⟨Sample.cv_trackerPerPoint, ⟨a, ha, ?_, ?_⟩, ⟨c, hc, ?_⟩⟩
  · exact (hb (by decide) (by decide) (by decide)).1
  · exact (hb (by decide) (by decide) (by decide)).2
  · have hne : c.priorPoints ≠ [] := by
      rw [hpr]
      decide
    exact hd hne

/-- C3: when the grab yields an empty frame, `showFrame` of both players sets
`state` to STEP; the point sets, the gray images, the pyramids, `mode`,
`night`, `position` and the display image are unchanged, nothing is shown and
nothing is swapped: only the source and the frame buffer hold what the grab
left in them. -/
theorem C3_empty_frame_steps (cv : Cv V B Mat Pt)
    (sL : LucasKanade.LucasKanadeVideoPlayer V Mat Pt)
    (hL : cv.hasData (cv.read sL.video).2 = false)
    (sF : Foreground.FkltVideoPlayer V B Mat Pt)
    (hF : cv.hasData (cv.read sF.video).2 = false) :
    (∃ s1, LucasKanade.showFrame cv sL = some s1 ∧
      s1 = { sL with video := (cv.read sL.video).1, itsFrame := (cv.read sL.video).2,
                     state := State.STEP } ∧
      s1.state = State.STEP ∧
      s1.priorPoints = sL.priorPoints ∧ s1.nextPoints = sL.nextPoints ∧
      s1.priorGray = sL.priorGray ∧ s1.nextGray = sL.nextGray ∧
      s1.priorPyramid = sL.priorPyramid ∧ s1.nextPyramid = sL.nextPyramid ∧
      s1.mode = sL.mode ∧ s1.night = sL.night ∧ s1.position = sL.position ∧
      s1.image = sL.image ∧ s1.shown = sL.shown ∧ s1.trackbar = sL.trackbar ∧
      s1.newPoint = sL.newPoint ∧ s1.frameCount = sL.frameCount ∧ s1.msDelay = sL.msDelay) ∧
    (∃ s1, Foreground.showFrame cv sF = some s1 ∧
      s1 = { sF with video := (cv.read sF.video).1, itsFrame := (cv.read sF.video).2,
                     state := State.STEP } ∧
      s1.state = State.STEP ∧
      s1.priorPoints = sF.priorPoints ∧ s1.nextPoints = sF.nextPoints ∧
      s1.priorGray = sF.priorGray ∧ s1.nextGray = sF.nextGray ∧
      s1.mode = sF.mode ∧ s1.night = sF.night ∧ s1.position = sF.position ∧
      s1.image = sF.image ∧ s1.shown = sF.shown ∧ s1.trackbar = sF.trackbar ∧
      s1.newPoint = sF.newPoint ∧ s1.frameCount = sF.frameCount ∧ s1.msDelay = sF.msDelay ∧
      s1.itsBackgroundRemover = sF.itsBackgroundRemover) := by
  constructor
  · refine ⟨_, LucasKanade.lk_showFrame_empty cv sL hL, rfl, ?_⟩
    simp
  · refine ⟨_, Foreground.fg_showFrame_empty cv sF hF, rfl, ?_⟩
    simp

theorem C3_empty_frame_steps_witness :
    Sample.cv.hasData (Sample.cv.read Sample.lkAtEnd.video).2 = false ∧
    Sample.cv.hasData (Sample.cv.read Sample.fgAtEnd.video).2 = false ∧
    (∃ s1, LucasKanade.showFrame Sample.cv Sample.lkAtEnd = some s1 ∧
      s1.state = State.STEP ∧ s1.priorPoints = [(5, 5), (7, 7)] ∧ s1.shown = []) ∧
    (∃ s1, Foreground.showFrame Sample.cv Sample.fgAtEnd = some s1 ∧
      s1.state = State.STEP ∧ s1.priorPoints = [(5, 5), (7, 7)] ∧ s1.shown = []) := by
  obtain ⟨⟨a, ha, -, hst, hp, -, -, -, -, -, -, -, -, -, hsh, -⟩,
      ⟨c, hc, -, hst2, hp2, -, -, -, -, -, -, -, hsh2, -⟩⟩ :=
    C3_empty_frame_steps Sample.cv Sample.lkAtEnd (by decide) Sample.fgAtEnd (by decide)
  exact ⟨by decide, by decide, ⟨a, ha, hst, hp, hsh⟩, ⟨c, hc, hst2, hp2, hsh2⟩⟩

/-- C4: when an action displays a frame on which CLEAR is dispatched, both
point sets are empty after it, and they are empty after every further action
(frame, key, mouse event, move of the trackbar) as long as no displayed frame
dispatches TRACK or POINT. -/
theorem C4_clear_until_track_or_point (cv : Cv V B Mat Pt)
    (aL : Action) (sL : LucasKanade.LucasKanadeVideoPlayer V Mat Pt)
    (hL : LucasKanade.dispatchedBy cv aL sL = some Mode.CLEAR)
    (actsL : List Action)
    (hqL : ∀ s1, LucasKanade.act cv aL sL = some s1 → LucasKanade.Quiet cv actsL s1)
    (aF : Action) (sF : Foreground.FkltVideoPlayer V B Mat Pt)
    (hF : Foreground.dispatchedBy cv aF sF = some Mode.CLEAR)
    (actsF : List Action)
    (hqF : ∀ s1, Foreground.act cv aF sF = some s1 → Foreground.Quiet cv actsF s1) :
    (∃ s1, LucasKanade.act cv aL sL = some s1 ∧ s1.priorPoints = [] ∧ s1.nextPoints = [] ∧
      ∀ k, ∃ s2, LucasKanade.run cv (actsL.take k) s1 = some s2 ∧
        s2.priorPoints = [] ∧ s2.nextPoints = []) ∧
    (∃ s1, Foreground.act cv aF sF = some s1 ∧ s1.priorPoints = [] ∧ s1.nextPoints = [] ∧
      ∀ k, ∃ s2, Foreground.run cv (actsF.take k) s1 = some s2 ∧
        s2.priorPoints = [] ∧ s2.nextPoints = []) := by
  constructor
  · obtain ⟨s1, h1, hp, hn⟩ := LucasKanade.lk_act_clear cv aL sL hL
    exact ⟨s1, h1, hp, hn, fun k =>
      LucasKanade.lk_run_quiet cv (actsL.take k) s1 hp hn
        (LucasKanade.lk_quiet_take cv actsL k s1 (hqL s1 h1))⟩
  · obtain ⟨s1, h1, hp, hn⟩ := Foreground.fg_act_clear cv aF sF hF
    exact ⟨s1, h1, hp, hn, fun k =>
      Foreground.fg_run_quiet cv (actsF.take k) s1 hp hn
        (Foreground.fg_quiet_take cv actsF k s1 (hqF s1 h1))⟩

theorem C4_clear_until_track_or_point_witness :
    LucasKanade.dispatchedBy Sample.cv Action.frame Sample.lkClear = some Mode.CLEAR ∧
    Foreground.dispatchedBy Sample.cv Action.frame Sample.fgClear = some Mode.CLEAR ∧
    (∃ s1 s2, LucasKanade.act Sample.cv Action.frame Sample.lkClear = some s1 ∧
      LucasKanade.run Sample.cv [Action.key 110, Action.frame, Action.mouse 0 3 3, Action.frame]
        s1 = some s2 ∧ s2.priorPoints = [] ∧ s2.nextPoints = []) ∧
    (∃ s1 s2, Foreground.act Sample.cv Action.frame Sample.fgClear = some s1 ∧
      Foreground.run Sample.cv [Action.key 110, Action.frame, Action.mouse 0 3 3, Action.frame]
        s1 = some s2 ∧ s2.priorPoints = [] ∧ s2.nextPoints = []) := by
  obtain ⟨⟨a, ha, -, -, hk⟩, ⟨c, hc, -, -, hk2⟩⟩ :=
    C4_clear_until_track_or_point Sample.cv Action.frame Sample.lkClear rfl
      [Action.key 110, Action.frame, Action.mouse 0 3 3, Action.frame]
      (fun s1 h1 => by
        obtain rfl := Option.some.inj h1
        exact ⟨by decide, by decide, by decide, by decide, by decide, by decide, by decide,
          by decide, trivial⟩)
      Action.frame Sample.fgClear rfl
      [Action.key 110, Action.frame, Action.mouse 0 3 3, Action.frame]
      (fun s1 h1 => by
        obtain rfl := Option.some.inj h1
        exact ⟨by decide, by decide, by decide, by decide, by decide, by decide, by decide,
          by decide, trivial⟩)
  obtain ⟨a2, ha2, hp, hn⟩ := hk 4
  obtain ⟨c2, hc2, hp2, hn2⟩ := hk2 4
  exact ⟨rfl, rfl, ⟨a, a2, ha, ha2, hp, hn⟩, ⟨c, c2, hc, hc2, hp2, hn2⟩⟩

/-- C5: on a displayed frame that dispatches TRACK, the Lucas-Kanade player
replaces `nextPoints` by the detector's output on the gray of this frame and
leaves `priorPoints` as it was, so that after the swap `priorPoints` is what
the detector found in the current frame; the foreground player replaces
`priorPoints` by the detector's output on `priorGray`, the gray of the frame
before, and the tracker then runs on these points. -/
theorem C5_track_detects (cv : Cv V B Mat Pt) (htr : TrackerPerPoint cv)
    (sL : LucasKanade.LucasKanadeVideoPlayer V Mat Pt)
    (hLd : cv.hasData (cv.read sL.video).2 = true) (hLt : sL.mode = Mode.TRACK)
    (sF : Foreground.FkltVideoPlayer V B Mat Pt)
    (hFd : cv.hasData (cv.read sF.video).2 = true)
    (hFt : Foreground.dispatchedMode (Foreground.atHandleModes cv sF) = Mode.TRACK) :
    (∃ s1 s2, LucasKanade.beforeSwap cv sL = some s1 ∧
      s1.nextGray = cv.cvtColor (cv.read sL.video).2 ∧
      s1.nextPoints = LucasKanade.getGoodTrackingPoints cv s1.nextGray ∧
      s1.priorPoints = sL.priorPoints ∧
      LucasKanade.showFrame cv sL = some s2 ∧
      s2.priorGray = cv.cvtColor (cv.read sL.video).2 ∧
      s2.priorPoints = LucasKanade.getGoodTrackingPoints cv s2.priorGray ∧
      s2.nextPoints = sL.priorPoints) ∧
    ((Foreground.handleModes cv (Foreground.atHandleModes cv sF)).priorPoints =
        Foreground.getGoodTrackingPoints cv sF.priorGray ∧
      (Foreground.handleModes cv (Foreground.atHandleModes cv sF)).priorGray = sF.priorGray ∧
      (Foreground.handleModes cv (Foreground.atHandleModes cv sF)).nextPoints = sF.nextPoints ∧
      ∃ s1 s2, Foreground.beforeSwap cv sF = some s1 ∧
        s1.priorPoints = Foreground.getGoodTrackingPoints cv sF.priorGray ∧
        s1.nextPoints =
          (if s1.priorPoints.isEmpty then sF.nextPoints
           else survivors
            (cv.calcOpticalFlowImages sF.priorGray s1.nextGray s1.priorPoints sF.nextPoints).2
            (cv.calcOpticalFlowImages sF.priorGray s1.nextGray s1.priorPoints sF.nextPoints).1) ∧
        Foreground.showFrame cv sF = some s2 ∧
        s2.nextPoints = Foreground.getGoodTrackingPoints cv sF.priorGray) := by
  constructor
  · obtain ⟨hp, hn, hm, -, -, hg, -⟩ := LucasKanade.lk_atHandleModes_fields cv sL
    obtain ⟨s1, h1, h2, h3, -, -, -, h7, -⟩ :=
      LucasKanade.lk_handleModes_eq cv (LucasKanade.atHandleModes cv sL)
        (LucasKanade.lk_handleModes_of_tracker cv htr _)
    have hb : LucasKanade.beforeSwap cv sL = some s1 := h1
    have e1 : s1.nextGray = cv.cvtColor (cv.read sL.video).2 := h7.trans hg
    have e2 : s1.nextPoints = LucasKanade.getGoodTrackingPoints cv s1.nextGray := by
      rw [h3, h7, hm]
      simp [hLt]
    have e3 : s1.priorPoints = sL.priorPoints := by
      rw [h2, hm, hp]
      simp [hLt]
    refine ⟨s1, LucasKanade.swapAndShow s1, hb, e1, e2, e3, ?_, e1, e2, e3⟩
    rw [LucasKanade.lk_showFrame_displayed cv sL hLd, hb]
    rfl
  · obtain ⟨hp, hn, -, -, hg, -⟩ := Foreground.fg_atHandleModes_fields cv sF
    obtain ⟨h2, h3, h4, h5, -⟩ := Foreground.fg_handleModes_eq cv (Foreground.atHandleModes cv sF)
    have e1 : (Foreground.handleModes cv (Foreground.atHandleModes cv sF)).priorPoints =
        Foreground.getGoodTrackingPoints cv sF.priorGray := by
      rw [h2, hg]
      simp [hFt]
    have e2 : (Foreground.handleModes cv (Foreground.atHandleModes cv sF)).nextPoints =
        sF.nextPoints := by
      rw [h3, hn]
      simp [hFt]
    refine ⟨e1, h4.trans hg, e2, ?_⟩
    have hshow := Foreground.fg_showFrame_displayed cv sF hFd
    unfold Foreground.beforeSwap at hshow ⊢
    by_cases he : (Foreground.handleModes cv (Foreground.atHandleModes cv sF)).priorPoints = []
    · have hflow := Foreground.fg_drawFlowPoints_idle cv _ he
      rw [hflow] at hshow
      refine ⟨_, _, hflow, e1, ?_, hshow, e1⟩
      rw [he, e2]
      simp
    · have hl := htr.2 (Foreground.handleModes cv (Foreground.atHandleModes cv sF)).priorGray
        (Foreground.handleModes cv (Foreground.atHandleModes cv sF)).nextGray
        (Foreground.handleModes cv (Foreground.atHandleModes cv sF)).priorPoints
        (Foreground.handleModes cv (Foreground.atHandleModes cv sF)).nextPoints
      have hflow := Foreground.fg_drawFlowPoints_track cv _ he (by rw [hl.1, hl.2])
      rw [hflow] at hshow
      refine ⟨_, _, hflow, e1, ?_, hshow, e1⟩
      have hne : (Foreground.handleModes cv (Foreground.atHandleModes cv sF)).priorPoints.isEmpty
          = false := by
        cases hq : (Foreground.handleModes cv (Foreground.atHandleModes cv sF)).priorPoints with
        | nil => exact absurd hq he
        | cons a l => rfl
      simp only [hne, Bool.false_eq_true, if_false, e2, h4, hg]

theorem C5_track_detects_witness :
    TrackerPerPoint Sample.cv ∧ Sample.lkTrack.mode = Mode.TRACK ∧
    Foreground.dispatchedMode (Foreground.atHandleModes Sample.cv Sample.fgTrack) = Mode.TRACK ∧
    (∃ s2, LucasKanade.showFrame Sample.cv Sample.lkTrack = some s2 ∧
      s2.priorPoints = [(101, 1), (101, 2)] ∧ s2.nextPoints = [(5, 5), (7, 7)]) ∧
    (Foreground.handleModes Sample.cv
        (Foreground.atHandleModes Sample.cv Sample.fgTrack)).priorPoints = [(101, 0), (101, 1)] := by
  obtain ⟨⟨a, b, -, -, -, -, hs, hg, hp, hn⟩, ⟨hf, -⟩⟩ :=
    C5_track_detects Sample.cv Sample.cv_trackerPerPoint Sample.lkTrack (by decide) rfl
      Sample.fgTrack (by decide) rfl
  refine ⟨Sample.cv_trackerPerPoint, rfl, rfl, ⟨b, hs, ?_, hn⟩, hf⟩
  rw [hp, hg]
  rfl

/-- C6: in the Lucas-Kanade player with a click pending (mode POINT, click c),
`handleModes` leaves in `nextPoints` the points it leaves from the same state
with mode NONE, followed by the refinement of c against `nextGray`: exactly
one point more, the last one; the same on every displayed frame. -/
theorem C6_lk_click_appends (cv : Cv V B Mat Pt) (htr : TrackerPerPoint cv)
    (s : LucasKanade.LucasKanadeVideoPlayer V Mat Pt) (hs : s.mode = Mode.POINT)
    (s0 : LucasKanade.LucasKanadeVideoPlayer V Mat Pt)
    (hd : cv.hasData (cv.read s0.video).2 = true) (hs0 : s0.mode = Mode.POINT) :
    (∃ b n, LucasKanade.handleModes cv { s with mode := Mode.NONE } = some b ∧
      LucasKanade.handleModes cv s = some n ∧
      n.nextPoints = b.nextPoints ++ [cv.cornerSubPix s.nextGray 31 s.newPoint] ∧
      n.nextPoints.length = b.nextPoints.length + 1) ∧
    (∃ b n, LucasKanade.beforeSwap cv { s0 with mode := Mode.NONE } = some b ∧
      LucasKanade.beforeSwap cv s0 = some n ∧
      LucasKanade.showFrame cv s0 = some (LucasKanade.swapAndShow n) ∧
      n.nextPoints =
        b.nextPoints ++ [cv.cornerSubPix (cv.cvtColor (cv.read s0.video).2) 31 s0.newPoint] ∧
      n.nextPoints.length = b.nextPoints.length + 1) := by
  have key : ∀ t : LucasKanade.LucasKanadeVideoPlayer V Mat Pt, t.mode = Mode.POINT →
      ∃ b n, LucasKanade.handleModes cv { t with mode := Mode.NONE } = some b ∧
        LucasKanade.handleModes cv t = some n ∧
        n.nextPoints = b.nextPoints ++ [cv.cornerSubPix t.nextGray 31 t.newPoint] := by
    intro t ht
    obtain ⟨b, hb, -, hb3, -⟩ := LucasKanade.lk_handleModes_eq cv { t with mode := Mode.NONE }
      (LucasKanade.lk_handleModes_of_tracker cv htr _)
    obtain ⟨n, hn, -, hn3, -⟩ := LucasKanade.lk_handleModes_eq cv t
      (LucasKanade.lk_handleModes_of_tracker cv htr _)
    refine ⟨b, n, hb, hn, ?_⟩
    rw [hn3, hb3]
    simp [ht]
  constructor
  · obtain ⟨b, n, hb, hn, he⟩ := key s hs
    exact ⟨b, n, hb, hn, he, by rw [he]; simp⟩
  · obtain ⟨-, -, hm, hnp, -, hg, -⟩ := LucasKanade.lk_atHandleModes_fields cv s0
    have hat : LucasKanade.atHandleModes cv { s0 with mode := Mode.NONE } =
        { LucasKanade.atHandleModes cv s0 with mode := Mode.NONE } := by
      unfold LucasKanade.atHandleModes LucasKanade.prepareFrame
      by_cases hfc : s0.frameCount = 0 <;> simp [hfc]
    obtain ⟨b, n, hb, hn, he⟩ := key (LucasKanade.atHandleModes cv s0) (hm.trans hs0)
    rw [hg, hnp] at he
    refine ⟨b, n, ?_, hn, ?_, he, by rw [he]; simp⟩
    · unfold LucasKanade.beforeSwap
      rw [hat]
      exact hb
    · rw [LucasKanade.lk_showFrame_displayed cv s0 hd]
      unfold LucasKanade.beforeSwap
      rw [hn]
      rfl

theorem C6_lk_click_appends_witness :
    TrackerPerPoint Sample.cv ∧ Sample.lkClick.mode = Mode.POINT ∧
    (∃ b n, LucasKanade.beforeSwap Sample.cv { Sample.lkClick with mode := Mode.NONE } = some b ∧
      LucasKanade.beforeSwap Sample.cv Sample.lkClick = some n ∧
      b.nextPoints = [(6, 5), (8, 7)] ∧
      n.nextPoints = [(6, 5), (8, 7), (120, 81)]) := by
  obtain ⟨-, ⟨b, n, hb, hn, -, he, -⟩⟩ :=
    C6_lk_click_appends Sample.cv Sample.cv_trackerPerPoint Sample.lkClick rfl
      Sample.lkClick (by decide) rfl
  have hb2 : b.nextPoints = [(6, 5), (8, 7)] := by
    have h : (LucasKanade.beforeSwap Sample.cv { Sample.lkClick with mode := Mode.NONE }).map
        (fun t => t.nextPoints) = some [(6, 5), (8, 7)] := rfl
    rw [hb] at h
    exact Option.some.inj h
  refine ⟨Sample.cv_trackerPerPoint, rfl, b, n, hb, hn, hb2, ?_⟩
  rw [he, hb2]
  rfl

/-- C7, counterexample: in the foreground player a pending click does not
always add a point.  On a camera (position 0) the frame dispatches the forced
TRACK and the click is dropped; on a file, at position 2 with two points
being tracked, the clicked point is appended and then overwritten by the
tracker.  In both cases `nextPoints` at display has as many points as without
the click. -/
theorem C7_fg_click_counterexample :
    (Sample.fgCameraClick.mode = Mode.POINT ∧
      Sample.cv.hasData (Sample.cv.read Sample.fgCameraClick.video).2 = true ∧
      ∃ b n, Foreground.beforeSwap Sample.cv { Sample.fgCameraClick with mode := Mode.NONE } =
          some b ∧
        Foreground.beforeSwap Sample.cv Sample.fgCameraClick = some n ∧
        n.nextPoints = b.nextPoints ∧
        ¬ (n.nextPoints.length = b.nextPoints.length + 1)) ∧
    (Sample.fgTrackingClick.mode = Mode.POINT ∧
      Sample.cv.hasData (Sample.cv.read Sample.fgTrackingClick.video).2 = true ∧
      (Foreground.atHandleModes Sample.cv Sample.fgTrackingClick).position = 2 ∧
      ∃ b n, Foreground.beforeSwap Sample.cv { Sample.fgTrackingClick with mode := Mode.NONE } =
          some b ∧
        Foreground.beforeSwap Sample.cv Sample.fgTrackingClick = some n ∧
        n.nextPoints = b.nextPoints ∧
        ¬ (n.nextPoints.length = b.nextPoints.length + 1)) := by
  refine ⟨⟨rfl, rfl, _, _, rfl, rfl, rfl, by decide⟩, ⟨rfl, rfl, rfl, _, _, rfl, rfl, rfl, by decide⟩⟩

/-- C7, amended: in the foreground player with a click pending (mode POINT,
click c), on a displayed frame whose position is not a multiple of 16 and with
`priorPoints` empty, `nextPoints` at display is the `nextPoints` of the same
frame without the click followed by the refinement of c against `nextGray`:
exactly one point more; on a displayed frame whose position is a multiple of
16 the forced TRACK drops the click and the frame is the same as without it. -/
theorem C7_fg_click_when_idle (cv : Cv V B Mat Pt)
    (s : Foreground.FkltVideoPlayer V B Mat Pt)
    (hd : cv.hasData (cv.read s.video).2 = true) (hm : s.mode = Mode.POINT)
    (hpos : (Foreground.atHandleModes cv s).position % 16 ≠ 0) (hp : s.priorPoints = [])
    (t : Foreground.FkltVideoPlayer V B Mat Pt)
    (_htm : t.mode = Mode.POINT)
    (htpos : (Foreground.atHandleModes cv t).position % 16 = 0) :
    (∃ b n, Foreground.beforeSwap cv { s with mode := Mode.NONE } = some b ∧
      Foreground.beforeSwap cv s = some n ∧
      Foreground.showFrame cv s = some (Foreground.swapAndShow n) ∧
      b.nextPoints = s.nextPoints ∧
      n.nextPoints = b.nextPoints ++
        [cv.cornerSubPix (cv.cvtColor (cv.removeBackground s.itsBackgroundRemover
          (cv.read s.video).2).2) 31 s.newPoint] ∧
      n.nextPoints.length = b.nextPoints.length + 1) ∧
    Foreground.beforeSwap cv t = Foreground.beforeSwap cv { t with mode := Mode.NONE } := by
  have hat : ∀ u : Foreground.FkltVideoPlayer V B Mat Pt,
      Foreground.atHandleModes cv { u with mode := Mode.NONE } =
        { Foreground.atHandleModes cv u with mode := Mode.NONE } := by
    intro u
    unfold Foreground.atHandleModes Foreground.prepareFrame
    by_cases hfc : u.frameCount = 0 <;> simp [hfc]
  constructor
  · obtain ⟨hp0, hn0, hm0, hnp, -, hg, -⟩ := Foreground.fg_atHandleModes_fields cv s
    obtain ⟨n2, n3⟩ := Foreground.fg_handleModes_click cv (Foreground.atHandleModes cv s) hpos
      (hp0.trans hp) (hm0.trans hm)
    obtain ⟨b2, b3⟩ := Foreground.fg_handleModes_idle cv
      { Foreground.atHandleModes cv s with mode := Mode.NONE } hpos (hp0.trans hp) rfl
    replace b3 : (Foreground.handleModes cv
        { Foreground.atHandleModes cv s with mode := Mode.NONE }).nextPoints = s.nextPoints :=
      b3.trans hn0
    rw [hn0, hg, hnp] at n3
    have hshow := Foreground.fg_showFrame_displayed cv s hd
    unfold Foreground.beforeSwap at hshow ⊢
    rw [hat s]
    rw [Foreground.fg_drawFlowPoints_idle cv _ n2] at hshow ⊢
    rw [Foreground.fg_drawFlowPoints_idle cv _ b2]
    refine ⟨_, _, rfl, rfl, hshow, b3, ?_, ?_⟩
    · rw [n3, b3]
    · rw [n3, b3]
      simp
  · unfold Foreground.beforeSwap
    rw [hat t]
    have h0 : (0 : Int) = Int.tmod (Foreground.atHandleModes cv t).position 16 := by
      have h := Int.dvd_of_emod_eq_zero htpos
      exact (Int.tmod_eq_zero_of_dvd h).symm
    have he : Foreground.handleModes cv { Foreground.atHandleModes cv t with mode := Mode.NONE } =
        Foreground.handleModes cv (Foreground.atHandleModes cv t) := by
      unfold Foreground.handleModes
      simp [Foreground.forceTrack, Foreground.fg_nightImage_eq, h0.symm]
    rw [he]

theorem C7_fg_click_when_idle_witness :
    Sample.fgIdleClick.mode = Mode.POINT ∧
    (Foreground.atHandleModes Sample.cv Sample.fgIdleClick).position = 2 ∧
    Sample.fgCameraClick.mode = Mode.POINT ∧
    (Foreground.atHandleModes Sample.cv Sample.fgCameraClick).position = 0 ∧
    (∃ n, Foreground.beforeSwap Sample.cv Sample.fgIdleClick = some n ∧
      n.nextPoints = [(9, 9), (120, 81)]) ∧
    Foreground.beforeSwap Sample.cv Sample.fgCameraClick =
      Foreground.beforeSwap Sample.cv { Sample.fgCameraClick with mode := Mode.NONE } := by
  obtain ⟨⟨b, n, -, hn, -, hb, he, -⟩, hcam⟩ :=
    C7_fg_click_when_idle Sample.cv Sample.fgIdleClick (by decide) rfl (by decide) rfl
      Sample.fgCameraClick rfl (by decide)
  refine ⟨rfl, rfl, rfl, rfl, ⟨n, hn, ?_⟩, hcam⟩
  rw [he, hb]
  rfl

/-- C8: `handleModes` of the foreground player dispatches TRACK exactly when
the position is a multiple of 16 or the pending mode is TRACK, and then
replaces `priorPoints` by the detector's output on `priorGray`; otherwise
`priorPoints` is emptied (CLEAR) or kept.  At a multiple of 16 the result is
the one for a pending TRACK whatever was pending: `nextPoints` is untouched
and no request is left.  `handleModes` of the Lucas-Kanade player does not
look at the position: a pending CLEAR is applied at every position. -/
theorem C8_forced_track (cv : Cv V B Mat Pt)
    (s : Foreground.FkltVideoPlayer V B Mat Pt)
    (t : Foreground.FkltVideoPlayer V B Mat Pt) (ht : t.position % 16 = 0)
    (sL : LucasKanade.LucasKanadeVideoPlayer V Mat Pt) (p : Int) :
    ((Foreground.dispatchedMode s = Mode.TRACK ↔ (s.position % 16 = 0 ∨ s.mode = Mode.TRACK)) ∧
      (Foreground.handleModes cv s).priorPoints =
        (if s.position % 16 = 0 ∨ s.mode = Mode.TRACK then
           Foreground.getGoodTrackingPoints cv s.priorGray
         else if s.mode = Mode.CLEAR then [] else s.priorPoints)) ∧
    (Foreground.handleModes cv t = Foreground.handleModes cv { t with mode := Mode.TRACK } ∧
      (Foreground.handleModes cv t).priorPoints =
        Foreground.getGoodTrackingPoints cv t.priorGray ∧
      (Foreground.handleModes cv t).nextPoints = t.nextPoints ∧
      (Foreground.handleModes cv t).mode = Mode.NONE) ∧
    (LucasKanade.handleModes cv { sL with position := p } =
        (LucasKanade.handleModes cv sL).map (fun r => { r with position := p }) ∧
      LucasKanade.handleModes cv { sL with position := p, mode := Mode.CLEAR } =
        some { LucasKanade.nightImage cv sL with
          position := p, mode := Mode.NONE, priorPoints := [], nextPoints := [] }) := by
  refine ⟨⟨?_, ?_⟩, ⟨?_, ?_, ?_, ?_⟩, ⟨?_, ?_⟩⟩
  · rw [Foreground.fg_dispatchedMode_eq]
    by_cases h : s.position % 16 = 0 <;> simp [h]
  · obtain ⟨h2, -⟩ := Foreground.fg_handleModes_eq cv s
    rw [h2, Foreground.fg_dispatchedMode_eq]
    by_cases h : s.position % 16 = 0
    · simp [h]
    · by_cases hm : s.mode = Mode.TRACK
      · simp [h, hm]
      · simp [h, hm]
  · have h0 : (0 : Int) = Int.tmod t.position 16 :=
      (Int.tmod_eq_zero_of_dvd (Int.dvd_of_emod_eq_zero ht)).symm
    unfold Foreground.handleModes
    simp [Foreground.forceTrack, Foreground.fg_nightImage_eq, h0.symm]
  · obtain ⟨h2, -⟩ := Foreground.fg_handleModes_eq cv t
    rw [h2, Foreground.fg_dispatchedMode_eq]
    simp [ht]
  · obtain ⟨-, h3, -⟩ := Foreground.fg_handleModes_eq cv t
    rw [h3, Foreground.fg_dispatchedMode_eq]
    simp [ht]
  · exact (Foreground.fg_handleModes_eq cv t).2.2.2.2.1
  · unfold LucasKanade.handleModes LucasKanade.dispatchModes LucasKanade.nightImage
      LucasKanade.applyPoint
    by_cases hn : sL.night = true <;> by_cases hc : sL.mode = Mode.CLEAR <;>
      by_cases ht2 : sL.mode = Mode.TRACK <;> by_cases hq : sL.mode = Mode.POINT <;>
      by_cases hp : sL.priorPoints = [] <;>
      simp [hn, hc, ht2, hq, hp] <;>
      (split <;> simp_all)
  · unfold LucasKanade.handleModes LucasKanade.dispatchModes LucasKanade.nightImage
      LucasKanade.applyPoint
    by_cases hn : sL.night = true <;> simp [hn]

theorem C8_forced_track_witness :
    Sample.fgCameraClick.position % 16 = 0 ∧ Sample.fgCameraClick.mode = Mode.POINT ∧
    (Foreground.handleModes Sample.cv Sample.fgCameraClick).priorPoints = [(101, 0), (101, 1)] ∧
    (Foreground.handleModes Sample.cv Sample.fgCameraClick).nextPoints = [] := by
  obtain ⟨-, ⟨-, hp, hn, -⟩, -⟩ :=
    C8_forced_track Sample.cv Sample.fgTracking Sample.fgCameraClick (by decide)
      Sample.lkClear 16
  exact ⟨by decide, rfl, hp, hn⟩

/-- C9: after a displayed frame of either player, `priorPoints` is the
`nextPoints` computed for that frame and `priorGray` the gray of that frame,
while `nextPoints` and `nextGray` hold what `priorPoints` and `priorGray` held
just before the swap; in the Lucas-Kanade player the two pyramids are
exchanged in the same way.  The frame is shown once. -/
theorem C9_swap_after_frame (cv : Cv V B Mat Pt) (htr : TrackerPerPoint cv)
    (sL : LucasKanade.LucasKanadeVideoPlayer V Mat Pt)
    (hLd : cv.hasData (cv.read sL.video).2 = true)
    (sF : Foreground.FkltVideoPlayer V B Mat Pt)
    (hFd : cv.hasData (cv.read sF.video).2 = true) :
    (∃ s1 s2, LucasKanade.beforeSwap cv sL = some s1 ∧ LucasKanade.showFrame cv sL = some s2 ∧
      s2.priorPoints = s1.nextPoints ∧ s2.nextPoints = s1.priorPoints ∧
      s2.priorGray = s1.nextGray ∧ s2.priorGray = cv.cvtColor (cv.read sL.video).2 ∧
      s2.nextGray = s1.priorGray ∧ s2.nextGray = sL.priorGray ∧
      s2.priorPyramid = s1.nextPyramid ∧ s2.nextPyramid = s1.priorPyramid ∧
      s2.nextPyramid = sL.priorPyramid ∧
      s2.shown = sL.shown ++ [s1.image]) ∧
    (∃ s1 s2, Foreground.beforeSwap cv sF = some s1 ∧ Foreground.showFrame cv sF = some s2 ∧
      s2.priorPoints = s1.nextPoints ∧ s2.nextPoints = s1.priorPoints ∧
      s2.priorGray = s1.nextGray ∧
      s2.priorGray =
        cv.cvtColor (cv.removeBackground sF.itsBackgroundRemover (cv.read sF.video).2).2 ∧
      s2.nextGray = s1.priorGray ∧ s2.nextGray = sF.priorGray ∧
      s2.shown = sF.shown ++ [s1.image]) := by
  constructor
  · obtain ⟨-, -, -, -, hpg, hg, hpp, -, -, -, hsh, -⟩ :=
      LucasKanade.lk_atHandleModes_fields cv sL
    obtain ⟨s1, h1, -, -, -, h5, h6, h7, -, -, -, -, -, h13, -⟩ :=
      LucasKanade.lk_handleModes_eq cv (LucasKanade.atHandleModes cv sL)
        (LucasKanade.lk_handleModes_of_tracker cv htr _)
    have hb : LucasKanade.beforeSwap cv sL = some s1 := h1
    refine ⟨s1, LucasKanade.swapAndShow s1, hb, ?_, rfl, rfl, rfl, h7.trans hg, rfl,
      h6.trans hpg, rfl, rfl, h5.trans hpp, ?_⟩
    · rw [LucasKanade.lk_showFrame_displayed cv sL hLd, hb]
      rfl
    · show s1.shown ++ [s1.image] = sL.shown ++ [s1.image]
      rw [h13, hsh]
  · obtain ⟨-, -, -, -, hpg, hg, -, -, hsh, -⟩ := Foreground.fg_atHandleModes_fields cv sF
    obtain ⟨-, -, h4, h5, -, -, -, -, -, h10, -⟩ :=
      Foreground.fg_handleModes_eq cv (Foreground.atHandleModes cv sF)
    have hshow := Foreground.fg_showFrame_displayed cv sF hFd
    unfold Foreground.beforeSwap at hshow ⊢
    by_cases he : (Foreground.handleModes cv (Foreground.atHandleModes cv sF)).priorPoints = []
    · have hflow := Foreground.fg_drawFlowPoints_idle cv _ he
      rw [hflow] at hshow
      refine ⟨_, _, hflow, hshow, rfl, rfl, rfl, h5.trans hg, rfl, h4.trans hpg, ?_⟩
      show (Foreground.handleModes cv (Foreground.atHandleModes cv sF)).shown ++ _ = _
      rw [h10, hsh]
    · have hl := htr.2 (Foreground.handleModes cv (Foreground.atHandleModes cv sF)).priorGray
        (Foreground.handleModes cv (Foreground.atHandleModes cv sF)).nextGray
        (Foreground.handleModes cv (Foreground.atHandleModes cv sF)).priorPoints
        (Foreground.handleModes cv (Foreground.atHandleModes cv sF)).nextPoints
      have hflow := Foreground.fg_drawFlowPoints_track cv _ he (by rw [hl.1, hl.2])
      rw [hflow] at hshow
      refine ⟨_, _, hflow, hshow, rfl, rfl, rfl, h5.trans hg, rfl, h4.trans hpg, ?_⟩
      show (Foreground.handleModes cv (Foreground.atHandleModes cv sF)).shown ++ _ = _
      rw [h10, hsh]

theorem C9_swap_after_frame_witness :
    TrackerPerPoint Sample.cv ∧
    (∃ s2, LucasKanade.showFrame Sample.cv Sample.lkTracking = some s2 ∧
      s2.priorGray = 101 ∧ s2.nextPoints = [(5, 5), (7, 7)]) ∧
    (∃ s2, Foreground.showFrame Sample.cv Sample.fgTracking = some s2 ∧
      s2.priorGray = 102 ∧ s2.nextGray = 101) := by
  obtain ⟨⟨a, a2, ha, ha2, -, hn, -, hg, -⟩, ⟨c, c2, -, hc2, -, -, -, hg2, -, hng, -⟩⟩ :=
    C9_swap_after_frame Sample.cv Sample.cv_trackerPerPoint Sample.lkTracking (by decide)
      Sample.fgTracking (by decide)
  refine ⟨Sample.cv_trackerPerPoint, ⟨a2, ha2, hg, ?_⟩, ⟨c2, hc2, hg2, hng⟩⟩
  have h : (LucasKanade.beforeSwap Sample.cv Sample.lkTracking).map (fun u => u.priorPoints) =
      some [(5, 5), (7, 7)] := rfl
  rw [ha] at h
  exact hn.trans (Option.some.inj h)

/-- C10, the code at a failing input: a Lucas-Kanade player started on a file
whose first two frames differ holds, after `reset`, pyramids built from its
gray images; after two displayed frames, with no key pressed, `priorGray` is
the gray of frame 2 and `priorPyramid` is still the pyramid of frame 1.  After
a frame, the key t and a frame, `priorPoints` holds the points detected in
frame 2 and `priorPyramid` is the pyramid of frame 1. -/
theorem C10_prior_pyramid_stale :
    Sample.lkFresh.priorPyramid = LucasKanade.makePyramid Sample.cv Sample.lkFresh.priorGray ∧
    Sample.lkFresh.nextPyramid = LucasKanade.makePyramid Sample.cv Sample.lkFresh.nextGray ∧
    LucasKanade.reset Sample.cv Sample.lkFresh = Sample.lkFresh ∧
    (∃ s2, LucasKanade.run Sample.cv [Action.frame, Action.frame] Sample.lkFresh = some s2 ∧
      s2.priorGray = 102 ∧ s2.priorPyramid = [101, 50, 25] ∧
      LucasKanade.makePyramid Sample.cv s2.priorGray = [102, 51, 25] ∧
      s2.priorPyramid ≠ LucasKanade.makePyramid Sample.cv s2.priorGray) ∧
    (∃ s3, LucasKanade.run Sample.cv [Action.frame, Action.key 116, Action.frame]
        Sample.lkFresh = some s3 ∧
      s3.priorGray = 102 ∧ s3.priorPoints = [(102, 1), (102, 2)] ∧
      s3.priorPyramid = [101, 50, 25] ∧
      s3.priorPyramid ≠ LucasKanade.makePyramid Sample.cv s3.priorGray) := by
  refine ⟨rfl, rfl, rfl, ⟨_, rfl, rfl, rfl, rfl, by decide⟩, ⟨_, rfl, rfl, rfl, rfl, by decide⟩⟩

/-- C11: after every displayed frame of either player, shown by the main loop
or by the trackbar callback, `mode` is NONE whatever it was before; so the
next displayed frame, if nothing is requested in between, dispatches NONE,
or, in the foreground player at a position that is a multiple of 16, the
forced TRACK: a request is dispatched on one frame only. -/
theorem C11_mode_none_after_frame (cv : Cv V B Mat Pt) (htr : TrackerPerPoint cv)
    (aL : Action) (sL : LucasKanade.LucasKanadeVideoPlayer V Mat Pt) (mL : Mode)
    (hL : LucasKanade.dispatchedBy cv aL sL = some mL)
    (aF : Action) (sF : Foreground.FkltVideoPlayer V B Mat Pt) (mF : Mode)
    (hF : Foreground.dispatchedBy cv aF sF = some mF) :
    (∃ s1, LucasKanade.act cv aL sL = some s1 ∧ s1.mode = Mode.NONE ∧
      ∀ a2 m2, LucasKanade.dispatchedBy cv a2 s1 = some m2 → m2 = Mode.NONE) ∧
    (∃ s1, Foreground.act cv aF sF = some s1 ∧ s1.mode = Mode.NONE ∧
      ∀ a2 m2, Foreground.dispatchedBy cv a2 s1 = some m2 →
        m2 = Mode.NONE ∨
          (m2 = Mode.TRACK ∧ ∃ s0, Foreground.frameInput cv a2 s1 = some s0 ∧
            (Foreground.atHandleModes cv s0).position % 16 = 0)) := by
  constructor
  · obtain ⟨s1, h1, hm⟩ := LucasKanade.lk_act_displayed_mode cv htr aL sL mL hL
    refine ⟨s1, h1, hm, fun a2 m2 h2 => ?_⟩
    rw [LucasKanade.lk_dispatchedBy_mode cv a2 s1 m2 h2, hm]
  · obtain ⟨s1, h1, hm⟩ := Foreground.fg_act_displayed_mode cv htr aF sF mF hF
    refine ⟨s1, h1, hm, fun a2 m2 h2 => ?_⟩
    rcases Foreground.fg_dispatchedBy_mode cv a2 s1 m2 h2 with h | h
    · left
      rw [h, hm]
    · exact Or.inr h

theorem C11_mode_none_after_frame_witness :
    LucasKanade.dispatchedBy Sample.cv Action.frame Sample.lkClick = some Mode.POINT ∧
    Foreground.dispatchedBy Sample.cv Action.frame Sample.fgClear = some Mode.CLEAR ∧
    (∃ s1, LucasKanade.act Sample.cv Action.frame Sample.lkClick = some s1 ∧
      s1.mode = Mode.NONE ∧
      LucasKanade.dispatchedBy Sample.cv Action.frame s1 = some Mode.NONE) ∧
    (∃ s1, Foreground.act Sample.cv Action.frame Sample.fgClear = some s1 ∧
      s1.mode = Mode.NONE ∧
      Foreground.dispatchedBy Sample.cv Action.frame s1 = some Mode.NONE) := by
  obtain ⟨⟨a, ha, hm, -⟩, ⟨c, hc, hm2, -⟩⟩ :=
    C11_mode_none_after_frame Sample.cv Sample.cv_trackerPerPoint
      Action.frame Sample.lkClick Mode.POINT rfl Action.frame Sample.fgClear Mode.CLEAR rfl
  refine ⟨rfl, rfl, ⟨a, ha, hm, ?_⟩, ⟨c, hc, hm2, ?_⟩⟩
  · have h := Option.some.inj (ha.symm.trans (rfl :
      LucasKanade.act Sample.cv Action.frame Sample.lkClick = some _))
    rw [h]
    rfl
  · have h := Option.some.inj (hc.symm.trans (rfl :
      Foreground.act Sample.cv Action.frame Sample.fgClear = some _))
    rw [h]
    rfl

/-- C12: `reset` of either player leaves the source at the position it had,
when the seek back to that position is reflected by the source; afterwards
`priorGray` and `nextGray` are both the gray of the (preprocessed) seed frame,
in the Lucas-Kanade player both pyramids are the pyramid of `priorGray`, and
the point sets, `mode`, `state`, `night` and `position` are unchanged. -/
theorem C12_reset_seeds (cv : Cv V B Mat Pt)
    (sL : LucasKanade.LucasKanadeVideoPlayer V Mat Pt)
    (_hLd : cv.hasData (cv.read sL.video).2 = true)
    (hLp : cv.getPosition (cv.setPosition (cv.read sL.video).1 (cv.getPosition sL.video)) =
      cv.getPosition sL.video)
    (sF : Foreground.FkltVideoPlayer V B Mat Pt)
    (_hFd : cv.hasData (cv.read sF.video).2 = true)
    (hFp : cv.getPosition (cv.setPosition (cv.read sF.video).1 (cv.getPosition sF.video)) =
      cv.getPosition sF.video) :
    (cv.getPosition (LucasKanade.reset cv sL).video = cv.getPosition sL.video ∧
      (LucasKanade.reset cv sL).priorGray = cv.cvtColor (cv.read sL.video).2 ∧
      (LucasKanade.reset cv sL).nextGray = cv.cvtColor (cv.read sL.video).2 ∧
      (LucasKanade.reset cv sL).priorPyramid =
        LucasKanade.makePyramid cv (LucasKanade.reset cv sL).priorGray ∧
      (LucasKanade.reset cv sL).nextPyramid =
        LucasKanade.makePyramid cv (LucasKanade.reset cv sL).priorGray ∧
      (LucasKanade.reset cv sL).priorPoints = sL.priorPoints ∧
      (LucasKanade.reset cv sL).nextPoints = sL.nextPoints ∧
      (LucasKanade.reset cv sL).mode = sL.mode ∧
      (LucasKanade.reset cv sL).state = sL.state ∧
      (LucasKanade.reset cv sL).night = sL.night ∧
      (LucasKanade.reset cv sL).position = sL.position ∧
      (LucasKanade.reset cv sL).shown = sL.shown) ∧
    (cv.getPosition (Foreground.reset cv sF).video = cv.getPosition sF.video ∧
      (Foreground.reset cv sF).priorGray =
        cv.cvtColor (cv.removeBackground sF.itsBackgroundRemover (cv.read sF.video).2).2 ∧
      (Foreground.reset cv sF).nextGray =
        cv.cvtColor (cv.removeBackground sF.itsBackgroundRemover (cv.read sF.video).2).2 ∧
      (Foreground.reset cv sF).priorPoints = sF.priorPoints ∧
      (Foreground.reset cv sF).nextPoints = sF.nextPoints ∧
      (Foreground.reset cv sF).mode = sF.mode ∧
      (Foreground.reset cv sF).state = sF.state ∧
      (Foreground.reset cv sF).night = sF.night ∧
      (Foreground.reset cv sF).position = sF.position ∧
      (Foreground.reset cv sF).shown = sF.shown) :=
  ⟨⟨hLp, rfl, rfl, rfl, rfl, rfl, rfl, rfl, rfl, rfl, rfl, rfl⟩,
    ⟨hFp, rfl, rfl, rfl, rfl, rfl, rfl, rfl, rfl, rfl⟩⟩

theorem C12_reset_seeds_witness :
    Sample.cv.getPosition (LucasKanade.reset Sample.cv Sample.lkTrack).video = 0 ∧
    (LucasKanade.reset Sample.cv Sample.lkTrack).priorGray = 101 ∧
    (LucasKanade.reset Sample.cv Sample.lkTrack).mode = Mode.TRACK ∧
    Sample.cv.getPosition (Foreground.reset Sample.cv Sample.fgTrack).video = 1 ∧
    (Foreground.reset Sample.cv Sample.fgTrack).nextGray = 102 := by
  obtain ⟨⟨h1, h2, -, -, -, -, -, h8, -⟩, ⟨h3, -, h4, -⟩⟩ :=
    C12_reset_seeds Sample.cv Sample.lkTrack (by decide) (by decide)
      Sample.fgTrack (by decide) (by decide)
  exact ⟨h1, h2, h8, h3, h4⟩

/-- C13, counterexample: on a file of 100 frames read by index, after the
trackbar callback for the position 50 the player is in STEP and one frame has
been shown, and its position is 51, not 50. -/
theorem C13_scrub_position_counterexample :
    ReadsByIndex Sample.cvFile100 100 ∧ Sample.lkFile100.frameCount = 100 ∧
    ∃ s1, LucasKanade.onTrackBar Sample.cvFile100 50 Sample.lkFile100 = some s1 ∧
      s1.state = State.STEP ∧ s1.shown.length = Sample.lkFile100.shown.length + 1 ∧
      s1.itsFrame = 51 ∧ s1.position = 51 ∧ ¬ (s1.position = 50) :=
  ⟨Sample.cvFile100_readsByIndex, rfl, _, rfl, rfl, rfl, rfl, rfl, by decide⟩

/-- C13, amended: for a Lucas-Kanade player on a file of `n` frames read by
index (a read returns the frame at the index and advances the index by one)
and every `p` with `0 <= p < n`, when `onTrackBar(p)` returns the player is
in STEP, exactly one frame has been shown, the frame read at the index `p`,
and the position of the player is `p + 1`, the index of the next frame. -/
theorem C13_scrub_shows_frame (cv : Cv V B Mat Pt) (n : Int) (hfile : ReadsByIndex cv n)
    (htr : TrackerPerPoint cv) (s : LucasKanade.LucasKanadeVideoPlayer V Mat Pt)
    (hn : s.frameCount = n) (p : Int) (hp0 : 0 ≤ p) (hpn : p < n) :
    ∃ s1, LucasKanade.onTrackBar cv p s = some s1 ∧ s1.state = State.STEP ∧
      s1.shown.length = s.shown.length + 1 ∧ s1.position = p + 1 ∧
      cv.getPosition s1.video = p + 1 ∧
      s1.itsFrame = (cv.read (cv.setPosition (cv.read (cv.setPosition s.video p)).1 p)).2 := by
  obtain ⟨hseek, hadv, hdata⟩ := hfile
  have hv : (LucasKanade.seekAndReset cv p s).video =
      cv.setPosition (cv.read (cv.setPosition s.video p)).1 p := by
    show cv.setPosition (cv.read (cv.setPosition s.video p)).1
      (cv.getPosition (cv.setPosition s.video p)) = _
    rw [hseek _ p hp0]
  have hfc : (LucasKanade.seekAndReset cv p s).frameCount ≠ 0 := by
    show s.frameCount ≠ 0
    omega
  have hpos : cv.getPosition (LucasKanade.seekAndReset cv p s).video = p := by
    rw [hv, hseek _ p hp0]
  have hd : cv.hasData (cv.read (LucasKanade.seekAndReset cv p s).video).2 = true := by
    rw [hdata, hpos]
    exact ⟨hp0, hpn⟩
  obtain ⟨hvid, hfr, hps⟩ := LucasKanade.lk_atHandleModes_source cv (LucasKanade.seekAndReset cv p s)
  obtain ⟨-, -, -, -, -, -, -, -, -, hst, hsh, -⟩ :=
    LucasKanade.lk_atHandleModes_fields cv (LucasKanade.seekAndReset cv p s)
  obtain ⟨s1, h1, -, -, -, -, -, -, -, h9, h10, -, h12, h13, -, -, h16, -⟩ :=
    LucasKanade.lk_handleModes_eq cv (LucasKanade.atHandleModes cv (LucasKanade.seekAndReset cv p s))
      (LucasKanade.lk_handleModes_of_tracker cv htr _)
  have hshow : LucasKanade.onTrackBar cv p s = some (LucasKanade.swapAndShow s1) := by
    unfold LucasKanade.onTrackBar
    rw [LucasKanade.lk_showFrame_displayed cv _ hd]
    unfold LucasKanade.beforeSwap
    rw [h1]
    rfl
  refine ⟨LucasKanade.swapAndShow s1, hshow, ?_, ?_, ?_, ?_, ?_⟩
  · show s1.state = State.STEP
    rw [h10, hst]
    rfl
  · show (s1.shown ++ [s1.image]).length = s.shown.length + 1
    rw [h13, hsh]
    simp [LucasKanade.seekAndReset, LucasKanade.reset]
  · show s1.position = p + 1
    rw [h9, hps]
    simp only [hfc, ne_eq, not_false_eq_true, if_true]
    rw [hadv, hpos]
  · show cv.getPosition s1.video = p + 1
    rw [h12, hvid, hadv, hpos]
  · show s1.itsFrame = _
    rw [h16, hfr, hv]

theorem C13_scrub_shows_frame_witness :
    ReadsByIndex Sample.cvFile100 100 ∧ TrackerPerPoint Sample.cvFile100 ∧
    ∃ s1, LucasKanade.onTrackBar Sample.cvFile100 50 Sample.lkFile100 = some s1 ∧
      s1.state = State.STEP ∧ s1.shown.length = 1 ∧ s1.position = 51 := by
  obtain ⟨s1, h1, h2, h3, h4, -⟩ :=
    C13_scrub_shows_frame Sample.cvFile100 100 Sample.cvFile100_readsByIndex
      Sample.cvFile100_trackerPerPoint Sample.lkFile100 rfl 50 (by decide) (by decide)
  exact ⟨Sample.cvFile100_readsByIndex, Sample.cvFile100_trackerPerPoint, s1, h1, h2, h3, h4⟩

/-- C14, counterexample: the key code 369 is neither q nor Q and ends the
loop; the key code 1048686 is neither n nor N and negates `night`. -/
theorem C14_key_code_counterexample :
    (369 : Int) ≠ 113 ∧ (369 : Int) ≠ 81 ∧
    LucasKanade.onKey 369 Sample.lkFresh = none ∧
    Foreground.onKey 369 Sample.fgFresh = none ∧
    LucasKanade.operatorCall Sample.cv [KeyWait.mk [] 369] Sample.lkFresh =
      Outcome.returned true
        (((LucasKanade.showFrame Sample.cv Sample.lkFresh).getD Sample.lkFresh)) ∧
    (1048686 : Int) ≠ 110 ∧ (1048686 : Int) ≠ 78 ∧
    LucasKanade.onKey 1048686 Sample.lkFresh = some { Sample.lkFresh with night := true } ∧
    LucasKanade.onKey 1048686 Sample.lkFresh ≠ some Sample.lkFresh := by
  refine ⟨by decide, by decide, rfl, rfl, rfl, by decide, by decide, rfl, ?_⟩
  intro h
  have h2 := congrArg (fun o => o.map (fun t => t.night)) h
  revert h2
  decide

/-- C14, amended: the `switch` of the main loop of both players dispatches on
the key code converted to `char`, that is on its low 8 bits.  A code whose low
8 bits are q or Q ends the loop, which returns true; n or N negates `night`;
t or T sets `mode` to TRACK; c or C sets `mode` to CLEAR; r or R sets `state`
to RUN; s or S sets `state` to STEP; each changes no other field.  A code
whose low 8 bits are none of these letters (such as -1, no key) leaves the
player unchanged and does not end the loop. -/
theorem C14_key_dispatch (cv : Cv V B Mat Pt) (k key : Int)
    (hkey : key % 256 ∉ [113, 81, 110, 78, 116, 84, 99, 67, 114, 82, 115, 83])
    (sL sL2 : LucasKanade.LucasKanadeVideoPlayer V Mat Pt)
    (sF sF2 : Foreground.FkltVideoPlayer V B Mat Pt)
    (callbacks : List Callback) (rest : List KeyWait)
    (hLo : cv.isOpened sL.video = true)
    (hLs : (LucasKanade.showFrame cv sL).bind
      (LucasKanade.run cv (callbacks.map Callback.toAction)) = some sL2)
    (hFo : cv.isOpened sF.video = true)
    (hFs : (Foreground.showFrame cv sF).bind
      (Foreground.run cv (callbacks.map Callback.toAction)) = some sF2) :
    (LucasKanade.onKey (113 + 256 * k) sL = none ∧
      LucasKanade.onKey (81 + 256 * k) sL = none ∧
      LucasKanade.onKey (110 + 256 * k) sL = some { sL with night := !sL.night } ∧
      LucasKanade.onKey (78 + 256 * k) sL = some { sL with night := !sL.night } ∧
      LucasKanade.onKey (116 + 256 * k) sL = some { sL with mode := Mode.TRACK } ∧
      LucasKanade.onKey (84 + 256 * k) sL = some { sL with mode := Mode.TRACK } ∧
      LucasKanade.onKey (99 + 256 * k) sL = some { sL with mode := Mode.CLEAR } ∧
      LucasKanade.onKey (67 + 256 * k) sL = some { sL with mode := Mode.CLEAR } ∧
      LucasKanade.onKey (114 + 256 * k) sL = some { sL with state := State.RUN } ∧
      LucasKanade.onKey (82 + 256 * k) sL = some { sL with state := State.RUN } ∧
      LucasKanade.onKey (115 + 256 * k) sL = some { sL with state := State.STEP } ∧
      LucasKanade.onKey (83 + 256 * k) sL = some { sL with state := State.STEP } ∧
      LucasKanade.onKey key sL = some sL ∧ LucasKanade.onKey (-1) sL = some sL ∧
      LucasKanade.operatorCall cv (KeyWait.mk callbacks (113 + 256 * k) :: rest) sL =
        Outcome.returned true sL2 ∧
      LucasKanade.operatorCall cv (KeyWait.mk callbacks (81 + 256 * k) :: rest) sL =
        Outcome.returned true sL2 ∧
      LucasKanade.operatorCall cv (KeyWait.mk callbacks key :: rest) sL =
        LucasKanade.operatorCall cv rest sL2) ∧
    (Foreground.onKey (113 + 256 * k) sF = none ∧
      Foreground.onKey (81 + 256 * k) sF = none ∧
      Foreground.onKey (110 + 256 * k) sF = some { sF with night := !sF.night } ∧
      Foreground.onKey (78 + 256 * k) sF = some { sF with night := !sF.night } ∧
      Foreground.onKey (116 + 256 * k) sF = some { sF with mode := Mode.TRACK } ∧
      Foreground.onKey (84 + 256 * k) sF = some { sF with mode := Mode.TRACK } ∧
      Foreground.onKey (99 + 256 * k) sF = some { sF with mode := Mode.CLEAR } ∧
      Foreground.onKey (67 + 256 * k) sF = some { sF with mode := Mode.CLEAR } ∧
      Foreground.onKey (114 + 256 * k) sF = some { sF with state := State.RUN } ∧
      Foreground.onKey (82 + 256 * k) sF = some { sF with state := State.RUN } ∧
      Foreground.onKey (115 + 256 * k) sF = some { sF with state := State.STEP } ∧
      Foreground.onKey (83 + 256 * k) sF = some { sF with state := State.STEP } ∧
      Foreground.onKey key sF = some sF ∧ Foreground.onKey (-1) sF = some sF ∧
      Foreground.operatorCall cv (KeyWait.mk callbacks (113 + 256 * k) :: rest) sF =
        Outcome.returned true sF2 ∧
      Foreground.operatorCall cv (KeyWait.mk callbacks (81 + 256 * k) :: rest) sF =
        Outcome.returned true sF2 ∧
      Foreground.operatorCall cv (KeyWait.mk callbacks key :: rest) sF =
        Foreground.operatorCall cv rest sF2) := by
  have e : ∀ c : Int, 0 ≤ c → c < 256 → (c + 256 * k) % 256 = c := by
    intro c h0 h1
    omega
  simp only [List.mem_cons, List.mem_singleton, List.not_mem_nil, or_false, not_or] at hkey
  obtain ⟨k1, k2, k3, k4, k5, k6, k7, k8, k9, k10, k11, k12⟩ := hkey
  have lq : ∀ t : LucasKanade.LucasKanadeVideoPlayer V Mat Pt,
      LucasKanade.onKey (113 + 256 * k) t = none := by
    intro t
    simp [LucasKanade.onKey, e 113 (by decide) (by decide)]
  have lQ : ∀ t : LucasKanade.LucasKanadeVideoPlayer V Mat Pt,
      LucasKanade.onKey (81 + 256 * k) t = none := by
    intro t
    simp [LucasKanade.onKey, e 81 (by decide) (by decide)]
  have lo : ∀ t : LucasKanade.LucasKanadeVideoPlayer V Mat Pt,
      LucasKanade.onKey key t = some t := by
    intro t
    simp [LucasKanade.onKey, k1, k2, k3, k4, k5, k6, k7, k8, k9, k10, k11, k12]
  have fq : ∀ t : Foreground.FkltVideoPlayer V B Mat Pt,
      Foreground.onKey (113 + 256 * k) t = none := by
    intro t
    simp [Foreground.onKey, e 113 (by decide) (by decide)]
  have fQ : ∀ t : Foreground.FkltVideoPlayer V B Mat Pt,
      Foreground.onKey (81 + 256 * k) t = none := by
    intro t
    simp [Foreground.onKey, e 81 (by decide) (by decide)]
  have fo : ∀ t : Foreground.FkltVideoPlayer V B Mat Pt,
      Foreground.onKey key t = some t := by
    intro t
    simp [Foreground.onKey, k1, k2, k3, k4, k5, k6, k7, k8, k9, k10, k11, k12]
  refine ⟨⟨lq sL, lQ sL, ?_, ?_, ?_, ?_, ?_, ?_, ?_, ?_, ?_, ?_, lo sL, ?_, ?_, ?_, ?_⟩,
    ⟨fq sF, fQ sF, ?_, ?_, ?_, ?_, ?_, ?_, ?_, ?_, ?_, ?_, fo sF, ?_, ?_, ?_, ?_⟩⟩
  · simp [LucasKanade.onKey, e 110 (by decide) (by decide)]
  · simp [LucasKanade.onKey, e 78 (by decide) (by decide)]
  · simp [LucasKanade.onKey, e 116 (by decide) (by decide)]
  · simp [LucasKanade.onKey, e 84 (by decide) (by decide)]
  · simp [LucasKanade.onKey, e 99 (by decide) (by decide)]
  · simp [LucasKanade.onKey, e 67 (by decide) (by decide)]
  · simp [LucasKanade.onKey, e 114 (by decide) (by decide)]
  · simp [LucasKanade.onKey, e 82 (by decide) (by decide)]
  · simp [LucasKanade.onKey, e 115 (by decide) (by decide)]
  · simp [LucasKanade.onKey, e 83 (by decide) (by decide)]
  · simp [LucasKanade.onKey]
  · simp [LucasKanade.operatorCall, hLo, hLs, lq sL2]
  · simp [LucasKanade.operatorCall, hLo, hLs, lQ sL2]
  · simp [LucasKanade.operatorCall, hLo, hLs, lo sL2]
  · simp [Foreground.onKey, e 110 (by decide) (by decide)]
  · simp [Foreground.onKey, e 78 (by decide) (by decide)]
  · simp [Foreground.onKey, e 116 (by decide) (by decide)]
  · simp [Foreground.onKey, e 84 (by decide) (by decide)]
  · simp [Foreground.onKey, e 99 (by decide) (by decide)]
  · simp [Foreground.onKey, e 67 (by decide) (by decide)]
  · simp [Foreground.onKey, e 114 (by decide) (by decide)]
  · simp [Foreground.onKey, e 82 (by decide) (by decide)]
  · simp [Foreground.onKey, e 115 (by decide) (by decide)]
  · simp [Foreground.onKey, e 83 (by decide) (by decide)]
  · simp [Foreground.onKey]
  · simp [Foreground.operatorCall, hFo, hFs, fq sF2]
  · simp [Foreground.operatorCall, hFo, hFs, fQ sF2]
  · simp [Foreground.operatorCall, hFo, hFs, fo sF2]

theorem C14_key_dispatch_witness :
    (-1 : Int) % 256 ∉ [113, 81, 110, 78, 116, 84, 99, 67, 114, 82, 115, 83] ∧
    LucasKanade.onKey (113 + 256 * 4096) Sample.lkFresh = none ∧
    LucasKanade.onKey (-1) Sample.lkFresh = some Sample.lkFresh ∧
    Foreground.onKey (116 + 256 * 4096) Sample.fgFresh =
      some { Sample.fgFresh with mode := Mode.TRACK } ∧
    Foreground.operatorCall Sample.cv [KeyWait.mk [Callback.mouse 1 120 80] (81 + 256 * 4096)]
        Sample.fgFresh =
      Outcome.returned true
        (((Foreground.showFrame Sample.cv Sample.fgFresh).bind
          (Foreground.run Sample.cv
            ([Callback.mouse 1 120 80].map Callback.toAction))).getD Sample.fgFresh) := by
  obtain ⟨⟨h1, -, -, -, -, -, -, -, -, -, -, -, -, h14, -⟩,
      ⟨-, -, -, -, h5, -, -, -, -, -, -, -, -, -, -, h16, -⟩⟩ :=
    C14_key_dispatch Sample.cv 4096 (-1) (by decide)
      Sample.lkFresh
      (((LucasKanade.showFrame Sample.cv Sample.lkFresh).bind
        (LucasKanade.run Sample.cv
          ([Callback.mouse 1 120 80].map Callback.toAction))).getD Sample.lkFresh)
      Sample.fgFresh
      (((Foreground.showFrame Sample.cv Sample.fgFresh).bind
        (Foreground.run Sample.cv
          ([Callback.mouse 1 120 80].map Callback.toAction))).getD Sample.fgFresh)
      [Callback.mouse 1 120 80] [] rfl rfl rfl rfl
  exact ⟨by decide, h1, h14, h5, h16⟩

/-- C15: `onMouseClick` of both players, on a left-button-down event (event
1) at (x, y), sets `newPoint` to the point (x, y) and `mode` to POINT and
changes no other field; on every other event it leaves the player as it is. -/
theorem C15_mouse_click (cv : Cv V B Mat Pt) (event x y : Int) (hev : event ≠ 1)
    (sL : LucasKanade.LucasKanadeVideoPlayer V Mat Pt)
    (sF : Foreground.FkltVideoPlayer V B Mat Pt) :
    (LucasKanade.onMouseClick cv 1 x y sL =
        { sL with newPoint := cv.point2f x y, mode := Mode.POINT } ∧
      (LucasKanade.onMouseClick cv 1 x y sL).newPoint = cv.point2f x y ∧
      (LucasKanade.onMouseClick cv 1 x y sL).mode = Mode.POINT ∧
      (LucasKanade.onMouseClick cv 1 x y sL).priorPoints = sL.priorPoints ∧
      (LucasKanade.onMouseClick cv 1 x y sL).nextPoints = sL.nextPoints ∧
      (LucasKanade.onMouseClick cv 1 x y sL).state = sL.state ∧
      (LucasKanade.onMouseClick cv 1 x y sL).night = sL.night ∧
      (LucasKanade.onMouseClick cv 1 x y sL).position = sL.position ∧
      LucasKanade.onMouseClick cv event x y sL = sL) ∧
    (Foreground.onMouseClick cv 1 x y sF =
        { sF with newPoint := cv.point2f x y, mode := Mode.POINT } ∧
      (Foreground.onMouseClick cv 1 x y sF).newPoint = cv.point2f x y ∧
      (Foreground.onMouseClick cv 1 x y sF).mode = Mode.POINT ∧
      (Foreground.onMouseClick cv 1 x y sF).priorPoints = sF.priorPoints ∧
      (Foreground.onMouseClick cv 1 x y sF).nextPoints = sF.nextPoints ∧
      (Foreground.onMouseClick cv 1 x y sF).state = sF.state ∧
      (Foreground.onMouseClick cv 1 x y sF).night = sF.night ∧
      (Foreground.onMouseClick cv 1 x y sF).position = sF.position ∧
      Foreground.onMouseClick cv event x y sF = sF) := by
  have hL : LucasKanade.onMouseClick cv 1 x y sL =
      { sL with newPoint := cv.point2f x y, mode := Mode.POINT } := by
    simp [LucasKanade.onMouseClick]
  have hF : Foreground.onMouseClick cv 1 x y sF =
      { sF with newPoint := cv.point2f x y, mode := Mode.POINT } := by
    simp [Foreground.onMouseClick]
  refine ⟨⟨hL, ?_, ?_, ?_, ?_, ?_, ?_, ?_, ?_⟩, ⟨hF, ?_, ?_, ?_, ?_, ?_, ?_, ?_, ?_⟩⟩
  any_goals rw [hL]
  any_goals rw [hF]
  · simp [LucasKanade.onMouseClick, hev]
  · simp [Foreground.onMouseClick, hev]

theorem C15_mouse_click_witness :
    (LucasKanade.onMouseClick Sample.cv 1 120 80 Sample.lkTracking).newPoint = (120, 80) ∧
    (LucasKanade.onMouseClick Sample.cv 1 120 80 Sample.lkTracking).mode = Mode.POINT ∧
    LucasKanade.onMouseClick Sample.cv 0 120 80 Sample.lkTracking = Sample.lkTracking ∧
    Foreground.onMouseClick Sample.cv 0 120 80 Sample.fgTracking = Sample.fgTracking := by
  obtain ⟨⟨-, h2, h3, -, -, -, -, -, h9⟩, ⟨-, -, -, -, -, -, -, -, h18⟩⟩ :=
    C15_mouse_click Sample.cv 0 120 80 (by decide) Sample.lkTracking Sample.fgTracking
  exact ⟨h2, h3, h9, h18⟩

/-- C16, counterexample: the code 0x41004141 (bytes A, A, 0, A) is a 32-bit
code; its string stops at the zero byte and re-encodes to 0x4141. -/
theorem C16_fourcc_roundtrip_counterexample :
    (-2147483648 : Int) ≤ 1090535745 ∧ (1090535745 : Int) < 2147483648 ∧
    CvVideoCapture.getFourCcCodecString 1090535745 = [65, 65] ∧
    fourCcOfString (CvVideoCapture.getFourCcCodecString 1090535745) = 16705 ∧
    fourCcOfString (CvVideoCapture.getFourCcCodecString 1090535745) % 4294967296 ≠
      1090535745 % 4294967296 := by
  decide

/-- C16, amended: for a 32-bit code `c`, re-encoding the string returned by
`getFourCcCodecString` as a little-endian integer gives back the 32 bits of
`c` exactly when no byte of `c` that is not zero comes after a zero byte; in
particular for every code whose four bytes are not zero.  The result is then
`c` itself when `c` is not negative, and `c` read as a signed 32-bit integer
in general. -/
theorem C16_fourcc_roundtrip (c : Int) (hlo : -2147483648 ≤ c) (hhi : c < 2147483648) :
    (fourCcOfString (CvVideoCapture.getFourCcCodecString c) = c % 4294967296 ↔
      (((c >>> (0 : Nat)) % 256 = 0 → (c >>> (8 : Nat)) % 256 = 0) ∧
        ((c >>> (8 : Nat)) % 256 = 0 → (c >>> (16 : Nat)) % 256 = 0) ∧
        ((c >>> (16 : Nat)) % 256 = 0 → (c >>> (24 : Nat)) % 256 = 0))) ∧
    (fourCcOfString (CvVideoCapture.getFourCcCodecString c) = c % 4294967296 →
      (0 ≤ c → fourCcOfString (CvVideoCapture.getFourCcCodecString c) = c) ∧
      (fourCcOfString (CvVideoCapture.getFourCcCodecString c) + 2147483648) % 4294967296
        - 2147483648 = c) := by
  obtain ⟨h0, h1, h2, h3⟩ := fourCc_shifts c
  rw [h0, h1, h2, h3]
  constructor
  · rw [fourCc_string_eq]
    by_cases a0 : c % 256 = 0 <;> by_cases a1 : c / 256 % 256 = 0 <;>
      by_cases a2 : c / 65536 % 256 = 0 <;> by_cases a3 : c / 16777216 % 256 = 0 <;>
      simp [List.takeWhile, fourCcOfString, a0, a1, a2, a3] <;> omega
  · intro h
    rw [h]
    constructor
    · intro hc
      omega
    · omega

theorem C16_fourcc_roundtrip_witness :
    CvVideoCapture.getFourCcCodecString 875967048 = [72, 50, 54, 52] ∧
    fourCcOfString (CvVideoCapture.getFourCcCodecString 875967048) = 875967048 ∧
    (fourCcOfString (CvVideoCapture.getFourCcCodecString (-1)) + 2147483648) % 4294967296
      - 2147483648 = -1 := by
  have h := C16_fourcc_roundtrip 875967048 (by decide) (by decide)
  have h2 := C16_fourcc_roundtrip (-1) (by decide) (by decide)
  exact ⟨by decide, (h.2 (h.1.mpr (by decide))).1 (by decide),
    (h2.2 (h2.1.mpr (by decide))).2⟩

/-- C17, counterexample: the string of the code 0 is empty and the string of
the code 0x41004141 has two bytes: a zero byte ends the string. -/
theorem C17_fourcc_length_counterexample :
    CvVideoCapture.getFourCcCodecString 0 = [] ∧
    (CvVideoCapture.getFourCcCodecString 0).length ≠ 4 ∧
    CvVideoCapture.getFourCcCodecString 1090535745 = [65, 65] ∧
    ((1090535745 : Int) >>> (24 : Nat)) % 256 = 65 ∧
    (CvVideoCapture.getFourCcCodecString 1090535745)[3]? = none := by
  decide

/-- C17, amended: for every code `c` (negative or not) whose four bytes
`(c >> 8*i) & 0xff` are not zero, `getFourCcCodecString` returns a string of
exactly 4 bytes whose i-th byte is `(c >> 8*i) & 0xff`; for every code, the
string holds these bytes up to, not including, the first zero byte. -/
theorem C17_fourcc_bytes (c : Int) (hnz : ∀ i : Nat, i < 4 → (c >>> (8 * i)) % 256 ≠ 0)
    (d : Int) :
    ((CvVideoCapture.getFourCcCodecString c).length = 4 ∧
      ∀ i : Nat, i < 4 →
        (CvVideoCapture.getFourCcCodecString c)[i]? = some ((c >>> (8 * i)) % 256)) ∧
    (CvVideoCapture.getFourCcCodecString d =
        [(d >>> (0 : Nat)) % 256, (d >>> (8 : Nat)) % 256, (d >>> (16 : Nat)) % 256,
          (d >>> (24 : Nat)) % 256].takeWhile (fun b => b ≠ 0) ∧
      (CvVideoCapture.getFourCcCodecString d).length ≤ 4 ∧
      ∀ b ∈ CvVideoCapture.getFourCcCodecString d, 1 ≤ b ∧ b ≤ 255) := by
  have general : ∀ e : Int, CvVideoCapture.getFourCcCodecString e =
      [(e >>> (0 : Nat)) % 256, (e >>> (8 : Nat)) % 256, (e >>> (16 : Nat)) % 256,
        (e >>> (24 : Nat)) % 256].takeWhile (fun b => b ≠ 0) := by
    intro e
    obtain ⟨h0, h1, h2, h3⟩ := fourCc_shifts e
    rw [fourCc_string_eq, h0, h1, h2, h3]
  constructor
  · have a0 : (c >>> (0 : Nat)) % 256 ≠ 0 := hnz 0 (by decide)
    have a1 : (c >>> (8 : Nat)) % 256 ≠ 0 := hnz 1 (by decide)
    have a2 : (c >>> (16 : Nat)) % 256 ≠ 0 := hnz 2 (by decide)
    have a3 : (c >>> (24 : Nat)) % 256 ≠ 0 := hnz 3 (by decide)
    have hs : CvVideoCapture.getFourCcCodecString c =
        [(c >>> (0 : Nat)) % 256, (c >>> (8 : Nat)) % 256, (c >>> (16 : Nat)) % 256,
          (c >>> (24 : Nat)) % 256] := by
      rw [general, List.takeWhile_cons_of_pos (by simpa using a0),
        List.takeWhile_cons_of_pos (by simpa using a1),
        List.takeWhile_cons_of_pos (by simpa using a2),
        List.takeWhile_cons_of_pos (by simpa using a3), List.takeWhile_nil]
    rw [hs]
    refine ⟨rfl, fun i hi => ?_⟩
    interval_cases i <;> simp
  · refine ⟨general d, ?_, ?_⟩
    · rw [general]
      exact (List.takeWhile_sublist _).length_le
    · intro b hb
      rw [fourCc_string_eq] at hb
      have hm := List.mem_takeWhile_imp hb
      have hmem := (List.takeWhile_sublist _).subset hb
      simp only [ne_eq, decide_not, Bool.not_eq_eq_eq_not, Bool.not_true, decide_eq_false_iff_not]
        at hm
      simp only [List.mem_cons, List.mem_singleton, List.not_mem_nil, or_false] at hmem
      rcases hmem with h | h | h | h <;> omega

theorem C17_fourcc_bytes_witness :
    CvVideoCapture.getFourCcCodecString 875967048 = [72, 50, 54, 52] ∧
    (CvVideoCapture.getFourCcCodecString 875967048).length = 4 ∧
    (CvVideoCapture.getFourCcCodecString (-1))[3]? = some 255 := by
  have h := (C17_fourcc_bytes 875967048 (by decide) 0).1
  have h2 := (C17_fourcc_bytes (-1) (by decide) 0).1
  exact ⟨by decide, h.1, h2.2 3 (by decide)⟩

/-- C18, counterexample: a source that reports the `double` nearest to 0.1 as
its frame rate.  That `double` is above 0.1, so the floor of `1000 / f` is
9999, but the quotient of the `double`s 1000 and f is rounded to 10000: the
constructors set `msDelay` to 10000.  And for a source that reports -3 the
floor of `1000 / f` is -334, but the conversion to `int` truncates toward
zero: the constructors set `msDelay` to -333. -/
theorem C18_msDelay_floor_counterexample :
    Sample.cvTenth.propFps (Sample.cvTenth.openFile Sample.fileName) = doubleTenth ∧
    (1 : ℚ) / 10 < doubleTenth ∧
    CvVideoCapture.getFramesPerSecond Sample.cvTenth (Sample.cvTenth.openFile Sample.fileName) =
      doubleTenth ∧
    ⌊1000 / CvVideoCapture.getFramesPerSecond Sample.cvTenth
      (Sample.cvTenth.openFile Sample.fileName)⌋ = 9999 ∧
    (∃ s, LucasKanade.playerOfFile Sample.cvTenth Sample.fileName Mode.NONE = some s ∧
      s.msDelay = 10000 ∧
      s.msDelay ≠ ⌊1000 / CvVideoCapture.getFramesPerSecond Sample.cvTenth
        (Sample.cvTenth.openFile Sample.fileName)⌋) ∧
    (∃ s, Foreground.playerOfFile Sample.cvTenth Sample.fileName Mode.NONE = some s ∧
      s.msDelay = 10000) ∧
    Sample.cvReverse.propFps (Sample.cvReverse.openCamera (-1)) = -3 ∧
    ⌊1000 / CvVideoCapture.getFramesPerSecond Sample.cvReverse
      (Sample.cvReverse.openCamera (-1))⌋ = -334 ∧
    (∃ s, LucasKanade.playerOfCamera Sample.cvReverse (-1) Mode.NONE = some s ∧
      s.msDelay = -333 ∧
      s.msDelay ≠ ⌊1000 / CvVideoCapture.getFramesPerSecond Sample.cvReverse
        (Sample.cvReverse.openCamera (-1))⌋) ∧
    (∃ s, Foreground.playerOfCamera Sample.cvReverse (-1) Mode.NONE = some s ∧
      s.msDelay = -333) := by
  have f1 : ∀ v, CvVideoCapture.getFramesPerSecond Sample.cvTenth v = doubleTenth := by
    intro v
    norm_num [CvVideoCapture.getFramesPerSecond, Sample.cvTenth, doubleTenth]
  have f2 : ∀ v, CvVideoCapture.getFramesPerSecond Sample.cvReverse v = -3 := by
    intro v
    norm_num [CvVideoCapture.getFramesPerSecond, Sample.cvReverse]
  have fl1 : ⌊1000 / doubleTenth⌋ = 9999 := by
    rw [Int.floor_eq_iff]
    norm_num [doubleTenth]
  have fl2 : ⌊(1000 : ℚ) / (-3)⌋ = -334 := by
    rw [Int.floor_eq_iff]
    norm_num
  have a1 := lk_playerOfFile_msDelay Sample.cvTenth Sample.fileName Mode.NONE
  have a2 := fg_playerOfFile_msDelay Sample.cvTenth Sample.fileName Mode.NONE
  have a3 := lk_playerOfCamera_msDelay Sample.cvReverse (-1) Mode.NONE
  have a4 := fg_playerOfCamera_msDelay Sample.cvReverse (-1) Mode.NONE
  rw [Sample.cvTenth_msDelay] at a1 a2
  rw [Sample.cvReverse_msDelay] at a3 a4
  obtain ⟨s1, h1, e1⟩ := Option.map_eq_some'.mp a1
  obtain ⟨s2, h2, e2⟩ := Option.map_eq_some'.mp a2
  obtain ⟨s3, h3, e3⟩ := Option.map_eq_some'.mp a3
  obtain ⟨s4, h4, e4⟩ := Option.map_eq_some'.mp a4
  refine ⟨rfl, by norm_num [doubleTenth], f1 _, by rw [f1, fl1], ⟨s1, h1, e1, ?_⟩, ⟨s2, h2, e2⟩,
    rfl, by rw [f2, fl2], ⟨s3, h3, e3, ?_⟩, ⟨s4, h4, e4⟩⟩
  · rw [f1, fl1, e1]
    decide
  · rw [f2, fl2, e3]
    decide

/-- C18, amended: `msDelay` computed at construction is the conversion to
`int`, which truncates toward zero, of the quotient of the `double`s 1000 and
f (the exact quotient rounded to the nearest `double`), where f is 30 when
the source reports a frame rate of 0 and the reported rate otherwise; a
constructor has a result exactly when that conversion has one.  It is 33
when the source reports 0.  For f above 0 it is the floor of `1000 / f` or
that floor plus 1; it exists when the floor is below the largest `int`, and
it is the floor when `1000 / f` is not more than half above its floor; it is
the floor plus 1 only when `1000 / f` is below that integer by not more than
`2 ^ (-53)` times `1000 / f`, so that the quotient of the `double`s is rounded
up to it.  For f below 0 it is the ceiling of `1000 / f` or that ceiling
minus 1. -/
theorem C18_msDelay_of_quotient (cv : Cv V B Mat Pt) (t : String) (n : Int) (mode : Mode) :
    (LucasKanade.playerOfFile cv t mode).map (fun s => s.msDelay) =
      msDelayOfFps (CvVideoCapture.getFramesPerSecond cv (cv.openFile t)) ∧
    (Foreground.playerOfFile cv t mode).map (fun s => s.msDelay) =
      msDelayOfFps (CvVideoCapture.getFramesPerSecond cv (cv.openFile t)) ∧
    (LucasKanade.playerOfCamera cv n mode).map (fun s => s.msDelay) =
      msDelayOfFps (CvVideoCapture.getFramesPerSecond cv (cv.openCamera n)) ∧
    (Foreground.playerOfCamera cv n mode).map (fun s => s.msDelay) =
      msDelayOfFps (CvVideoCapture.getFramesPerSecond cv (cv.openCamera n)) ∧
    (∀ v : V, CvVideoCapture.getFramesPerSecond cv v =
      (if cv.propFps v = 0 then 30 else cv.propFps v)) ∧
    (∀ f : ℚ, msDelayOfFps f = (divDouble 1000 f).bind doubleToInt) ∧
    (∀ v : V, cv.propFps v = 0 →
      msDelayOfFps (CvVideoCapture.getFramesPerSecond cv v) = some 33) ∧
    (cv.propFps (cv.openFile t) = 0 →
      (∃ s, LucasKanade.playerOfFile cv t mode = some s ∧ s.msDelay = 33) ∧
      (∃ s, Foreground.playerOfFile cv t mode = some s ∧ s.msDelay = 33)) ∧
    (cv.propFps (cv.openCamera n) = 0 →
      (∃ s, LucasKanade.playerOfCamera cv n mode = some s ∧ s.msDelay = 33) ∧
      (∃ s, Foreground.playerOfCamera cv n mode = some s ∧ s.msDelay = 33)) ∧
    (∀ f : ℚ, 0 < f →
      (∀ d, msDelayOfFps f = some d → d = ⌊1000 / f⌋ ∨ d = ⌊1000 / f⌋ + 1) ∧
      (⌊1000 / f⌋ + 1 ≤ 2147483647 → ∃ d, msDelayOfFps f = some d) ∧
      (1000 / f ≤ ⌊1000 / f⌋ + 1 / 2 → ⌊1000 / f⌋ ≤ 2147483647 →
        msDelayOfFps f = some ⌊1000 / f⌋) ∧
      (msDelayOfFps f = some (⌊1000 / f⌋ + 1) →
        (⌊1000 / f⌋ : ℚ) + 1 / 2 < 1000 / f ∧
        (⌊1000 / f⌋ : ℚ) + 1 - 1000 / f ≤ 1000 / f * 2 ^ (-53 : Int))) ∧
    (∀ f : ℚ, f < 0 →
      ∀ d, msDelayOfFps f = some d → d = ⌈1000 / f⌉ ∨ d = ⌈1000 / f⌉ - 1) := by
  have thirty : ∀ v : V, cv.propFps v = 0 →
      msDelayOfFps (CvVideoCapture.getFramesPerSecond cv v) = some 33 := by
    intro v hz
    rw [getFramesPerSecond_eq, if_pos hz]
    exact msDelayOfFps_thirty
  have a1 := lk_playerOfFile_msDelay cv t mode
  have a2 := fg_playerOfFile_msDelay cv t mode
  have a3 := lk_playerOfCamera_msDelay cv n mode
  have a4 := fg_playerOfCamera_msDelay cv n mode
  refine ⟨a1, a2, a3, a4, getFramesPerSecond_eq cv, fun _ => rfl, thirty, fun hz => ⟨?_, ?_⟩,
    fun hz => ⟨?_, ?_⟩, fun f hf => ?_, msDelayOfFps_neg⟩
  · rw [thirty _ hz] at a1
    obtain ⟨s, h, e⟩ := Option.map_eq_some'.mp a1
    exact ⟨s, h, e⟩
  · rw [thirty _ hz] at a2
    obtain ⟨s, h, e⟩ := Option.map_eq_some'.mp a2
    exact ⟨s, h, e⟩
  · rw [thirty _ hz] at a3
    obtain ⟨s, h, e⟩ := Option.map_eq_some'.mp a3
    exact ⟨s, h, e⟩
  · rw [thirty _ hz] at a4
    obtain ⟨s, h, e⟩ := Option.map_eq_some'.mp a4
    exact ⟨s, h, e⟩
  · obtain ⟨p1, p2, p3⟩ := msDelayOfFps_pos f hf
    exact ⟨p1, p2, p3, msDelayOfFps_rounded_up f hf⟩

theorem C18_msDelay_of_quotient_witness :
    Sample.cv.propFps (Sample.cv.openFile Sample.fileName) = 0 ∧
    Sample.cv.propFps (Sample.cv.openCamera (-1)) = 0 ∧
    (∃ s, LucasKanade.playerOfFile Sample.cv Sample.fileName Mode.NONE = some s ∧
      s.msDelay = 33) ∧
    (∃ s, Foreground.playerOfCamera Sample.cv (-1) Mode.NONE = some s ∧ s.msDelay = 33) ∧
    (0 : ℚ) < 2000 ∧ msDelayOfFps 2000 = some ⌊(1000 : ℚ) / 2000⌋ ∧
    (-3 : ℚ) < 0 ∧ msDelayOfFps (-3) = some (-333) ∧
    ((-333 : Int) = ⌈(1000 : ℚ) / (-3)⌉ ∨ (-333 : Int) = ⌈(1000 : ℚ) / (-3)⌉ - 1) := by
  obtain ⟨-, -, -, -, -, -, -, hfile, hcam, hpos, hneg⟩ :=
    C18_msDelay_of_quotient Sample.cv Sample.fileName (-1) Mode.NONE
  have hfl : ⌊(1000 : ℚ) / 2000⌋ = 0 := by
    rw [Int.floor_eq_iff]
    norm_num
  exact ⟨rfl, rfl, (hfile rfl).1, (hcam rfl).2, by norm_num,
    (hpos 2000 (by norm_num)).2.2.1 (by rw [hfl]; norm_num) (by rw [hfl]; norm_num),
    by norm_num, msDelayOfFps_minus_three,
    hneg (-3) (by norm_num) (-333) msDelayOfFps_minus_three⟩

/-- C19, the code at a failing input: the argument of the key wait is 0 in
STEP and `msDelay` in RUN.  For a source that reports 2000 frames per second
the constructors set `msDelay` to 0, so the player made on a camera (both
players) or on a file (foreground player), which is in RUN, calls the key
wait with the argument 0, the argument of STEP: it waits for a key for ever. -/
theorem C19_run_waits_for_ever :
    (∀ s : LucasKanade.LucasKanadeVideoPlayer (List Nat × Nat) Nat (Int × Int),
      LucasKanade.waitArgument s = if s.state = State.RUN then s.msDelay else 0) ∧
    (∀ s : Foreground.FkltVideoPlayer (List Nat × Nat) Nat Nat (Int × Int),
      Foreground.waitArgument s = if s.state = State.RUN then s.msDelay else 0) ∧
    Sample.cvFast.propFps (Sample.cvFast.openCamera (-1)) = 2000 ∧
    (∃ s, LucasKanade.playerOfCamera Sample.cvFast (-1) Mode.NONE = some s ∧
      s.state = State.RUN ∧ s.msDelay = 0 ∧ LucasKanade.waitArgument s = 0 ∧
      waitsForEver (LucasKanade.waitArgument s) = true) ∧
    (∃ s, Foreground.playerOfCamera Sample.cvFast (-1) Mode.NONE = some s ∧
      s.state = State.RUN ∧ s.msDelay = 0 ∧ Foreground.waitArgument s = 0 ∧
      waitsForEver (Foreground.waitArgument s) = true) ∧
    (∃ s, Foreground.playerOfFile Sample.cvFast Sample.fileName Mode.NONE = some s ∧
      s.state = State.RUN ∧ s.msDelay = 0 ∧ Foreground.waitArgument s = 0 ∧
      waitsForEver (Foreground.waitArgument s) = true) := by
  refine ⟨fun s => rfl, fun s => rfl, rfl, ?_, ?_, ?_⟩
  · unfold LucasKanade.playerOfCamera
    simp only [Sample.cvFast_msDelay, Option.map_some']
    exact ⟨_, rfl, rfl, rfl, rfl, rfl⟩
  · unfold Foreground.playerOfCamera
    simp only [Sample.cvFast_msDelay, Option.map_some']
    exact ⟨_, rfl, rfl, rfl, rfl, rfl⟩
  · unfold Foreground.playerOfFile
    simp only [Sample.cvFast_msDelay, Option.map_some']
    exact ⟨_, rfl, rfl, rfl, rfl, rfl⟩

/-- C20, counterexample: a source opened by name that reports no frame count
gives a player, of either kind, with `frameCount` 0 and a trackbar. -/
theorem C20_trackbar_counterexample :
    (∃ s, LucasKanade.playerOfFile Sample.cvStream Sample.fileName Mode.NONE = some s ∧
      Sample.cvStream.isOpened s.video = true ∧ s.frameCount = 0 ∧
      s.trackbar = some 0 ∧ s.trackbar ≠ none) ∧
    (∃ s, Foreground.playerOfFile Sample.cvStream Sample.fileName Mode.NONE = some s ∧
      Sample.cvStream.isOpened s.video = true ∧ s.frameCount = 0 ∧
      s.trackbar = some 0 ∧ s.trackbar ≠ none) := by
  constructor
  · unfold LucasKanade.playerOfFile
    simp only [Sample.cvStream_msDelay, Option.map_some']
    exact ⟨_, rfl, rfl, rfl, rfl, by decide⟩
  · unfold Foreground.playerOfFile
    simp only [Sample.cvStream_msDelay, Option.map_some']
    exact ⟨_, rfl, rfl, rfl, rfl, by decide⟩

/-- C20, amended: a successfully opened player made from a file name has the
"Position" trackbar whatever frame count the source reports, so it has it
when `frameCount` is not 0; a player made from a camera has `frameCount` 0
and no trackbar, it never gets one, and its trackbar callback never runs: a
move of the trackbar does not reach it. -/
theorem C20_trackbar_by_constructor (cv : Cv V B Mat Pt) (t : String) (n : Int) (mode : Mode)
    (hoF : cv.isOpened (cv.openFile t) = true) (_hoC : cv.isOpened (cv.openCamera n) = true)
    (sLf sLc : LucasKanade.LucasKanadeVideoPlayer V Mat Pt)
    (hLf : LucasKanade.playerOfFile cv t mode = some sLf)
    (hLc : LucasKanade.playerOfCamera cv n mode = some sLc)
    (sFf sFc : Foreground.FkltVideoPlayer V B Mat Pt)
    (hFf : Foreground.playerOfFile cv t mode = some sFf)
    (hFc : Foreground.playerOfCamera cv n mode = some sFc) :
    (sLf.trackbar = some 0 ∧ sLf.frameCount = cv.getFrameCount (cv.openFile t) ∧
      sLc.trackbar = none ∧ sLc.frameCount = 0 ∧
      ∀ acts s1, LucasKanade.run cv acts sLc = some s1 →
        s1.trackbar = none ∧ s1.frameCount = 0 ∧
        ∀ p, LucasKanade.frameInput cv (Action.drag p) s1 = none ∧
          LucasKanade.act cv (Action.drag p) s1 = some s1) ∧
    (sFf.trackbar = some 0 ∧ sFf.frameCount = cv.getFrameCount (cv.openFile t) ∧
      sFc.trackbar = none ∧ sFc.frameCount = 0 ∧
      ∀ acts s1, Foreground.run cv acts sFc = some s1 →
        s1.trackbar = none ∧ s1.frameCount = 0 ∧
        ∀ p, Foreground.frameInput cv (Action.drag p) s1 = none ∧
          Foreground.act cv (Action.drag p) s1 = some s1) := by
  constructor
  · unfold LucasKanade.playerOfFile at hLf
    unfold LucasKanade.playerOfCamera at hLc
    obtain ⟨d, -, hf⟩ := Option.map_eq_some'.mp hLf
    obtain ⟨e, -, hc⟩ := Option.map_eq_some'.mp hLc
    simp only [LucasKanade.initialPlayer, hoF, if_true] at hf
    have hct : sLc.trackbar = none ∧ sLc.frameCount = 0 := by
      rw [← hc]
      simp only [LucasKanade.initialPlayer]
      split <;> exact ⟨rfl, rfl⟩
    refine ⟨by rw [← hf]; rfl, by rw [← hf]; rfl, hct.1, hct.2, fun acts s1 h1 => ?_⟩
    obtain ⟨ht, hfc⟩ := LucasKanade.lk_run_no_trackbar cv acts sLc s1 hct.1 h1
    refine ⟨ht, hfc.trans hct.2, fun p => ⟨?_, ?_⟩⟩
    · simp [LucasKanade.frameInput, ht]
    · simp [LucasKanade.act, ht]
  · unfold Foreground.playerOfFile at hFf
    unfold Foreground.playerOfCamera at hFc
    obtain ⟨d, -, hf⟩ := Option.map_eq_some'.mp hFf
    obtain ⟨e, -, hc⟩ := Option.map_eq_some'.mp hFc
    simp only [Foreground.initialPlayer, hoF, if_true] at hf
    have hct : sFc.trackbar = none ∧ sFc.frameCount = 0 := by
      rw [← hc]
      simp only [Foreground.initialPlayer]
      split <;> exact ⟨rfl, rfl⟩
    refine ⟨by rw [← hf]; rfl, by rw [← hf]; rfl, hct.1, hct.2, fun acts s1 h1 => ?_⟩
    obtain ⟨ht, hfc⟩ := Foreground.fg_run_no_trackbar cv acts sFc s1 hct.1 h1
    refine ⟨ht, hfc.trans hct.2, fun p => ⟨?_, ?_⟩⟩
    · simp [Foreground.frameInput, ht]
    · simp [Foreground.act, ht]

theorem C20_trackbar_by_constructor_witness :
    (∃ sf sc, LucasKanade.playerOfFile Sample.cv Sample.fileName Mode.NONE = some sf ∧
      LucasKanade.playerOfCamera Sample.cv (-1) Mode.NONE = some sc ∧
      sf.frameCount = 4 ∧ sf.trackbar = some 0 ∧ sc.frameCount = 0 ∧ sc.trackbar = none) ∧
    (∃ sf sc, Foreground.playerOfFile Sample.cv Sample.fileName Mode.NONE = some sf ∧
      Foreground.playerOfCamera Sample.cv (-1) Mode.NONE = some sc ∧
      sf.frameCount = 4 ∧ sf.trackbar = some 0 ∧ sc.frameCount = 0 ∧ sc.trackbar = none) := by
  have a1 : ∃ s, LucasKanade.playerOfFile Sample.cv Sample.fileName Mode.NONE = some s := by
    unfold LucasKanade.playerOfFile
    simp only [Sample.cv_msDelay, Option.map_some']
    exact ⟨_, rfl⟩
  have a2 : ∃ s, LucasKanade.playerOfCamera Sample.cv (-1) Mode.NONE = some s := by
    unfold LucasKanade.playerOfCamera
    simp only [Sample.cv_msDelay, Option.map_some']
    exact ⟨_, rfl⟩
  have a3 : ∃ s, Foreground.playerOfFile Sample.cv Sample.fileName Mode.NONE = some s := by
    unfold Foreground.playerOfFile
    simp only [Sample.cv_msDelay, Option.map_some']
    exact ⟨_, rfl⟩
  have a4 : ∃ s, Foreground.playerOfCamera Sample.cv (-1) Mode.NONE = some s := by
    unfold Foreground.playerOfCamera
    simp only [Sample.cv_msDelay, Option.map_some']
    exact ⟨_, rfl⟩
  obtain ⟨s1, h1⟩ := a1
  obtain ⟨s2, h2⟩ := a2
  obtain ⟨s3, h3⟩ := a3
  obtain ⟨s4, h4⟩ := a4
  obtain ⟨⟨b1, b2, b3, b4, -⟩, ⟨c1, c2, c3, c4, -⟩⟩ :=
    C20_trackbar_by_constructor Sample.cv Sample.fileName (-1) Mode.NONE rfl rfl
      s1 s2 h1 h2 s3 s4 h3 h4
  exact ⟨⟨s1, s2, h1, h2, b2, b1, b4, b3⟩, ⟨s3, s4, h3, h4, c2, c1, c4, c3⟩⟩

/-- C21: the exit code of the two programs, when the tracker returns one
candidate and one status per prior point and an opened source stays opened.
`main` returns 0 exactly when it has one argument after the program name, the
source it names ("-" is the camera -1, anything else a file) opens, and some
key wait returns a key that is q or Q as a `char`; it returns 1 after the
usage message when the number of arguments is not 2 and when the source does
not open; it returns nothing else, and with no key q on an opened source it
stays in its loop. -/
theorem C21_exit_code (cv : Cv V B Mat Pt) (htr : TrackerPerPoint cv) (hso : StaysOpen cv)
    (av : List String) (mode : Mode) (waits : List KeyWait) :
    ((LucasKanade.main cv av mode waits = MainResult.exit 0 false ↔
        ∃ prog source, av = [prog, source] ∧
          (LucasKanade.playerOfArgument cv source mode).isSome = true ∧
          cv.isOpened (sourceOfArgument cv source) = true ∧ ∃ w ∈ waits, quits w.key = true) ∧
      (av.length ≠ 2 → LucasKanade.main cv av mode waits = MainResult.exit 1 true) ∧
      (∀ prog source, av = [prog, source] →
        (LucasKanade.playerOfArgument cv source mode).isSome = true →
        cv.isOpened (sourceOfArgument cv source) = false →
        LucasKanade.main cv av mode waits = MainResult.exit 1 true) ∧
      (∀ prog source, av = [prog, source] →
        (LucasKanade.playerOfArgument cv source mode).isSome = true →
        cv.isOpened (sourceOfArgument cv source) = true → (∀ w ∈ waits, quits w.key = false) →
        LucasKanade.main cv av mode waits = MainResult.running) ∧
      (∀ code usage, LucasKanade.main cv av mode waits = MainResult.exit code usage →
        (code = 0 ∧ usage = false) ∨ (code = 1 ∧ usage = true))) ∧
    ((Foreground.main cv av mode waits = MainResult.exit 0 false ↔
        ∃ prog source, av = [prog, source] ∧
          (Foreground.playerOfArgument cv source mode).isSome = true ∧
          cv.isOpened (sourceOfArgument cv source) = true ∧ ∃ w ∈ waits, quits w.key = true) ∧
      (av.length ≠ 2 → Foreground.main cv av mode waits = MainResult.exit 1 true) ∧
      (∀ prog source, av = [prog, source] →
        (Foreground.playerOfArgument cv source mode).isSome = true →
        cv.isOpened (sourceOfArgument cv source) = false →
        Foreground.main cv av mode waits = MainResult.exit 1 true) ∧
      (∀ prog source, av = [prog, source] →
        (Foreground.playerOfArgument cv source mode).isSome = true →
        cv.isOpened (sourceOfArgument cv source) = true → (∀ w ∈ waits, quits w.key = false) →
        Foreground.main cv av mode waits = MainResult.running) ∧
      (∀ code usage, Foreground.main cv av mode waits = MainResult.exit code usage →
        (code = 0 ∧ usage = false) ∨ (code = 1 ∧ usage = true))) := by
  constructor
  · -- the cases of `av`
    have hshort : av.length ≠ 2 → LucasKanade.main cv av mode waits = MainResult.exit 1 true := by
      intro hl
      match av, hl with
      | [], _ => rfl
      | [_], _ => rfl
      | [_, _], hl => exact absurd rfl hl
      | _ :: _ :: _ :: _, _ => rfl
    have hnone : ∀ prog source, av = [prog, source] →
        LucasKanade.playerOfArgument cv source mode = none →
        LucasKanade.main cv av mode waits = MainResult.undefined := by
      intro prog source hav hn
      subst hav
      simp [LucasKanade.main, hn]
    have hsome : ∀ prog source, av = [prog, source] →
        (LucasKanade.playerOfArgument cv source mode).isSome = true →
        LucasKanade.main cv av mode waits =
          if cv.isOpened (sourceOfArgument cv source) = true then
            (if ∃ w ∈ waits, quits w.key = true then MainResult.exit 0 false
             else MainResult.running)
          else MainResult.exit 1 true := by
      intro prog source hav hs
      subst hav
      obtain ⟨p, hp⟩ := Option.isSome_iff_exists.mp hs
      exact LucasKanade.lk_main_eq cv htr hso prog source mode waits p hp
    refine ⟨⟨fun h => ?_, fun h => ?_⟩, hshort, fun prog source hav hs ho => ?_,
      fun prog source hav hs ho hq => ?_, fun code usage h => ?_⟩
    · by_cases hl : av.length = 2
      · obtain ⟨prog, source, hav⟩ := List.length_eq_two.mp hl
        cases hpl : LucasKanade.playerOfArgument cv source mode with
        | none =>
          rw [hnone prog source hav hpl] at h
          cases h
        | some p =>
          have hs : (LucasKanade.playerOfArgument cv source mode).isSome = true := by
            rw [hpl]
            rfl
          rw [hsome prog source hav hs] at h
          refine ⟨prog, source, hav, hs, ?_⟩
          by_cases ho : cv.isOpened (sourceOfArgument cv source) = true
          · rw [if_pos ho] at h
            by_cases hq : ∃ w ∈ waits, quits w.key = true
            · exact ⟨ho, hq⟩
            · rw [if_neg hq] at h
              cases h
          · rw [if_neg ho] at h
            cases h
      · rw [hshort hl] at h
        cases h
    · obtain ⟨prog, source, hav, hs, ho, hq⟩ := h
      rw [hsome prog source hav hs, if_pos ho, if_pos hq]
    · rw [hsome prog source hav hs, if_neg (by simp [ho])]
    · rw [hsome prog source hav hs, if_pos ho, if_neg]
      rintro ⟨w, hw, hwq⟩
      rw [hq w hw] at hwq
      cases hwq
    · by_cases hl : av.length = 2
      · obtain ⟨prog, source, hav⟩ := List.length_eq_two.mp hl
        cases hpl : LucasKanade.playerOfArgument cv source mode with
        | none =>
          rw [hnone prog source hav hpl] at h
          cases h
        | some p =>
          have hs : (LucasKanade.playerOfArgument cv source mode).isSome = true := by
            rw [hpl]
            rfl
          rw [hsome prog source hav hs] at h
          by_cases ho : cv.isOpened (sourceOfArgument cv source) = true
          · rw [if_pos ho] at h
            by_cases hq : ∃ w ∈ waits, quits w.key = true
            · rw [if_pos hq] at h
              cases h
              exact Or.inl ⟨rfl, rfl⟩
            · rw [if_neg hq] at h
              cases h
          · rw [if_neg ho] at h
            cases h
            exact Or.inr ⟨rfl, rfl⟩
      · rw [hshort hl] at h
        cases h
        exact Or.inr ⟨rfl, rfl⟩
  · have hshort : av.length ≠ 2 → Foreground.main cv av mode waits = MainResult.exit 1 true := by
      intro hl
      match av, hl with
      | [], _ => rfl
      | [_], _ => rfl
      | [_, _], hl => exact absurd rfl hl
      | _ :: _ :: _ :: _, _ => rfl
    have hnone : ∀ prog source, av = [prog, source] →
        Foreground.playerOfArgument cv source mode = none →
        Foreground.main cv av mode waits = MainResult.undefined := by
      intro prog source hav hn
      subst hav
      simp [Foreground.main, hn]
    have hsome : ∀ prog source, av = [prog, source] →
        (Foreground.playerOfArgument cv source mode).isSome = true →
        Foreground.main cv av mode waits =
          if cv.isOpened (sourceOfArgument cv source) = true then
            (if ∃ w ∈ waits, quits w.key = true then MainResult.exit 0 false
             else MainResult.running)
          else MainResult.exit 1 true := by
      intro prog source hav hs
      subst hav
      obtain ⟨p, hp⟩ := Option.isSome_iff_exists.mp hs
      exact Foreground.fg_main_eq cv htr hso prog source mode waits p hp
    refine ⟨⟨fun h => ?_, fun h => ?_⟩, hshort, fun prog source hav hs ho => ?_,
      fun prog source hav hs ho hq => ?_, fun code usage h => ?_⟩
    · by_cases hl : av.length = 2
      · obtain ⟨prog, source, hav⟩ := List.length_eq_two.mp hl
        cases hpl : Foreground.playerOfArgument cv source mode with
        | none =>
          rw [hnone prog source hav hpl] at h
          cases h
        | some p =>
          have hs : (Foreground.playerOfArgument cv source mode).isSome = true := by
            rw [hpl]
            rfl
          rw [hsome prog source hav hs] at h
          refine ⟨prog, source, hav, hs, ?_⟩
          by_cases ho : cv.isOpened (sourceOfArgument cv source) = true
          · rw [if_pos ho] at h
            by_cases hq : ∃ w ∈ waits, quits w.key = true
            · exact ⟨ho, hq⟩
            · rw [if_neg hq] at h
              cases h
          · rw [if_neg ho] at h
            cases h
      · rw [hshort hl] at h
        cases h
    · obtain ⟨prog, source, hav, hs, ho, hq⟩ := h
      rw [hsome prog source hav hs, if_pos ho, if_pos hq]
    · rw [hsome prog source hav hs, if_neg (by simp [ho])]
    · rw [hsome prog source hav hs, if_pos ho, if_neg]
      rintro ⟨w, hw, hwq⟩
      rw [hq w hw] at hwq
      cases hwq
    · by_cases hl : av.length = 2
      · obtain ⟨prog, source, hav⟩ := List.length_eq_two.mp hl
        cases hpl : Foreground.playerOfArgument cv source mode with
        | none =>
          rw [hnone prog source hav hpl] at h
          cases h
        | some p =>
          have hs : (Foreground.playerOfArgument cv source mode).isSome = true := by
            rw [hpl]
            rfl
          rw [hsome prog source hav hs] at h
          by_cases ho : cv.isOpened (sourceOfArgument cv source) = true
          · rw [if_pos ho] at h
            by_cases hq : ∃ w ∈ waits, quits w.key = true
            · rw [if_pos hq] at h
              cases h
              exact Or.inl ⟨rfl, rfl⟩
            · rw [if_neg hq] at h
              cases h
          · rw [if_neg ho] at h
            cases h
            exact Or.inr ⟨rfl, rfl⟩
      · rw [hshort hl] at h
        cases h
        exact Or.inr ⟨rfl, rfl⟩

theorem C21_exit_code_witness :
    TrackerPerPoint Sample.cv ∧ StaysOpen Sample.cv ∧
    LucasKanade.main Sample.cv Sample.cameraArguments Mode.NONE Sample.trackThenQuit =
      MainResult.exit 0 false ∧
    Foreground.main Sample.cv Sample.cameraArguments Mode.NONE Sample.trackThenQuit =
      MainResult.exit 0 false ∧
    LucasKanade.main Sample.cvClosed Sample.fileArguments Mode.NONE Sample.trackThenQuit =
      MainResult.exit 1 true ∧
    Foreground.main Sample.cv [Sample.fileName] Mode.NONE Sample.trackThenQuit =
      MainResult.exit 1 true := by
  have hL : (LucasKanade.playerOfArgument Sample.cv Sample.cameraArgument Mode.NONE).isSome =
      true := by
    unfold LucasKanade.playerOfArgument LucasKanade.playerOfCamera
    simp only [Sample.cv_msDelay, Option.map_some', Sample.cameraArgument, if_true]
    rfl
  have hF : (Foreground.playerOfArgument Sample.cv Sample.cameraArgument Mode.NONE).isSome =
      true := by
    unfold Foreground.playerOfArgument Foreground.playerOfCamera
    simp only [Sample.cv_msDelay, Option.map_some', Sample.cameraArgument, if_true]
    rfl
  have hC : (LucasKanade.playerOfArgument Sample.cvClosed Sample.fileName Mode.NONE).isSome =
      true := by
    have hne : ¬ Sample.fileName = "-" := by decide
    unfold LucasKanade.playerOfArgument
    rw [if_neg hne]
    unfold LucasKanade.playerOfFile
    simp only [Sample.cvClosed_msDelay, Option.map_some']
    rfl
  have hq : ∃ w ∈ Sample.trackThenQuit, quits w.key = true :=
    ⟨{ callbacks := [], key := 113 }, by simp [Sample.trackThenQuit], by decide⟩
  obtain ⟨⟨h1, -⟩, ⟨h2, -⟩⟩ :=
    C21_exit_code Sample.cv Sample.cv_trackerPerPoint Sample.cv_staysOpen Sample.cameraArguments
      Mode.NONE Sample.trackThenQuit
  obtain ⟨⟨-, -, h3, -⟩, -⟩ :=
    C21_exit_code Sample.cvClosed Sample.cvClosed_trackerPerPoint Sample.cvClosed_staysOpen
      Sample.fileArguments Mode.NONE Sample.trackThenQuit
  obtain ⟨-, ⟨-, h4, -⟩⟩ :=
    C21_exit_code Sample.cv Sample.cv_trackerPerPoint Sample.cv_staysOpen [Sample.fileName]
      Mode.NONE Sample.trackThenQuit
  exact ⟨Sample.cv_trackerPerPoint, Sample.cv_staysOpen,
    h1.mpr ⟨_, Sample.cameraArgument, rfl, hL, rfl, hq⟩,
    h2.mpr ⟨_, Sample.cameraArgument, rfl, hF, rfl, hq⟩,
    h3 _ Sample.fileName rfl hC rfl, h4 (by decide)⟩

/-- C22: a call of `BackgroundRemover::operator()` whose mask has the width
and the height of the frame returns an image of the size and the type of the
frame that is 0 in every channel where the mask is 0 and is the frame where
the mask is not 0.  This holds on the first call, which makes the static image
`black`, and on every later call, where `black` is the all-zero image made
by the first call, whatever the size of the later frames. -/
theorem C22_masked_output {S : Type} (apply : S → BackgroundRemoval.Image → S × BackgroundRemoval.Image)
    (hsize : ∀ (model : S) (frame : BackgroundRemoval.Image),
      (apply model frame).2.rows = frame.rows ∧ (apply model frame).2.cols = frame.cols)
    (remover : BackgroundRemoval.BackgroundRemover S) (frames : List BackgroundRemoval.Image) :
    (∀ frame : BackgroundRemoval.Image,
      BackgroundRemoval.Masked frame (apply remover.itsBs frame).2
        (BackgroundRemoval.BackgroundRemover.call apply none remover frame).2.2) ∧
    (∀ t ∈ BackgroundRemoval.BackgroundRemover.callAll apply none remover frames,
      BackgroundRemoval.Masked t.1 t.2.1 t.2.2) ∧
    (BackgroundRemoval.BackgroundRemover.callAll apply none remover frames).map (fun t => t.1) =
      frames := by
  -- the static image is all zero once made
  have step : ∀ (black : Option BackgroundRemoval.Image)
      (r : BackgroundRemoval.BackgroundRemover S) (frame : BackgroundRemoval.Image),
      (∀ b, black = some b → ∀ i j c, b.pixel i j c = 0) →
      BackgroundRemoval.Masked frame (apply r.itsBs frame).2
        (BackgroundRemoval.BackgroundRemover.call apply black r frame).2.2 ∧
      (BackgroundRemoval.BackgroundRemover.call apply black r frame).2.1.itsMask =
        (apply r.itsBs frame).2 ∧
      (∀ b, (BackgroundRemoval.BackgroundRemover.call apply black r frame).1 = some b →
        ∀ i j c, b.pixel i j c = 0) := by
    intro black r frame hb
    have hz : ∀ i j c,
        (match black with
          | none => BackgroundRemoval.zeros frame.rows frame.cols frame.channels
          | some b => b).pixel i j c = 0 := by
      intro i j c
      cases black with
      | none => rfl
      | some b => exact hb b rfl i j c
    refine ⟨?_, rfl, ?_⟩
    · exact BackgroundRemoval.copyToMasked_masked frame _ _ (hsize r.itsBs frame) hz
    · intro b hbe i j c
      have : b = (match black with
          | none => BackgroundRemoval.zeros frame.rows frame.cols frame.channels
          | some b => b) := (Option.some.inj hbe).symm
      rw [this]
      exact hz i j c
  have all : ∀ (fs : List BackgroundRemoval.Image) (black : Option BackgroundRemoval.Image)
      (r : BackgroundRemoval.BackgroundRemover S),
      (∀ b, black = some b → ∀ i j c, b.pixel i j c = 0) →
      (∀ t ∈ BackgroundRemoval.BackgroundRemover.callAll apply black r fs,
        BackgroundRemoval.Masked t.1 t.2.1 t.2.2) ∧
      (BackgroundRemoval.BackgroundRemover.callAll apply black r fs).map (fun t => t.1) = fs := by
    intro fs
    induction fs with
    | nil =>
      intro black r _
      exact ⟨fun t ht => (by cases ht), rfl⟩
    | cons frame rest ih =>
      intro black r hb
      obtain ⟨h1, h2, h3⟩ := step black r frame hb
      obtain ⟨i1, i2⟩ := ih (BackgroundRemoval.BackgroundRemover.call apply black r frame).1
        (BackgroundRemoval.BackgroundRemover.call apply black r frame).2.1 h3
      constructor
      · intro t ht
        simp only [BackgroundRemoval.BackgroundRemover.callAll] at ht
        rcases List.mem_cons.mp ht with ht | ht
        · subst ht
          show BackgroundRemoval.Masked frame _ _
          rw [h2]
          exact h1
        · exact i1 t ht
      · simp only [BackgroundRemoval.BackgroundRemover.callAll, List.map_cons, i2]
  have hnone : ∀ b, (none : Option BackgroundRemoval.Image) = some b →
      ∀ i j c, b.pixel i j c = 0 := by
    intro b hb
    cases hb
  exact ⟨fun frame => (step none remover frame hnone).1, (all frames none remover hnone).1,
    (all frames none remover hnone).2⟩

theorem C22_masked_output_witness :
    (∀ (model : Nat) (frame : BackgroundRemoval.Image),
      (BackgroundRemoval.sampleApply model frame).2.rows = frame.rows ∧
      (BackgroundRemoval.sampleApply model frame).2.cols = frame.cols) ∧
    BackgroundRemoval.Masked BackgroundRemoval.sampleFrame
      (BackgroundRemoval.sampleApply 0 BackgroundRemoval.sampleFrame).2
      (BackgroundRemoval.BackgroundRemover.call BackgroundRemoval.sampleApply none
        BackgroundRemoval.sampleRemover BackgroundRemoval.sampleFrame).2.2 ∧
    (BackgroundRemoval.BackgroundRemover.call BackgroundRemoval.sampleApply none
      BackgroundRemoval.sampleRemover BackgroundRemoval.sampleFrame).2.2.pixel 1 1 2 = 113 ∧
    (BackgroundRemoval.BackgroundRemover.call BackgroundRemoval.sampleApply none
      BackgroundRemoval.sampleRemover BackgroundRemoval.sampleFrame).2.2.pixel 0 1 2 = 0 ∧
    ((BackgroundRemoval.BackgroundRemover.callAll BackgroundRemoval.sampleApply none
      BackgroundRemoval.sampleRemover
      [BackgroundRemoval.sampleFrame, BackgroundRemoval.sampleWide]).map
        (fun t => (t.2.2.rows, t.2.2.cols, t.2.2.pixel 0 0 0, t.2.2.pixel 0 1 0))) =
      [(2, 2, 1, 0), (1, 3, 50, 0)] := by
  obtain ⟨h1, -, -⟩ :=
    C22_masked_output BackgroundRemoval.sampleApply (fun _ _ => ⟨rfl, rfl⟩)
      BackgroundRemoval.sampleRemover [BackgroundRemoval.sampleFrame, BackgroundRemoval.sampleWide]
  exact ⟨fun _ _ => ⟨rfl, rfl⟩, h1 BackgroundRemoval.sampleFrame, by decide, by decide, by decide⟩

/-- C23, counterexample: the string "1video.avi" is not a decimal integer, and
`openVideo` opens the camera 1 for it: the extraction of the `int` stops at
the first character that is not a digit and succeeds.  Also, the file opened
for a string with white space in it is named by the first token only, and a
run of digits that does not fit an `int` is opened as a file. -/
theorem C23_leading_digit_counterexample :
    RemoveBackground.openVideo RemoveBackground.digitName = RemoveBackground.VideoSource.camera 1 ∧
    RemoveBackground.openVideo RemoveBackground.digitName ≠
      RemoveBackground.VideoSource.file RemoveBackground.digitName.toList ∧
    RemoveBackground.openVideo RemoveBackground.spacedName =
      RemoveBackground.VideoSource.file RemoveBackground.firstName.toList ∧
    RemoveBackground.openVideo RemoveBackground.longNumber =
      RemoveBackground.VideoSource.file RemoveBackground.longNumber.toList := by
  refine ⟨by decide, by decide, by decide, by decide⟩

/-- C23, amended: `openVideo` opens the camera n exactly when the string,
after leading white space, begins with a decimal integer of value n that fits
an `int` (an optional sign and a run of digits, whatever follows the digits),
or when n is -1 and the string has no character other than white space; it
opens a file exactly when the string does not begin with such an integer and
has a token, and the file is named by the first token of the string. -/
theorem C23_openVideo_leading_integer (source : String) (n : Int) (name : List Char) :
    (RemoveBackground.openVideo source = RemoveBackground.VideoSource.camera n ↔
      RemoveBackground.BeginsWithInteger source.toList n ∨
        (n = -1 ∧ ∀ c ∈ source.toList, RemoveBackground.isSpace c = true)) ∧
    (RemoveBackground.openVideo source = RemoveBackground.VideoSource.file name ↔
      (∀ m, ¬ RemoveBackground.BeginsWithInteger source.toList m) ∧
        RemoveBackground.FirstToken source.toList name) := by
  unfold RemoveBackground.openVideo
  cases hi : RemoveBackground.extractInt source.toList with
  | some k =>
    have hk := (RemoveBackground.extractInt_eq_some source.toList k).mp hi
    simp only []
    constructor
    · constructor
      · intro h
        cases h
        exact Or.inl hk
      · rintro (h | ⟨-, hs⟩)
        · have := (RemoveBackground.extractInt_eq_some source.toList n).mpr h
          rw [hi] at this
          cases this
          rfl
        · have hnone := (RemoveBackground.extractString_eq_none source.toList).mpr hs
          obtain ⟨ws, signChars, digits, rest, negative, hsrc, -, hsign, hne, hdig, -⟩ := hk
          obtain ⟨d0, dt, hd0⟩ := List.exists_cons_of_ne_nil hne
          have hd0dig : RemoveBackground.isDigit d0 = true := hdig d0 (by rw [hd0]; simp)
          have hmem : d0 ∈ source.toList := by
            rw [hsrc, hd0]
            simp
          have h1 := hs d0 hmem
          rw [(RemoveBackground.digit_not_other d0 hd0dig).1] at h1
          cases h1
    · constructor
      · intro h
        cases h
      · rintro ⟨h, -⟩
        exact absurd hk (h k)
  | none =>
    have hno : ∀ m, ¬ RemoveBackground.BeginsWithInteger source.toList m := by
      intro m hm
      have := (RemoveBackground.extractInt_eq_some source.toList m).mpr hm
      rw [hi] at this
      cases this
    simp only []
    cases hs : RemoveBackground.extractString source.toList with
    | some token =>
      have ht := (RemoveBackground.extractString_eq_some source.toList token).mp hs
      simp only []
      constructor
      · constructor
        · intro h
          cases h
        · rintro (h | ⟨-, hsp⟩)
          · exact absurd h (hno n)
          · have := (RemoveBackground.extractString_eq_none source.toList).mpr hsp
            rw [hs] at this
            cases this
      · constructor
        · intro h
          cases h
          exact ⟨hno, ht⟩
        · rintro ⟨-, h⟩
          have := (RemoveBackground.extractString_eq_some source.toList name).mpr h
          rw [hs] at this
          cases this
          rfl
    | none =>
      have hsp := (RemoveBackground.extractString_eq_none source.toList).mp hs
      simp only []
      constructor
      · constructor
        · intro h
          cases h
          exact Or.inr ⟨rfl, hsp⟩
        · rintro (h | ⟨hn, -⟩)
          · exact absurd h (hno n)
          · rw [hn]
      · constructor
        · intro h
          cases h
        · rintro ⟨-, h⟩
          have := (RemoveBackground.extractString_eq_some source.toList name).mpr h
          rw [hs] at this
          cases this

theorem C23_openVideo_leading_integer_witness :
    RemoveBackground.openVideo RemoveBackground.signedId =
      RemoveBackground.VideoSource.camera (-12) ∧
    RemoveBackground.openVideo RemoveBackground.blank =
      RemoveBackground.VideoSource.camera (-1) ∧
    RemoveBackground.openVideo RemoveBackground.plainName =
      RemoveBackground.VideoSource.file RemoveBackground.plainName.toList := by
  refine ⟨(C23_openVideo_leading_integer RemoveBackground.signedId (-12) []).1.mpr (Or.inl ?_),
    (C23_openVideo_leading_integer RemoveBackground.blank (-1) []).1.mpr (Or.inr ⟨rfl, by decide⟩),
    by decide⟩
  exact ⟨[Char.ofNat 32, Char.ofNat 32], [Char.ofNat 45], [Char.ofNat 49, Char.ofNat 50], [], true,
    by decide, by decide, Or.inr ⟨Char.ofNat 45, rfl, Or.inl ⟨by decide, rfl⟩⟩, by decide,
    by decide, by decide, by decide, by decide, by decide⟩

/-- C24, counterexample: the foreground player after the key t, on the same
frame, with two libraries that differ in the detector only.  TRACK is
dispatched in both; after the frame `nextPoints` is the set the detector
returned and `priorPoints` is that set moved by the tracker, so both differ
with the detector. -/
theorem C24_detected_set_counterexample :
    Foreground.dispatchedMode (Foreground.atHandleModes Sample.cv Sample.fgFreshTrack) =
      Mode.TRACK ∧
    Foreground.dispatchedMode (Foreground.atHandleModes Sample.cvOneCorner Sample.fgFreshTrack) =
      Mode.TRACK ∧
    Sample.cv.goodFeaturesToTrack Sample.fgFreshTrack.priorGray = [(101, 0), (101, 1)] ∧
    Sample.cvOneCorner.goodFeaturesToTrack Sample.fgFreshTrack.priorGray = [(7, 7)] ∧
    ∃ a b, Foreground.showFrame Sample.cv Sample.fgFreshTrack = some a ∧
      Foreground.showFrame Sample.cvOneCorner Sample.fgFreshTrack = some b ∧
      a.nextPoints = [(101, 0), (101, 1)] ∧ a.priorPoints = [(102, 0), (102, 1)] ∧
      b.nextPoints = [(7, 7)] ∧ b.priorPoints = [(8, 7)] ∧
      a.nextPoints ≠ b.nextPoints ∧ a.priorPoints ≠ b.priorPoints :=
  ⟨rfl, rfl, rfl, rfl, _, _, rfl, rfl, rfl, rfl, rfl, by decide, by decide⟩

/-- C24, amended: on a displayed frame of the foreground player that
dispatches TRACK, the set D the detector returns on `priorGray` is kept by the
swap: after the frame `nextPoints` is D, and `priorPoints` is what the tracker
keeps of D from `priorGray` to the gray of this frame (the former `nextPoints`
when D is empty). -/
theorem C24_detected_set_kept (cv : Cv V B Mat Pt) (htr : TrackerPerPoint cv)
    (s : Foreground.FkltVideoPlayer V B Mat Pt)
    (hd : cv.hasData (cv.read s.video).2 = true)
    (ht : Foreground.dispatchedMode (Foreground.atHandleModes cv s) = Mode.TRACK) :
    ∃ s2, Foreground.showFrame cv s = some s2 ∧
      s2.nextPoints = Foreground.getGoodTrackingPoints cv s.priorGray ∧
      s2.priorPoints =
        (if (Foreground.getGoodTrackingPoints cv s.priorGray).isEmpty then s.nextPoints
         else survivors
          (cv.calcOpticalFlowImages s.priorGray (Foreground.atHandleModes cv s).nextGray
            (Foreground.getGoodTrackingPoints cv s.priorGray) s.nextPoints).2
          (cv.calcOpticalFlowImages s.priorGray (Foreground.atHandleModes cv s).nextGray
            (Foreground.getGoodTrackingPoints cv s.priorGray) s.nextPoints).1) := by
  obtain ⟨-, hn, -, -, hg, -⟩ := Foreground.fg_atHandleModes_fields cv s
  obtain ⟨h2, h3, h4, h5, -⟩ := Foreground.fg_handleModes_eq cv (Foreground.atHandleModes cv s)
  obtain ⟨s1, h1, -, -, hpp, -, -, -, hnp⟩ :=
    Foreground.fg_drawFlowPoints_defined cv htr
      (Foreground.handleModes cv (Foreground.atHandleModes cv s))
  have e1 : (Foreground.handleModes cv (Foreground.atHandleModes cv s)).priorPoints =
      Foreground.getGoodTrackingPoints cv s.priorGray := by
    rw [h2, hg]
    simp [ht]
  have e2 : (Foreground.handleModes cv (Foreground.atHandleModes cv s)).nextPoints =
      s.nextPoints := by
    rw [h3, hn]
    simp [ht]
  refine ⟨Foreground.swapAndShow s1, ?_, ?_, ?_⟩
  · rw [Foreground.fg_showFrame_displayed cv s hd]
    unfold Foreground.beforeSwap
    rw [h1]
    rfl
  · show s1.priorPoints = _
    rw [hpp, e1]
  · show s1.nextPoints = _
    rw [hnp, e1, e2, h4, h5, hg]

theorem C24_detected_set_kept_witness :
    TrackerPerPoint Sample.cv ∧
    Sample.cv.hasData (Sample.cv.read Sample.fgFreshTrack.video).2 = true ∧
    Foreground.dispatchedMode (Foreground.atHandleModes Sample.cv Sample.fgFreshTrack) =
      Mode.TRACK ∧
    ∃ s2, Foreground.showFrame Sample.cv Sample.fgFreshTrack = some s2 ∧
      s2.nextPoints = [(101, 0), (101, 1)] ∧ s2.priorPoints = [(102, 0), (102, 1)] := by
  obtain ⟨s2, h, hn, hp⟩ :=
    C24_detected_set_kept Sample.cv Sample.cv_trackerPerPoint Sample.fgFreshTrack (by decide) rfl
  refine ⟨Sample.cv_trackerPerPoint, by decide, rfl, s2, h, ?_, ?_⟩
  · rw [hn]
    rfl
  · rw [hp]
    rfl

/-- C26, counterexample: a matrix of 1 row and 4 columns.  R' is 0 and C' is
4; the crop has no row, so its header is released and `centerOrigin` returns
a matrix of 0 rows and 0 columns, not of 0 rows and 4 columns. -/
theorem C26_one_row_counterexample :
    Dft.sampleRow.rows = 1 ∧ Dft.sampleRow.cols = 4 ∧
    Dft.clearLowestBit Dft.sampleRow.rows = 0 ∧ Dft.clearLowestBit Dft.sampleRow.cols = 4 ∧
    (Dft.centerOrigin Dft.sampleRow).rows = 0 ∧ (Dft.centerOrigin Dft.sampleRow).cols = 0 ∧
    (Dft.centerOrigin Dft.sampleRow).cols ≠ Dft.clearLowestBit Dft.sampleRow.cols := by
  decide

/-- C26, amended: for a matrix of at least 2 rows and 2 columns `centerOrigin`
returns a matrix of R' rows and C' columns, the sizes of its argument with
their lowest bit cleared, whose element (i, j) is the element
((i + R'/2) mod R', (j + C'/2) mod C') of the argument: the top-left quadrant
is swapped with the bottom-right one and the top-right one with the
bottom-left one; applied twice it returns the R' x C' crop of the argument.
For a matrix of fewer than 2 rows or fewer than 2 columns it returns a matrix
of 0 rows and 0 columns, also when applied twice. -/
theorem C26_centerOrigin {α : Type} (m : Dft.Matrix α) (hR : 2 ≤ m.rows) (hC : 2 ≤ m.cols) :
    (Dft.clearLowestBit m.rows % 2 = 0 ∧ Dft.clearLowestBit m.rows ≤ m.rows ∧
      m.rows ≤ Dft.clearLowestBit m.rows + 1) ∧
    (Dft.clearLowestBit m.cols % 2 = 0 ∧ Dft.clearLowestBit m.cols ≤ m.cols ∧
      m.cols ≤ Dft.clearLowestBit m.cols + 1) ∧
    (Dft.centerOrigin m).rows = Dft.clearLowestBit m.rows ∧
    (Dft.centerOrigin m).cols = Dft.clearLowestBit m.cols ∧
    (∀ i j, i < Dft.clearLowestBit m.rows → j < Dft.clearLowestBit m.cols →
      (Dft.centerOrigin m).entry i j =
        m.entry ((i + Dft.clearLowestBit m.rows / 2) % Dft.clearLowestBit m.rows)
          ((j + Dft.clearLowestBit m.cols / 2) % Dft.clearLowestBit m.cols)) ∧
    (∀ i j, i < Dft.clearLowestBit m.rows / 2 → j < Dft.clearLowestBit m.cols / 2 →
      (Dft.centerOrigin m).entry i j =
        m.entry (i + Dft.clearLowestBit m.rows / 2) (j + Dft.clearLowestBit m.cols / 2) ∧
      (Dft.centerOrigin m).entry (i + Dft.clearLowestBit m.rows / 2)
        (j + Dft.clearLowestBit m.cols / 2) = m.entry i j ∧
      (Dft.centerOrigin m).entry i (j + Dft.clearLowestBit m.cols / 2) =
        m.entry (i + Dft.clearLowestBit m.rows / 2) j ∧
      (Dft.centerOrigin m).entry (i + Dft.clearLowestBit m.rows / 2) j =
        m.entry i (j + Dft.clearLowestBit m.cols / 2)) ∧
    (Dft.centerOrigin (Dft.centerOrigin m)).rows = Dft.clearLowestBit m.rows ∧
    (Dft.centerOrigin (Dft.centerOrigin m)).cols = Dft.clearLowestBit m.cols ∧
    (∀ i j, i < Dft.clearLowestBit m.rows → j < Dft.clearLowestBit m.cols →
      (Dft.centerOrigin (Dft.centerOrigin m)).entry i j = m.entry i j) ∧
    (∀ d : Dft.Matrix α, d.rows < 2 ∨ d.cols < 2 →
      (Dft.centerOrigin d).rows = 0 ∧ (Dft.centerOrigin d).cols = 0 ∧
      (Dft.centerOrigin (Dft.centerOrigin d)).rows = 0 ∧
      (Dft.centerOrigin (Dft.centerOrigin d)).cols = 0) := by
  have hr := Dft.clearLowestBit_even m.rows
  have hc := Dft.clearLowestBit_even m.cols
  have hR2 := Dft.clearLowestBit_two_le m.rows hR
  have hC2 := Dft.clearLowestBit_two_le m.cols hC
  have hne : ¬ (Dft.clearLowestBit m.rows = 0 ∨ Dft.clearLowestBit m.cols = 0) := by omega
  obtain ⟨srows, scols⟩ := Dft.centerOrigin_size m
  rw [if_neg hne] at srows scols
  have hrr : Dft.clearLowestBit (Dft.centerOrigin m).rows = Dft.clearLowestBit m.rows := by
    rw [srows]
    exact Dft.clearLowestBit_idem m.rows
  have hcc : Dft.clearLowestBit (Dft.centerOrigin m).cols = Dft.clearLowestBit m.cols := by
    rw [scols]
    exact Dft.clearLowestBit_idem m.cols
  -- the sizes of a degenerate matrix
  have degenerate : ∀ d : Dft.Matrix α, d.rows < 2 ∨ d.cols < 2 →
      (Dft.centerOrigin d).rows = 0 ∧ (Dft.centerOrigin d).cols = 0 := by
    intro d hd
    obtain ⟨s1, s2⟩ := Dft.centerOrigin_size d
    have hz : Dft.clearLowestBit d.rows = 0 ∨ Dft.clearLowestBit d.cols = 0 := by
      rcases hd with h | h
      · exact Or.inl (Dft.clearLowestBit_small _ h)
      · exact Or.inr (Dft.clearLowestBit_small _ h)
    rw [if_pos hz] at s1 s2
    exact ⟨s1, s2⟩
  refine ⟨?_, ?_, srows, scols, fun i j hi hj => Dft.centerOrigin_entry m i j hi hj,
    fun i j hi2 hj2 => ⟨?_, ?_, ?_, ?_⟩, ?_, ?_, fun i j hi hj => ?_, fun d hd => ?_⟩
  · unfold Dft.clearLowestBit
    omega
  · unfold Dft.clearLowestBit
    omega
  · rw [Dft.centerOrigin_entry m i j (by omega) (by omega),
      Dft.half_shift_mod _ i hr (by omega), Dft.half_shift_mod _ j hc (by omega),
      if_pos hi2, if_pos hj2]
  · rw [Dft.centerOrigin_entry m _ _ (by omega) (by omega),
      Dft.half_shift_mod _ _ hr (by omega), Dft.half_shift_mod _ _ hc (by omega),
      if_neg (by omega), if_neg (by omega)]
    congr 1 <;> omega
  · rw [Dft.centerOrigin_entry m _ _ (by omega) (by omega),
      Dft.half_shift_mod _ _ hr (by omega), Dft.half_shift_mod _ _ hc (by omega),
      if_pos hi2, if_neg (by omega)]
    congr 1
    omega
  · rw [Dft.centerOrigin_entry m _ _ (by omega) (by omega),
      Dft.half_shift_mod _ _ hr (by omega), Dft.half_shift_mod _ _ hc (by omega),
      if_neg (by omega), if_pos hj2]
    congr 1
    omega
  · have := (Dft.centerOrigin_size (Dft.centerOrigin m)).1
    rw [hrr, hcc, if_neg hne] at this
    exact this
  · have := (Dft.centerOrigin_size (Dft.centerOrigin m)).2
    rw [hrr, hcc, if_neg hne] at this
    exact this
  · have hmr : (i + Dft.clearLowestBit m.rows / 2) % Dft.clearLowestBit m.rows <
        Dft.clearLowestBit m.rows := Nat.mod_lt _ (by omega)
    have hmc : (j + Dft.clearLowestBit m.cols / 2) % Dft.clearLowestBit m.cols <
        Dft.clearLowestBit m.cols := Nat.mod_lt _ (by omega)
    rw [Dft.centerOrigin_entry (Dft.centerOrigin m) i j (by rw [hrr]; exact hi)
      (by rw [hcc]; exact hj), hrr, hcc, Dft.centerOrigin_entry m _ _ hmr hmc]
    rw [Dft.half_shift_mod _ i hr hi, Dft.half_shift_mod _ j hc hj]
    have e1 : ((if i < Dft.clearLowestBit m.rows / 2 then i + Dft.clearLowestBit m.rows / 2
        else i - Dft.clearLowestBit m.rows / 2) + Dft.clearLowestBit m.rows / 2) %
        Dft.clearLowestBit m.rows = i := by
      split_ifs with h
      · have e : i + Dft.clearLowestBit m.rows / 2 + Dft.clearLowestBit m.rows / 2 =
            i + Dft.clearLowestBit m.rows := by omega
        rw [e, Nat.add_mod_right]
        exact Nat.mod_eq_of_lt hi
      · have e : i - Dft.clearLowestBit m.rows / 2 + Dft.clearLowestBit m.rows / 2 = i := by
          omega
        rw [e]
        exact Nat.mod_eq_of_lt hi
    have e2 : ((if j < Dft.clearLowestBit m.cols / 2 then j + Dft.clearLowestBit m.cols / 2
        else j - Dft.clearLowestBit m.cols / 2) + Dft.clearLowestBit m.cols / 2) %
        Dft.clearLowestBit m.cols = j := by
      split_ifs with h
      · have e : j + Dft.clearLowestBit m.cols / 2 + Dft.clearLowestBit m.cols / 2 =
            j + Dft.clearLowestBit m.cols := by omega
        rw [e, Nat.add_mod_right]
        exact Nat.mod_eq_of_lt hj
      · have e : j - Dft.clearLowestBit m.cols / 2 + Dft.clearLowestBit m.cols / 2 = j := by
          omega
        rw [e]
        exact Nat.mod_eq_of_lt hj
    rw [e1, e2]
  · obtain ⟨d1, d2⟩ := degenerate d hd
    obtain ⟨d3, d4⟩ := degenerate (Dft.centerOrigin d) (Or.inl (by rw [d1]; omega))
    exact ⟨d1, d2, d3, d4⟩

theorem C26_centerOrigin_witness :
    (2 : Nat) ≤ Dft.sample.rows ∧ (2 : Nat) ≤ Dft.sample.cols ∧
    Dft.sample.rows = 5 ∧ (Dft.centerOrigin Dft.sample).rows = 4 ∧
    (Dft.centerOrigin Dft.sample).cols = 4 ∧
    (Dft.centerOrigin Dft.sample).entry 1 3 = 31 ∧ Dft.sample.entry 3 1 = 31 ∧
    (Dft.centerOrigin (Dft.centerOrigin Dft.sample)).entry 1 3 = 13 ∧
    Dft.sampleRow.rows < 2 ∧ (Dft.centerOrigin Dft.sampleRow).cols = 0 := by
  obtain ⟨-, -, h3, h4, h5, -, -, -, h9, h10⟩ :=
    C26_centerOrigin Dft.sample (by decide) (by decide)
  exact ⟨by decide, by decide, rfl, h3, h4, h5 1 3 (by decide) (by decide), rfl,
    h9 1 3 (by decide) (by decide), by decide, (h10 Dft.sampleRow (Or.inl (by decide))).2.1⟩

/-- C27: in both players, a displayed frame that dispatches NONE with
`priorPoints` empty leaves `nextPoints` untouched, and the swap then puts it
in `priorPoints`.  So when `priorPoints` is a non-empty P, the tracker fails
every point of P on a frame, and that frame and the next one dispatch NONE,
`priorPoints` is empty after the first frame and is P again after the second. -/
theorem C27_lost_points_reappear (cv : Cv V B Mat Pt) (htr : TrackerPerPoint cv)
    (sL : LucasKanade.LucasKanadeVideoPlayer V Mat Pt)
    (hLd : cv.hasData (cv.read sL.video).2 = true) (hLm : sL.mode = Mode.NONE)
    (hLp : sL.priorPoints ≠ [])
    (hLfail : ∀ x ∈ (cv.calcOpticalFlowPyrLK sL.priorPyramid
        (LucasKanade.makePyramid cv (cv.cvtColor (cv.read sL.video).2))
        sL.priorPoints sL.nextPoints).2, x = 0)
    (hLd2 : ∀ s1, LucasKanade.showFrame cv sL = some s1 →
      cv.hasData (cv.read s1.video).2 = true)
    (sF : Foreground.FkltVideoPlayer V B Mat Pt)
    (hFd : cv.hasData (cv.read sF.video).2 = true)
    (hFm : Foreground.dispatchedMode (Foreground.atHandleModes cv sF) = Mode.NONE)
    (hFp : sF.priorPoints ≠ [])
    (hFfail : ∀ x ∈ (cv.calcOpticalFlowImages sF.priorGray
        (Foreground.atHandleModes cv sF).nextGray sF.priorPoints sF.nextPoints).2, x = 0)
    (hFd2 : ∀ s1, Foreground.showFrame cv sF = some s1 →
      cv.hasData (cv.read s1.video).2 = true ∧
      Foreground.dispatchedMode (Foreground.atHandleModes cv s1) = Mode.NONE) :
    (∀ s : LucasKanade.LucasKanadeVideoPlayer V Mat Pt,
      cv.hasData (cv.read s.video).2 = true → s.mode = Mode.NONE → s.priorPoints = [] →
      ∃ s1 s2, LucasKanade.beforeSwap cv s = some s1 ∧ s1.nextPoints = s.nextPoints ∧
        s1.priorPoints = [] ∧ LucasKanade.showFrame cv s = some s2 ∧
        s2.priorPoints = s.nextPoints ∧ s2.nextPoints = [] ∧ s2.mode = Mode.NONE) ∧
    (∀ s : Foreground.FkltVideoPlayer V B Mat Pt,
      cv.hasData (cv.read s.video).2 = true →
      Foreground.dispatchedMode (Foreground.atHandleModes cv s) = Mode.NONE →
      s.priorPoints = [] →
      ∃ s1 s2, Foreground.beforeSwap cv s = some s1 ∧ s1.nextPoints = s.nextPoints ∧
        s1.priorPoints = [] ∧ Foreground.showFrame cv s = some s2 ∧
        s2.priorPoints = s.nextPoints ∧ s2.nextPoints = []) ∧
    (∃ s1 s2, LucasKanade.showFrame cv sL = some s1 ∧ s1.priorPoints = [] ∧
      LucasKanade.showFrame cv s1 = some s2 ∧ s2.priorPoints = sL.priorPoints) ∧
    (∃ s1 s2, Foreground.showFrame cv sF = some s1 ∧ s1.priorPoints = [] ∧
      Foreground.showFrame cv s1 = some s2 ∧ s2.priorPoints = sF.priorPoints) := by
  -- a frame of the Lucas-Kanade player
  have lkFrame : ∀ s : LucasKanade.LucasKanadeVideoPlayer V Mat Pt,
      cv.hasData (cv.read s.video).2 = true → s.mode = Mode.NONE →
      ∃ s1, LucasKanade.beforeSwap cv s = some s1 ∧
        LucasKanade.showFrame cv s = some (LucasKanade.swapAndShow s1) ∧
        s1.priorPoints = s.priorPoints ∧ s1.mode = Mode.NONE ∧
        s1.nextPoints =
          (if s.priorPoints.isEmpty then s.nextPoints
           else survivors
            (cv.calcOpticalFlowPyrLK s.priorPyramid
              (LucasKanade.makePyramid cv (cv.cvtColor (cv.read s.video).2))
              s.priorPoints s.nextPoints).2
            (cv.calcOpticalFlowPyrLK s.priorPyramid
              (LucasKanade.makePyramid cv (cv.cvtColor (cv.read s.video).2))
              s.priorPoints s.nextPoints).1) := by
    intro s hd hm
    obtain ⟨hp, hn, hmo, -, -, hg, hpy, -⟩ := LucasKanade.lk_atHandleModes_fields cv s
    obtain ⟨s1, h1, h2, h3, -, -, -, -, h8, -⟩ :=
      LucasKanade.lk_handleModes_eq cv (LucasKanade.atHandleModes cv s)
        (LucasKanade.lk_handleModes_of_tracker cv htr _)
    refine ⟨s1, h1, ?_, ?_, h8, ?_⟩
    · rw [LucasKanade.lk_showFrame_displayed cv s hd]
      unfold LucasKanade.beforeSwap
      rw [h1]
      rfl
    · rw [h2, hmo, hp, hm]
      simp
    · rw [h3, hmo, hp, hn, hg, hpy, hm]
      simp
  -- a frame of the foreground player
  have fgFrame : ∀ s : Foreground.FkltVideoPlayer V B Mat Pt,
      cv.hasData (cv.read s.video).2 = true →
      Foreground.dispatchedMode (Foreground.atHandleModes cv s) = Mode.NONE →
      ∃ s1, Foreground.beforeSwap cv s = some s1 ∧
        Foreground.showFrame cv s = some (Foreground.swapAndShow s1) ∧
        s1.priorPoints = s.priorPoints ∧
        s1.nextPoints =
          (if s.priorPoints.isEmpty then s.nextPoints
           else survivors
            (cv.calcOpticalFlowImages s.priorGray (Foreground.atHandleModes cv s).nextGray
              s.priorPoints s.nextPoints).2
            (cv.calcOpticalFlowImages s.priorGray (Foreground.atHandleModes cv s).nextGray
              s.priorPoints s.nextPoints).1) := by
    intro s hd hm
    obtain ⟨hp, hn, -, -, hg, -⟩ := Foreground.fg_atHandleModes_fields cv s
    obtain ⟨h2, h3, h4, h5, -⟩ := Foreground.fg_handleModes_eq cv (Foreground.atHandleModes cv s)
    obtain ⟨s1, h1, -, -, hpp, -, -, -, hnp⟩ :=
      Foreground.fg_drawFlowPoints_defined cv htr
        (Foreground.handleModes cv (Foreground.atHandleModes cv s))
    have e1 : (Foreground.handleModes cv (Foreground.atHandleModes cv s)).priorPoints =
        s.priorPoints := by
      rw [h2, hp]
      simp [hm]
    have e2 : (Foreground.handleModes cv (Foreground.atHandleModes cv s)).nextPoints =
        s.nextPoints := by
      rw [h3, hn]
      simp [hm]
    refine ⟨s1, h1, ?_, hpp.trans e1, ?_⟩
    · rw [Foreground.fg_showFrame_displayed cv s hd]
      unfold Foreground.beforeSwap
      rw [h1]
      rfl
    · rw [hnp, e1, e2, h4, h5, hg]
  refine ⟨fun s hd hm hp => ?_, fun s hd hm hp => ?_, ?_, ?_⟩
  · obtain ⟨s1, h1, h2, h3, h4, h5⟩ := lkFrame s hd hm
    have e : s1.nextPoints = s.nextPoints := by
      rw [h5, hp]
      rfl
    exact ⟨s1, _, h1, e, h3.trans hp, h2, e, h3.trans hp, h4⟩
  · obtain ⟨s1, h1, h2, h3, h5⟩ := fgFrame s hd hm
    have e : s1.nextPoints = s.nextPoints := by
      rw [h5, hp]
      rfl
    exact ⟨s1, _, h1, e, h3.trans hp, h2, e, h3.trans hp⟩
  · obtain ⟨a, -, ha, hap, ham, han⟩ := lkFrame sL hLd hLm
    have hne : sL.priorPoints.isEmpty = false := by
      cases hq : sL.priorPoints with
      | nil => exact absurd hq hLp
      | cons x l => rfl
    have ean : a.nextPoints = [] := by
      rw [han, hne]
      exact survivors_all_zero _ _ hLfail
    obtain ⟨b, -, hb, hbp, -, hbn⟩ :=
      lkFrame (LucasKanade.swapAndShow a) (hLd2 _ ha) ham
    have ebn : b.nextPoints = sL.priorPoints := by
      rw [hbn]
      show (if a.nextPoints.isEmpty then a.priorPoints else _) = _
      rw [ean, hap]
      rfl
    exact ⟨_, _, ha, ean, hb, ebn⟩
  · obtain ⟨a, -, ha, hap, han⟩ := fgFrame sF hFd hFm
    have hne : sF.priorPoints.isEmpty = false := by
      cases hq : sF.priorPoints with
      | nil => exact absurd hq hFp
      | cons x l => rfl
    have ean : a.nextPoints = [] := by
      rw [han, hne]
      exact survivors_all_zero _ _ hFfail
    obtain ⟨b, -, hb, hbp, hbn⟩ :=
      fgFrame (Foreground.swapAndShow a) (hFd2 _ ha).1 (hFd2 _ ha).2
    have ebn : b.nextPoints = sF.priorPoints := by
      rw [hbn]
      show (if a.nextPoints.isEmpty then a.priorPoints else _) = _
      rw [ean, hap]
      rfl
    exact ⟨_, _, ha, ean, hb, ebn⟩

theorem C27_lost_points_reappear_witness :
    TrackerPerPoint Sample.cv ∧
    Sample.lkLosing.priorPoints = [(5, 5), (7, 7)] ∧
    Sample.fgTracking.priorPoints = [(5, 5), (7, 7)] ∧
    (∃ s1 s2, LucasKanade.showFrame Sample.cv Sample.lkLosing = some s1 ∧ s1.priorPoints = [] ∧
      LucasKanade.showFrame Sample.cv s1 = some s2 ∧ s2.priorPoints = [(5, 5), (7, 7)]) ∧
    (∃ s1 s2, Foreground.showFrame Sample.cv Sample.fgTracking = some s1 ∧ s1.priorPoints = [] ∧
      Foreground.showFrame Sample.cv s1 = some s2 ∧ s2.priorPoints = [(5, 5), (7, 7)]) := by
  have hL2 : ∀ s1, LucasKanade.showFrame Sample.cv Sample.lkLosing = some s1 →
      Sample.cv.hasData (Sample.cv.read s1.video).2 = true := by
    intro s1 h
    have hx : (LucasKanade.showFrame Sample.cv Sample.lkLosing).map
        (fun t => Sample.cv.hasData (Sample.cv.read t.video).2) = some true := rfl
    rw [h] at hx
    exact Option.some.inj hx
  have hF2 : ∀ s1, Foreground.showFrame Sample.cv Sample.fgTracking = some s1 →
      Sample.cv.hasData (Sample.cv.read s1.video).2 = true ∧
      Foreground.dispatchedMode (Foreground.atHandleModes Sample.cv s1) = Mode.NONE := by
    intro s1 h
    have hy : (Foreground.showFrame Sample.cv Sample.fgTracking).map
        (fun t => Sample.cv.hasData (Sample.cv.read t.video).2) = some true := rfl
    have hz : (Foreground.showFrame Sample.cv Sample.fgTracking).map
        (fun t => Foreground.dispatchedMode (Foreground.atHandleModes Sample.cv t)) =
          some Mode.NONE := rfl
    rw [h] at hy hz
    exact ⟨Option.some.inj hy, Option.some.inj hz⟩
  obtain ⟨-, -, hL, hF⟩ :=
    C27_lost_points_reappear Sample.cv Sample.cv_trackerPerPoint
      Sample.lkLosing (by decide) rfl (by decide) (by decide) hL2
      Sample.fgTracking (by decide) rfl (by decide) (by decide) hF2
  exact ⟨Sample.cv_trackerPerPoint, rfl, rfl, hL, hF⟩

/-- C28: the foreground player made on a camera has `frameCount` 0 and no
trackbar, and after every run of actions its `position` is still 0.  So the
mode dispatched on every frame it displays is TRACK, whatever request is
pending: `handleModes` gives the same player for every pending mode, with the
detector's output on `priorGray` in `priorPoints` and `nextPoints` untouched,
and a pending CLEAR or POINT is not applied. -/
theorem C28_camera_forces_track (cv : Cv V B Mat Pt) (n : Int) (mode : Mode)
    (s0 : Foreground.FkltVideoPlayer V B Mat Pt)
    (h0 : Foreground.playerOfCamera cv n mode = some s0)
    (acts : List Action) (s1 : Foreground.FkltVideoPlayer V B Mat Pt)
    (h1 : Foreground.run cv acts s0 = some s1) :
    s0.frameCount = 0 ∧ s0.position = 0 ∧ s1.frameCount = 0 ∧ s1.position = 0 ∧
    Foreground.dispatchedMode (Foreground.atHandleModes cv s1) = Mode.TRACK ∧
    (∀ a m, Foreground.dispatchedBy cv a s1 = some m → m = Mode.TRACK) ∧
    (∀ m, Foreground.handleModes cv { Foreground.atHandleModes cv s1 with mode := m } =
      Foreground.handleModes cv (Foreground.atHandleModes cv s1)) ∧
    (Foreground.handleModes cv (Foreground.atHandleModes cv s1)).priorPoints =
      Foreground.getGoodTrackingPoints cv s1.priorGray ∧
    (Foreground.handleModes cv (Foreground.atHandleModes cv s1)).nextPoints = s1.nextPoints := by
  unfold Foreground.playerOfCamera at h0
  obtain ⟨d, -, hc⟩ := Option.map_eq_some'.mp h0
  have hinit : s0.trackbar = none ∧ s0.frameCount = 0 ∧ s0.position = 0 := by
    rw [← hc]
    simp only [Foreground.initialPlayer]
    split <;> exact ⟨rfl, rfl, rfl⟩
  obtain ⟨hp, ht, hf⟩ := Foreground.fg_run_camera cv acts s0 s1 hinit.1 hinit.2.1 h1
  have hpos : s1.position = 0 := hp.trans hinit.2.2
  obtain ⟨a1, a2, -, -, a5, -, -, -, -, -, a11⟩ := Foreground.fg_atHandleModes_fields cv s1
  have hat : (Foreground.atHandleModes cv s1).position = 0 := by
    rw [a11]
    simp [hf, hpos]
  have hdis : Foreground.dispatchedMode (Foreground.atHandleModes cv s1) = Mode.TRACK := by
    rw [Foreground.fg_dispatchedMode_eq, hat]
    rfl
  obtain ⟨b1, b2, -⟩ := Foreground.fg_handleModes_eq cv (Foreground.atHandleModes cv s1)
  refine ⟨hinit.2.1, hinit.2.2, hf, hpos, hdis, fun a m hm => ?_,
    fun m => Foreground.fg_handleModes_forced cv _ hat m, ?_, ?_⟩
  · cases a with
    | frame =>
      simp only [Foreground.dispatchedBy, Foreground.frameInput] at hm
      split at hm
      · rw [hdis] at hm
        exact (Option.some.inj hm).symm
      · cases hm
    | key code => simp [Foreground.dispatchedBy, Foreground.frameInput] at hm
    | mouse event x y => simp [Foreground.dispatchedBy, Foreground.frameInput] at hm
    | drag p => simp [Foreground.dispatchedBy, Foreground.frameInput, ht] at hm
  · rw [b1, hdis, a5]
    simp
  · rw [b2, hdis, a2]
    simp

theorem C28_camera_forces_track_witness :
    ∃ s0 s1, Foreground.playerOfCamera Sample.cv (-1) Mode.NONE = some s0 ∧
      Foreground.run Sample.cv [Action.frame, Action.key 99, Action.mouse 1 120 80] s0 = some s1 ∧
      s1.mode = Mode.POINT ∧ s1.position = 0 ∧
      Foreground.dispatchedMode (Foreground.atHandleModes Sample.cv s1) = Mode.TRACK := by
  have a : ∃ s, Foreground.playerOfCamera Sample.cv (-1) Mode.NONE = some s := by
    unfold Foreground.playerOfCamera
    simp only [Sample.cv_msDelay, Option.map_some']
    exact ⟨_, rfl⟩
  obtain ⟨s0, h0⟩ := a
  obtain ⟨s1, h1, -⟩ := Foreground.fg_run_defined Sample.cv Sample.cv_trackerPerPoint
    Sample.cv_staysOpen [Action.frame, Action.key 99, Action.mouse 1 120 80] s0
  obtain ⟨-, -, -, hp, hd, -⟩ := C28_camera_forces_track Sample.cv (-1) Mode.NONE s0 h0 _ s1 h1
  refine ⟨s0, s1, h0, h1, ?_, hp, hd⟩
  unfold Foreground.playerOfCamera at h0
  simp only [Sample.cv_msDelay, Option.map_some'] at h0
  have hm : (Foreground.run Sample.cv [Action.frame, Action.key 99, Action.mouse 1 120 80]
      (Foreground.reset Sample.cv
        (Foreground.initialPlayer Sample.cv (Sample.cv.openCamera (-1)) 33 0 State.RUN
          Mode.NONE))).map (fun t => t.mode) = some Mode.POINT := rfl
  have hs : s0 = Foreground.reset Sample.cv
      (Foreground.initialPlayer Sample.cv (Sample.cv.openCamera (-1)) 33 0 State.RUN
        Mode.NONE) := (Option.some.inj h0).symm
  rw [← hs, h1] at hm
  exact Option.some.inj hm

/-- C29, the code at a failing input: no constructor writes the member `mode`,
so the player a constructor returns holds in `mode` whatever value `m` the
member held before; its other members are as the claim says (`night` false,
`position` 0, no point, state STEP for the Lucas-Kanade player on a file and
RUN for the three others).  When the value is TRACK the first frame of the
Lucas-Kanade player made on the sample file detects points though no key was
pressed. -/
theorem C29_mode_not_initialised :
    (∀ m : Mode, ∃ s, LucasKanade.playerOfFile Sample.cv Sample.fileName m = some s ∧
      Sample.cv.isOpened s.video = true ∧ s.mode = m ∧ s.night = false ∧ s.position = 0 ∧
      s.priorPoints = [] ∧ s.nextPoints = [] ∧ s.state = State.STEP) ∧
    (∀ m : Mode, ∃ s, LucasKanade.playerOfCamera Sample.cv (-1) m = some s ∧
      Sample.cv.isOpened s.video = true ∧ s.mode = m ∧ s.night = false ∧ s.position = 0 ∧
      s.priorPoints = [] ∧ s.nextPoints = [] ∧ s.state = State.RUN) ∧
    (∀ m : Mode, ∃ s, Foreground.playerOfFile Sample.cv Sample.fileName m = some s ∧
      Sample.cv.isOpened s.video = true ∧ s.mode = m ∧ s.night = false ∧ s.position = 0 ∧
      s.priorPoints = [] ∧ s.nextPoints = [] ∧ s.state = State.RUN) ∧
    (∀ m : Mode, ∃ s, Foreground.playerOfCamera Sample.cv (-1) m = some s ∧
      Sample.cv.isOpened s.video = true ∧ s.mode = m ∧ s.night = false ∧ s.position = 0 ∧
      s.priorPoints = [] ∧ s.nextPoints = [] ∧ s.state = State.RUN) ∧
    (∃ s s1, LucasKanade.playerOfFile Sample.cv Sample.fileName Mode.TRACK = some s ∧
      s.mode = Mode.TRACK ∧ s.mode ≠ Mode.NONE ∧
      LucasKanade.showFrame Sample.cv s = some s1 ∧ s1.priorPoints = [(101, 1), (101, 2)]) ∧
    (∃ s s1, LucasKanade.playerOfFile Sample.cv Sample.fileName Mode.NONE = some s ∧
      LucasKanade.showFrame Sample.cv s = some s1 ∧ s1.priorPoints = []) := by
  refine ⟨fun m => ?_, fun m => ?_, fun m => ?_, fun m => ?_, ?_, ?_⟩
  · unfold LucasKanade.playerOfFile
    simp only [Sample.cv_msDelay, Option.map_some']
    exact ⟨_, rfl, rfl, rfl, rfl, rfl, rfl, rfl, rfl⟩
  · unfold LucasKanade.playerOfCamera
    simp only [Sample.cv_msDelay, Option.map_some']
    exact ⟨_, rfl, rfl, rfl, rfl, rfl, rfl, rfl, rfl⟩
  · unfold Foreground.playerOfFile
    simp only [Sample.cv_msDelay, Option.map_some']
    exact ⟨_, rfl, rfl, rfl, rfl, rfl, rfl, rfl, rfl⟩
  · unfold Foreground.playerOfCamera
    simp only [Sample.cv_msDelay, Option.map_some']
    exact ⟨_, rfl, rfl, rfl, rfl, rfl, rfl, rfl, rfl⟩
  · unfold LucasKanade.playerOfFile
    simp only [Sample.cv_msDelay, Option.map_some']
    exact ⟨_, _, rfl, rfl, by decide, rfl, rfl⟩
  · unfold LucasKanade.playerOfFile
    simp only [Sample.cv_msDelay, Option.map_some']
    exact ⟨_, _, rfl, rfl, rfl⟩

end Claims

end OpenCvDemos
